import Mathlib

/-!
# Verification of the i3-gradients X11 synchronization layer

This development is a shallow embedding of the X11 synchronization layer of
the i3-gradients window manager (`src/x.c`, here `src/unnamed/part_000`),
of the decoration cache (`x_draw_decoration`), and of the gradient fill
routine (`src/libi3/draw_util.c`), together with proofs about the claims of
the specification.

Modelling conventions:
* C `uint32_t` fields (rects, window ids) become `Nat`; the place where the
  source casts to a narrower signed type is modelled with an explicit
  conversion (`toInt32`).
* C `double` is modelled with exact rational arithmetic (`Rat`); every
  operation the source uses on doubles (`+`, `-`, `*`, `/`, `floor`,
  comparisons) has its exact counterpart.
* Intrusive circular doubly-linked lists (`CIRCLEQ`/`TAILQ`) become `List`s
  ordered head-first; record identity is by X11 window/frame id.
* Calls into the X server (`xcb_*`) become elements of a trace (`XOp`).
* Functions of the container tree module (`con.c`, not part of this
  excerpt) whose results the synchronization layer merely consumes
  (`con_border_style`, `con_is_floating`, `con_is_hidden`,
  `con_is_maximized`, `con_inside_focused`, `con_descend_focused`,
  `con_draw_decoration_into_frame`, `con_has_managed_window`) are modelled
  as input fields resolved on each container / shadow record, as the
  specification's external-interface section prescribes.
-/

set_option linter.unusedVariables false

namespace I3X

/-- `struct Rect` from data.h: four `uint32_t` fields. -/
structure Rect where
  x : Nat
  y : Nat
  width : Nat
  height : Nat
deriving DecidableEq, Repr

/-- `rect_equals` (util.c): component-wise equality of two rects. -/
def rect_equals (a b : Rect) : Bool :=
  a.x == b.x && a.y == b.y && a.width == b.width && a.height == b.height

/-- `layout_t` from data.h. -/
inductive layout_t
  | L_DEFAULT | L_STACKED | L_TABBED | L_DOCKAREA | L_OUTPUT | L_SPLITV | L_SPLITH
deriving DecidableEq, Repr

/-- Container type enumeration (`Con::type`) from data.h. -/
inductive con_type_t
  | CT_ROOT | CT_OUTPUT | CT_CON | CT_FLOATING_CON | CT_WORKSPACE | CT_DOCKAREA
deriving DecidableEq, Repr

/-- `border_style_t` from data.h. -/
inductive border_style_t
  | BS_NONE | BS_PIXEL | BS_NORMAL
deriving DecidableEq, Repr

/-- `color_t` (libi3): red/green/blue/alpha doubles (exact rationals here)
plus the precomputed `colorpixel`. -/
structure color_t where
  red : Rat
  green : Rat
  blue : Rat
  alpha : Rat
  colorpixel : Nat
deriving DecidableEq, Repr

/-- `struct Colortriple` from data.h: the five colors of a focus class. -/
structure Colortriple where
  border : color_t
  background : color_t
  text : color_t
  indicator : color_t
  child_border : color_t
deriving DecidableEq, Repr

/-- The `config.client` fields read by this subsystem (config.h). -/
structure ConfigClient where
  background : color_t
  gradient_start : color_t
  gradient_end : color_t
  gradient_unfocused_start : color_t
  gradient_unfocused_end : color_t
  gradients : Bool
  dithering : Bool
  dither_noise : Rat
  gradient_offset_start : Rat
  gradient_offset_end : Rat
  got_focused_tab_title : Bool
  focused : Colortriple
  focused_inactive : Colortriple
  focused_tab_title : Colortriple
  unfocused : Colortriple
  urgent : Colortriple
deriving DecidableEq, Repr

/-- The slice of the global `config` consumed here. -/
structure Config where
  client : ConfigClient
deriving DecidableEq, Repr

/-- The fields of `struct Window` (data.h) read by this subsystem. -/
structure Window where
  id : Nat
  needs_take_focus : Bool
  doesnt_accept_focus : Bool
  name_x_changed : Bool
  shaped : Bool
  input_shaped : Bool
deriving DecidableEq, Repr

/-- In `x_draw_decoration`, `p->color` is a pointer to one of the five
`config.client` color triples; the `memcmp` of the cached snapshot
therefore compares pointer identity, i.e. which class was selected. -/
inductive ColorClass
  | urgent | focused | focused_tab_title | focused_inactive | unfocused
deriving DecidableEq, Repr

/-- `struct width_height` from data.h. -/
structure width_height where
  w : Nat
  h : Nat
deriving DecidableEq, Repr

/-- `struct deco_render_params` from data.h. -/
structure deco_render_params where
  color : ColorClass
  gradient_start : color_t
  gradient_end : color_t
  gradient_unfocused_start : color_t
  gradient_unfocused_end : color_t
  gradients : Bool
  dithering : Bool
  dither_noise : Rat
  gradient_offset_start : Rat
  gradient_offset_end : Rat
  border_style : border_style_t
  con_rect : width_height
  con_window_rect : width_height
  con_deco_rect : Rect
  background : color_t
  parent_layout : layout_t
  con_is_leaf : Bool
deriving DecidableEq, Repr

/-- The scalar (non-recursive) fields of `struct Con` (data.h) that this
subsystem reads or writes, plus the focus-order child list `focus_head`
represented by frame ids (the children themselves are stored in the
`nodes`/`floats` components of `Con`).

`floating` (`con_is_floating`), `border_style` (`con_border_style`),
`is_hidden` (`con_is_hidden`), `maximized_horz`/`maximized_vert`
(`con_is_maximized`), `inside_focused` (`con == focused ||
con_inside_focused(con)`), `descend_focused_is_focused`
(`con_descend_focused(con) == focused`) and `draw_deco_into_frame`
(`con_draw_decoration_into_frame(con)`) are results of tree-module
functions outside this excerpt, resolved per container as inputs. -/
structure ConData where
  frameId : Nat
  ctype : con_type_t
  layout : layout_t
  rect : Rect
  window_rect : Rect
  deco_rect : Rect
  window : Option Window
  mapped : Bool
  urgent : Bool
  floating : Bool
  frame_buffer : Option Nat
  pixmap_recreated : Bool
  ignore_unmap : Nat
  border_style : border_style_t
  is_hidden : Bool
  maximized_horz : Bool
  maximized_vert : Bool
  mark_changed : Bool
  deco_params : Option deco_render_params
  inside_focused : Bool
  descend_focused_is_focused : Bool
  draw_deco_into_frame : Bool
  depth : Nat
  colormap : Option Nat
  focus_ids : List Nat
deriving DecidableEq, Repr

/-- A container tree node: scalar data plus `nodes_head` (tiling children,
attach order) and `floating_head` (floating children). -/
inductive Con where
  | mk (data : ConData) (nodes : List Con) (floats : List Con)
deriving Repr

/-- Scalar data of a container. -/
def Con.data : Con → ConData
  | .mk d _ _ => d

/-- `nodes_head`: the tiling children in attach order. -/
def Con.nodes : Con → List Con
  | .mk _ n _ => n

/-- `floating_head`: the floating children. -/
def Con.floats : Con → List Con
  | .mk _ _ f => f

/-- Replace the scalar data of a container. -/
def Con.setData (c : Con) (d : ConData) : Con :=
  .mk d c.nodes c.floats

/-- Replace the tiling children of a container. -/
def Con.setNodes (c : Con) (n : List Con) : Con :=
  .mk c.data n c.floats

/-- Replace the floating children of a container. -/
def Con.setFloats (c : Con) (f : List Con) : Con :=
  .mk c.data c.nodes f

/-- `struct con_state` from x.c: the shadow record of one container.

The source keeps a back pointer `state->con` into the live tree, read
during the stacking walk only through `con_has_managed_window(state->con)`
and `state->con->window->id`; these two reads are modelled by the fields
`has_managed_window` / `managed_window_id`. -/
structure con_state where
  id : Nat
  mapped : Bool
  unmap_now : Bool
  child_mapped : Bool
  is_hidden : Bool
  is_maximized_vert : Bool
  is_maximized_horz : Bool
  has_managed_window : Bool
  managed_window_id : Nat
  need_reparent : Bool
  old_frame : Nat
  was_floating : Bool
  rect : Rect
  window_rect : Rect
  initial : Bool
  name : Option String
deriving DecidableEq, Repr

/-- The registry state of x.c: the three shadow-record lists plus the
connection-wide id generator and the static client-list length.

* `states` is `state_head` (current stacking order, head = top);
* `old_order` is `old_state_head`, by frame id (the records themselves are
  shared with `states`);
* `initial_mapping` is `initial_mapping_head`, by frame id;
* `client_list_count` is the static counter in `x_push_changes`;
* `next_id` models `xcb_generate_id`. -/
structure XState where
  states : List con_state
  old_order : List Nat
  initial_mapping : List Nat
  client_list_count : Nat
  next_id : Nat
deriving Repr

/-- The file-scope mutable globals of x.c. `XCB_NONE` is `0`.
`focused_frame` stands for the global `focused` container pointer (owned by
the tree module), identified by its frame id. -/
structure Globals where
  focused_id : Nat
  last_focused : Nat
  warp_to : Option Rect
  focused_frame : Nat
deriving Repr

/-- The read-only environment of a pass: configuration, RandR output lookup
(`get_output_containing`), the pointer-query reply the X server would
deliver this pass, the shape-extension capability flag, and the ids of the
X root window and of the EWMH support window, plus the root visual depth. -/
structure Env where
  output_at : Int → Int → Option Nat
  pointer_reply : Option (Int × Int)
  shape_supported : Bool
  root_window : Nat
  ewmh_window : Nat
  root_depth : Nat

/-- One operation sent to the X server (the peer).  Fire-and-forget
`xcb_*` calls each become one trace element; the painting primitives of
the decoration painter (`draw_util_rectangle`, `draw_util_text`, …, steps
2–6 of `x_draw_decoration`) are summarized by a single `decoPaint` marker
carrying the painted frame and destination surface. -/
inductive XOp where
  | changeProperty (win : Nat)
  | deleteProperty (win : Nat)
  | changeWindowAttributes (win : Nat)
  | reparentWindow (win parent : Nat)
  | configureRestack (win sibling : Nat)
  | setWindowRect (win : Nat) (r : Rect)
  | mapWindow (win : Nat)
  | unmapWindow (win : Nat)
  | copySurface (src dst : Nat)
  | queryPointer
  | warpPointer (x y : Int)
  | setInputFocus (win : Nat)
  | sendEvent (win : Nat)
  | createPixmap (pixmap drawable : Nat) (width height : Int)
  | freePixmap (pixmap : Nat)
  | changeGC (pixmap : Nat)
  | clearSurface (surf : Nat)
  | shapeCombine (win : Nat)
  | shapeMask (win : Nat)
  | decoPaint (frame dest : Nat)
  | ipcWindowEvent (frame : Nat)
  | destroyWindow (win : Nat)
  | createWindow (win : Nat)
  | createColormap (cm : Nat)
  | freeColormap (cm : Nat)
  | flushConn
deriving DecidableEq, Repr

/-- A trace of peer operations, in emission order. -/
abbrev Trace := List XOp

/-- Interpretation of the C cast `(int32_t)` applied to a `uint32_t`. -/
def toInt32 (n : Nat) : Int :=
  let m : Nat := n % 2 ^ 32
  if m < 2 ^ 31 then (m : Int) else (m : Int) - 2 ^ 32

/-- `state_for_frame`: look up the shadow record for a frame id.  The
source asserts on absence; absence is modelled as `none` and every theorem
that needs it assumes presence. -/
def state_for_frame (xs : XState) (window : Nat) : Option con_state :=
  xs.states.find? (fun st => st.id == window)

/-- Write back a mutated shadow record (the source mutates the record found
by `state_for_frame` in place; here the first record with the same id is
replaced). -/
def replace_state : List con_state → con_state → List con_state
  | [], _ => []
  | st :: rest, st2 => if st.id == st2.id then st2 :: rest else st :: replace_state rest st2

/-- Write back a mutated shadow record into the registry. -/
def set_state (xs : XState) (st : con_state) : XState :=
  { xs with states := replace_state xs.states st }

/-- Find a child container by frame id (resolving a `focus_head` entry in
`nodes_head`/`floating_head`). -/
def findById (id : Nat) (l : List Con) : Option Con :=
  l.find? (fun c => c.data.frameId == id)

/-- Replace the first child with the given frame id. -/
def replaceById (id : Nat) (c2 : Con) : List Con → List Con
  | [] => []
  | c :: cs => if c.data.frameId == id then c2 :: cs else c :: replaceById id c2 cs

/-- `con_is_leaf` (con.c): no tiling children (`TAILQ_EMPTY(nodes_head)`). -/
def con_is_leaf (c : Con) : Bool :=
  c.nodes.isEmpty

/-- The decoration-height computation of `x_push_node` (x.c lines
997–1005): a fold over the tiling children in attach order that updates
the pair `(max_y, max_height)` only when the child's decoration rect has
both `y ≥ max_y` and `height ≥ max_height`, and returns
`max_y + max_height`. -/
def deco_height_fold (children : List Con) : Nat :=
  let p := children.foldl
    (fun (acc : Nat × Nat) cur =>
      if acc.1 ≤ cur.data.deco_rect.y ∧ acc.2 ≤ cur.data.deco_rect.height then
        (cur.data.deco_rect.y, cur.data.deco_rect.height)
      else acc)
    (0, 0)
  p.1 + p.2

/-- The effective target rect of a container as computed at the top of
`x_push_node` (local variable `rect`): for a windowless stacked/tabbed
container the height is replaced by `deco_height_fold`, otherwise the
container's own rect is used. -/
def x_push_node_rect (c : Con) : Rect :=
  if c.data.window = none ∧ (c.data.layout = .L_STACKED ∨ c.data.layout = .L_TABBED) then
    { c.data.rect with height := deco_height_fold c.nodes }
  else c.data.rect

/-- The value of `con->mapped` after the windowless-container handling at
the top of `x_push_node` (x.c lines 994–1012). -/
def x_push_node_mapped (c : Con) : Bool :=
  if c.data.window = none ∧ (c.data.layout = .L_STACKED ∨ c.data.layout = .L_TABBED) then
    if deco_height_fold c.nodes = 0 then false else c.data.mapped
  else if c.data.window = none then false
  else c.data.mapped

/-- `is_pixmap_needed` as computed in `x_push_node` (x.c lines 1054–1067):
required for leaves with a border and for stacked/tabbed containers, never
for the root or an output. -/
def is_pixmap_needed (c : Con) : Bool :=
  if c.data.ctype = .CT_ROOT ∨ c.data.ctype = .CT_OUTPUT then false
  else
    (con_is_leaf c && !(c.data.border_style == .BS_NONE))
      || c.data.layout == .L_STACKED || c.data.layout == .L_TABBED

mutual

/-- All containers of a subtree (the container itself, then the subtrees of
its tiling and floating children). -/
def conList : Con → List Con
  | .mk d n f => Con.mk d n f :: (conListL n ++ conListL f)

/-- All containers of a forest. -/
def conListL : List Con → List Con
  | [] => []
  | c :: cs => conList c ++ conListL cs

end

/-- `con->window != NULL && con->window->name_x_changed`. -/
def windowNameChanged (c : Con) : Bool :=
  match c.data.window with
  | some w => w.name_x_changed
  | none => false

/-- The context a container's decoration draw receives from its parent: the
parent fields read by `x_draw_decoration` (dereferenced through
`con->parent` in the source) plus the later siblings in the parent's
`nodes_head` (reached through `TAILQ_NEXT(con, nodes)` in the source) and
the two first-child tests. -/
structure DrawCtx where
  parent_layout : layout_t
  parent_type : con_type_t
  parent_pixmap_recreated : Bool
  parent_deco_params : Option deco_render_params
  parent_frame_buffer : Option Nat
  parent_frame_id : Nat
  is_first_nodes : Bool
  is_first_focus : Bool
  later_nodes : List Con

/-- The mutations `x_draw_decoration` performs through the parent pointer
and the sibling chain, returned to the caller. -/
structure CtxUpd where
  parent_pixmap_recreated : Bool
  parent_deco_params : Option deco_render_params
  later_nodes : List Con

/-- The no-change update for a context. -/
def CtxUpd.ofCtx (ctx : DrawCtx) : CtxUpd :=
  { parent_pixmap_recreated := ctx.parent_pixmap_recreated
    parent_deco_params := ctx.parent_deco_params
    later_nodes := ctx.later_nodes }

/-- Section 1 of `x_draw_decoration` (x.c lines 496–541): build the
decoration parameter snapshot, including the first-match-wins color-class
selection. -/
def build_deco_params (cfg : Config) (ctx : DrawCtx) (con : Con) : deco_render_params :=
  let leaf := con_is_leaf con
  let cls : ColorClass :=
    if con.data.urgent then .urgent
    else if con.data.inside_focused then .focused
    else if ctx.is_first_focus then
      if cfg.client.got_focused_tab_title && !leaf && con.data.descend_focused_is_focused then
        .focused_tab_title
      else .focused_inactive
    else .unfocused
  let override := (cls = .focused_inactive ∨ cls = .unfocused) ∧ cfg.client.gradients
  { color := cls
    gradient_start :=
      if override then cfg.client.gradient_unfocused_start else cfg.client.gradient_start
    gradient_end :=
      if override then cfg.client.gradient_unfocused_end else cfg.client.gradient_end
    gradient_unfocused_start := cfg.client.gradient_unfocused_start
    gradient_unfocused_end := cfg.client.gradient_unfocused_end
    gradients := cfg.client.gradients
    dithering := cfg.client.dithering
    dither_noise := cfg.client.dither_noise
    gradient_offset_start := cfg.client.gradient_offset_start
    gradient_offset_end := cfg.client.gradient_offset_end
    border_style := con.data.border_style
    con_rect := ⟨con.data.rect.width, con.data.rect.height⟩
    con_window_rect := ⟨con.data.window_rect.width, con.data.window_rect.height⟩
    con_deco_rect := con.data.deco_rect
    background := cfg.client.background
    parent_layout := ctx.parent_layout
    con_is_leaf := con_is_leaf con }

/-- The `copy_pixmaps` epilogue of `x_draw_decoration`:
`draw_util_copy_surface(&con->frame_buffer, &con->frame, …)`, which is a
no-op when the buffer surface is not initialized. -/
def copy_pixmaps_ops (con : Con) : Trace :=
  match con.data.frame_buffer with
  | some fb => [XOp.copySurface fb con.data.frameId]
  | none => []

/-- The repaint path of `x_draw_decoration` (x.c lines 553–810), entered
when the cache test fails: invalidate the cached params of every later
sibling (lines 553–556), cache the new params (558–559), clear the
window's name-changed flag (561–563) and the recreation and mark flags
(565–567), paint (steps 2–6, summarized by the `decoPaint` marker) into
`con->frame_buffer` and the destination surface selected at lines
621–627, clear the parent's params when this is the first tiling child
and the destination exists (630–641), and copy the buffer onto the
frame. -/
def x_draw_deco_repaint (ctx : DrawCtx) (p : deco_render_params) (con0 : Con) :
    Con × CtxUpd × Trace :=
  let later := ctx.later_nodes.map (fun n => n.setData { n.data with deco_params := none })
  let c1 := con0.setData { con0.data with deco_params := some p }
  let c2 :=
    match c1.data.window with
    | some w =>
      if w.name_x_changed then
        c1.setData { c1.data with window := some { w with name_x_changed := false } }
      else c1
    | none => c1
  let con := c2.setData { c2.data with pixmap_recreated := false, mark_changed := false }
  let dest : Option Nat :=
    if con.data.draw_deco_into_frame then con.data.frame_buffer else ctx.parent_frame_buffer
  let tr1 : Trace := [XOp.decoPaint con.data.frameId (dest.getD 0)]
  let upd : CtxUpd :=
    { parent_pixmap_recreated := false
      parent_deco_params :=
        -- when the destination surface does not exist the source jumps to
        -- `copy_pixmaps` before the first-child clearing of the parent's
        -- params (lines 630–641)
        if dest = none then ctx.parent_deco_params
        else if ctx.is_first_nodes then none else ctx.parent_deco_params
      later_nodes := later }
  (con, upd, tr1 ++ copy_pixmaps_ops con)

/-- `x_draw_decoration` (x.c lines 462–810).

The drawing primitives of steps 2–6 (background, borders, indicator, title
bar, marks, title text, icon) are summarized by one `decoPaint` marker;
all control flow that determines cache state, sibling invalidation, flag
clearing and the final buffer copy is modelled exactly. -/
def x_draw_decoration (cfg : Config) (ctx : DrawCtx) (con : Con) :
    Con × CtxUpd × Trace :=
  -- applicability filter (lines 474–481)
  if (¬con_is_leaf con = true ∧ ctx.parent_layout ≠ .L_STACKED ∧
      ctx.parent_layout ≠ .L_TABBED) ∨
      ctx.parent_type = .CT_OUTPUT ∨ ctx.parent_type = .CT_DOCKAREA ∨
      con.data.ctype = .CT_FLOATING_CON then
    (con, CtxUpd.ofCtx ctx, [])
  -- skip zero-height containers (lines 483–485)
  else if con.data.rect.height = 0 then
    (con, CtxUpd.ofCtx ctx, [])
  -- skip leaves whose pixmap does not exist yet (lines 488–493)
  else if con_is_leaf con = true ∧ con.data.frame_buffer = none then
    (con, CtxUpd.ofCtx ctx, [])
  else
    -- 1: build deco_params and compare with cache (lines 496–551)
    let p := build_deco_params cfg ctx con
    if con.data.deco_params = some p ∧ windowNameChanged con = false ∧
        ctx.parent_pixmap_recreated = false ∧ con.data.pixmap_recreated = false ∧
        con.data.mark_changed = false then
      (con, CtxUpd.ofCtx ctx, copy_pixmaps_ops con)
    else
      x_draw_deco_repaint ctx p con

mutual

/-- `x_deco_recurse` (x.c lines 818–842), fueled.  `ctx` is the parent
context for this container's own decoration; it is `none` only for the
pass root (whose parent pointer is `NULL` in the source — only ever the
tree root, of type `CT_ROOT`, for which `x_draw_decoration` is not
invoked). -/
def x_deco_recurse : Nat → Config → XState → Option DrawCtx → Con →
    Con × Option CtxUpd × Trace
  | 0, _, _, ctx, c => (c, ctx.map CtxUpd.ofCtx, [])
  | fuel + 1, cfg, s, ctx, c =>
    let leaf := c.nodes.isEmpty && c.floats.isEmpty
    let ct := if leaf then (c, ([] : Trace)) else x_deco_children fuel cfg s c
    -- draw this container's own decoration (lines 838–841)
    if ct.1.data.ctype ≠ .CT_ROOT ∧ ct.1.data.ctype ≠ .CT_OUTPUT ∧
        (leaf = false ∨ ct.1.data.mapped = true) then
      match ctx with
      | some dctx =>
        let r := x_draw_decoration cfg dctx ct.1
        (r.1, some r.2.1, ct.2 ++ r.2.2)
      | none => (ct.1, none, ct.2)
    else
      (ct.1, ctx.map CtxUpd.ofCtx, ct.2)

/-- The children-processing part of `x_deco_recurse` (x.c lines 824–836):
recurse over the tiling children threading the parent fields their draws
can mutate, then over the floating children, then copy the buffer of a
mapped inner container onto its frame (lines 833–835). -/
def x_deco_children : Nat → Config → XState → Con → Con × Trace
  | fuel, cfg, s, c =>
    let r := deco_nodes_loop fuel cfg s c.data c.data.pixmap_recreated c.data.deco_params
      true c.nodes
    let r2 := deco_floats_loop fuel cfg s c.data r.2.1 r.2.2.1 c.floats
    let c2 := Con.mk { c.data with pixmap_recreated := r2.2.1, deco_params := r2.2.2.1 }
      r.1 r2.1
    let trC : Trace :=
      match state_for_frame s c.data.frameId with
      | some st => if st.mapped then copy_pixmaps_ops c2 else []
      | none => []
    (c2, r.2.2.2 ++ r2.2.2.2 ++ trC)

/-- The `TAILQ_FOREACH` over `nodes_head` in `x_deco_recurse`, threading
the parent fields that a child's draw can mutate (`pixmap_recreated`,
`deco_render_params`) and the evolving sibling list.  Returns the updated
children, the final two parent fields, and the trace. -/
def deco_nodes_loop : Nat → Config → XState → ConData → Bool →
    Option deco_render_params → Bool → List Con →
    List Con × Bool × Option deco_render_params × Trace
  | 0, _, _, _, ppr, ppar, _, todo => (todo, ppr, ppar, [])
  | _ + 1, _, _, _, ppr, ppar, _, [] => ([], ppr, ppar, [])
  | fuel + 1, cfg, s, pdata, ppr, ppar, isFirst, cur :: rest =>
    let ctx : DrawCtx :=
      { parent_layout := pdata.layout
        parent_type := pdata.ctype
        parent_pixmap_recreated := ppr
        parent_deco_params := ppar
        parent_frame_buffer := pdata.frame_buffer
        parent_frame_id := pdata.frameId
        is_first_nodes := isFirst
        is_first_focus := pdata.focus_ids.head? == some cur.data.frameId
        later_nodes := rest }
    let r := x_deco_recurse fuel cfg s (some ctx) cur
    let upd := r.2.1.getD (CtxUpd.ofCtx ctx)
    let r2 := deco_nodes_loop fuel cfg s pdata upd.parent_pixmap_recreated
      upd.parent_deco_params false upd.later_nodes
    (r.1 :: r2.1, r2.2.1, r2.2.2.1, r.2.2 ++ r2.2.2.2)

/-- The `TAILQ_FOREACH` over `floating_head` in `x_deco_recurse`.  A
floating container is never a member of a `nodes_head`, so its
`TAILQ_NEXT(·, nodes)` chain is empty and it is never the first tiling
child. -/
def deco_floats_loop : Nat → Config → XState → ConData → Bool →
    Option deco_render_params → List Con →
    List Con × Bool × Option deco_render_params × Trace
  | 0, _, _, _, ppr, ppar, todo => (todo, ppr, ppar, [])
  | _ + 1, _, _, _, ppr, ppar, [] => ([], ppr, ppar, [])
  | fuel + 1, cfg, s, pdata, ppr, ppar, cur :: rest =>
    let ctx : DrawCtx :=
      { parent_layout := pdata.layout
        parent_type := pdata.ctype
        parent_pixmap_recreated := ppr
        parent_deco_params := ppar
        parent_frame_buffer := pdata.frame_buffer
        parent_frame_id := pdata.frameId
        is_first_nodes := false
        is_first_focus := pdata.focus_ids.head? == some cur.data.frameId
        later_nodes := [] }
    let r := x_deco_recurse fuel cfg s (some ctx) cur
    let upd := r.2.1.getD (CtxUpd.ofCtx ctx)
    let r2 := deco_floats_loop fuel cfg s pdata upd.parent_pixmap_recreated
      upd.parent_deco_params rest
    (r.1 :: r2.1, r2.2.1, r2.2.2.1, r.2.2 ++ r2.2.2.2)

end

mutual

/-- Height of a container tree (used as recursion fuel for the focus-order
walk of `x_push_node`). -/
def conDepth : Con → Nat
  | .mk d n f => 1 + max (conDepthL n) (conDepthL f)

/-- Height of a forest. -/
def conDepthL : List Con → Nat
  | [] => 0
  | c :: cs => max (conDepth c) (conDepthL cs)

end

mutual

/-- Number of containers in a subtree (an upper bound used to provision
recursion fuel for the decoration walk). -/
def conSize : Con → Nat
  | .mk d n f => 1 + conSizeL n + conSizeL f

/-- Number of containers in a forest. -/
def conSizeL : List Con → Nat
  | [] => 0
  | c :: cs => conSize c + conSizeL cs

end

/-- The decoration walk with enough fuel for any path of the subtree
(each recursion level and each processed list element consumes one unit,
so twice the subtree size plus one is always sufficient). -/
def x_deco_recurse_at (cfg : Config) (s : XState) (ctx : Option DrawCtx) (c : Con) :
    Con × Option CtxUpd × Trace :=
  x_deco_recurse (2 * conSize c + 1) cfg s ctx c

/-- Lines 986–992 of `x_push_node`: push a pending debug name as the
frame's `WM_NAME` property and clear it. -/
def x_push_node_name (frameId : Nat) (st : con_state) : con_state × Trace :=
  match st.name with
  | some _ => ({ st with name := none }, [XOp.changeProperty frameId])
  | none => (st, [])

/-- Lines 1016–1043 of `x_push_node`: reparent the child window into this
frame, suppressing `UnmapNotify` generation on both windows by zeroing
their event masks around the reparent, clearing the request flag, and
counting one self-induced unmap.  Returns the reshape-needed flag. -/
def x_push_node_reparent (st : con_state) (c : Con) : con_state × Con × Bool × Trace :=
  match c.data.window with
  | some w =>
    if st.need_reparent then
      ({ st with old_frame := 0, need_reparent := false },
       c.setData { c.data with ignore_unmap := c.data.ignore_unmap + 1 },
       true,
       [XOp.changeWindowAttributes st.old_frame, XOp.changeWindowAttributes w.id,
        XOp.reparentWindow w.id c.data.frameId,
        XOp.changeWindowAttributes st.old_frame, XOp.changeWindowAttributes w.id])
    else (st, c, false, [])
  | none => (st, c, false, [])

/-- Result of the geometry stage of `x_push_node`. -/
structure GeoRes where
  s : XState
  st : con_state
  con : Con
  upd : Option CtxUpd
  fake : Bool
  tr : Trace

/-- The buffer (re)allocation of `x_push_node` (x.c lines 1089–1136):
generate or reuse the pixmap id, create the pixmap with both dimensions
clamped to a minimum of 1, clear it, disable graphics exposures on its
context, and pre-render the decoration unless the container is an
invisible member of a stack. -/
def x_push_node_alloc (cfg : Config) (s : XState) (ctx : Option DrawCtx)
    (st : con_state) (rect : Rect) (c1 : Con) :
    XState × Con × Option CtxUpd × Trace :=
  let gen : Nat × XState × Trace :=
    match c1.data.frame_buffer with
    | none => (s.next_id, { s with next_id := s.next_id + 1 }, [])
    | some fb => (fb, s, [XOp.freePixmap fb])
  let width : Int := max (toInt32 rect.width) 1
  let height : Int := max (toInt32 rect.height) 1
  let trNew : Trace :=
    [XOp.createPixmap gen.1 c1.data.frameId width height,
     XOp.clearSurface gen.1, XOp.changeGC gen.1]
  let c2 := c1.setData { c1.data with frame_buffer := some gen.1, pixmap_recreated := true }
  -- pre-render the decoration unless hidden inside a stack (lines 1128–1135)
  let decoCond :=
    match ctx with
    | none => true
    | some d => d.parent_layout ≠ .L_STACKED ∨ d.is_first_focus = true
  if decoCond then
    let r := x_deco_recurse_at cfg (set_state gen.2.1 st) ctx c2
    (gen.2.1, r.1, r.2.1, gen.2.2 ++ trNew ++ r.2.2)
  else (gen.2.1, c2, none, gen.2.2 ++ trNew)

/-- Lines 1083–1087 of `x_push_node`: free a leftover pixmap of a
container that previously had a border or titlebar but no longer needs
one. -/
def x_push_node_free (pixneed : Bool) (c : Con) : Con × Trace :=
  if !pixneed && c.data.frame_buffer.isSome then
    (c.setData { c.data with frame_buffer := none },
     match c.data.frame_buffer with
     | some fb => [XOp.freePixmap fb]
     | none => [])
  else (c, [])

/-- Lines 1138–1151 of `x_push_node`: flush, push the new frame geometry,
copy the buffer onto the frame when one exists, flush again. -/
def x_push_node_geo_push (c3 : Con) (rect : Rect) : Trace :=
  [XOp.flushConn, XOp.setWindowRect c3.data.frameId rect] ++
  (match c3.data.frame_buffer with
   | some fb => [XOp.copySurface fb c3.data.frameId]
   | none => []) ++
  [XOp.flushConn]

/-- Lines 1069–1152 of `x_push_node`: if a geometry change is pending
(rect changed while the target height is positive) or a backing buffer is
newly required, free an unneeded buffer, (re)allocate the buffer when
required and missing or resized, push the new geometry, copy the buffer
onto the frame, record the rect in the shadow record and flag the
synthetic configure notification. -/
def x_push_node_geometry (cfg : Config) (s : XState) (ctx : Option DrawCtx)
    (st : con_state) (rect : Rect) (c : Con) : GeoRes :=
  let pixneed := is_pixmap_needed c
  if pixneed && c.data.frame_buffer.isNone ||
      (!rect_equals st.rect rect && decide (0 < rect.height)) then
    let has_rect_changed :=
      !(st.rect.x == rect.x && st.rect.y == rect.y &&
        st.rect.width == rect.width && st.rect.height == rect.height)
    let fr := x_push_node_free pixneed c
    let c1 := fr.1
    -- (re)allocate the buffer (lines 1089–1136)
    let al : XState × Con × Option CtxUpd × Trace :=
      if pixneed && (has_rect_changed || c1.data.frame_buffer.isNone) then
        x_push_node_alloc cfg s ctx st rect c1
      else (s, c1, none, [])
    { s := al.1, st := { st with rect := rect }, con := al.2.1, upd := al.2.2.1,
      fake := true, tr := fr.2 ++ al.2.2.2 ++ x_push_node_geo_push al.2.1 rect }
  else
    { s := s, st := st, con := c, upd := none, fake := false, tr := [] }

/-- Lines 1155–1162 of `x_push_node`: push the child-window rect when it
changed, record it, and flag the synthetic notification. -/
def x_push_node_window_rect (st : con_state) (c : Con) : con_state × Bool × Trace :=
  match c.data.window with
  | some w =>
    if !rect_equals st.window_rect c.data.window_rect then
      ({ st with window_rect := c.data.window_rect }, true,
       [XOp.setWindowRect w.id c.data.window_rect])
    else (st, false, [])
  | none => (st, false, [])

/-- `x_shape_frame` (x.c lines 912–927): set the frame shape from the
window shape united with the frame border rectangles.  The border
rectangles come from `x_get_border_rectangles`, whose content depends on
tree-module data outside this excerpt; the whole shape write is one
marker operation. -/
def x_shape_frame_ops (c : Con) : Trace :=
  [XOp.shapeCombine c.data.frameId]

/-- `x_unshape_frame` (x.c lines 932–936). -/
def x_unshape_frame_ops (c : Con) : Trace :=
  [XOp.shapeMask c.data.frameId]

/-- `set_shape_state` (x.c lines 941–971): reshape a floating container
when needed, and remove the shape when the container stopped floating. -/
def set_shape_state (env : Env) (c : Con) (st : con_state) (need_reshape : Bool) : Trace :=
  if !env.shape_supported then []
  else
    match c.data.window with
    | none => []
    | some w =>
      (if need_reshape && c.data.floating then
        (if w.shaped then x_shape_frame_ops c else []) ++
        (if w.input_shaped then x_shape_frame_ops c else [])
      else []) ++
      (if st.was_floating && !c.data.floating then
        (if w.shaped then x_unshape_frame_ops c else []) ++
        (if w.input_shaped then x_unshape_frame_ops c else [])
      else [])

/-- Lines 1166–1206 of `x_push_node`: map the container when its desired
map state differs from the shadow record or an attached window is not yet
child-mapped: set `WM_STATE` to normal, map the child window first and
start listening for enter events, map the frame, copy the buffer, flush,
and record the new map state. -/
def x_push_node_map (st : con_state) (c : Con) : con_state × Trace :=
  if (st.mapped != c.data.mapped || (c.data.window.isSome && !st.child_mapped)) &&
      c.data.mapped then
    let trProp : Trace :=
      match c.data.window with
      | some w => [XOp.changeProperty w.id]
      | none => []
    let child : con_state × Trace :=
      match c.data.window with
      | some w =>
        if !st.child_mapped then
          ({ st with child_mapped := true },
           [XOp.mapWindow w.id, XOp.changeWindowAttributes w.id])
        else (st, [])
      | none => (st, [])
    let st1 := child.1
    let trFrame : Trace :=
      [XOp.mapWindow c.data.frameId, XOp.changeWindowAttributes c.data.frameId] ++
      (match c.data.frame_buffer with
       | some fb => [XOp.copySurface fb c.data.frameId]
       | none => []) ++
      [XOp.flushConn]
    ({ st1 with mapped := c.data.mapped }, trProp ++ child.2 ++ trFrame)
  else (st, [])

/-- `set_hidden_state` (x.c lines 848–868). -/
def set_hidden_state (c : Con) (st : con_state) : con_state × Trace :=
  match c.data.window with
  | none => (st, [])
  | some w =>
    if c.data.is_hidden == st.is_hidden then (st, [])
    else ({ st with is_hidden := c.data.is_hidden }, [XOp.changeProperty w.id])

/-- `set_maximized_state` (x.c lines 874–906). -/
def set_maximized_state (c : Con) (st : con_state) : con_state × Trace :=
  match c.data.window with
  | none => (st, [])
  | some w =>
    let hz : con_state × Trace :=
      if c.data.maximized_horz != st.is_maximized_horz then
        ({ st with is_maximized_horz := c.data.maximized_horz }, [XOp.changeProperty w.id])
      else (st, [])
    let vt : con_state × Trace :=
      if c.data.maximized_vert != hz.1.is_maximized_vert then
        ({ hz.1 with is_maximized_vert := c.data.maximized_vert }, [XOp.changeProperty w.id])
      else (hz.1, [])
    (vt.1, hz.2 ++ vt.2)

/-- Find a child by frame id in a sibling list, returning the siblings
before it, the child, and the siblings after it. -/
def splitById (id : Nat) : List Con → Option (List Con × Con × List Con)
  | [] => none
  | c :: cs =>
    if c.data.frameId == id then some ([], c, cs)
    else
      match splitById id cs with
      | some r => some (c :: r.1, r.2.1, r.2.2)
      | none => none

/-- Result of pushing one container (and its subtree). -/
structure PushRes where
  s : XState
  con : Con
  upd : Option CtxUpd
  tr : Trace

/-- The accumulator of the focus-order child walk of `x_push_node`:
registry, the parent's scalar data (whose `pixmap_recreated` and
`deco_render_params` a child's pre-render can mutate), the evolving child
lists, and the trace. -/
structure PushAcc where
  s : XState
  d : ConData
  nodes : List Con
  floats : List Con
  tr : Trace

/-- One step of the focus-order child walk of `x_push_node` (x.c lines
1219–1224): resolve the focus entry in the tiling children (then in the
floating children), push the child through `rec` (the reconciler at the
remaining fuel), and fold the child's parent-pointer mutations back into
the accumulator. -/
def x_push_step (rec : XState → Option DrawCtx → Con → PushRes)
    (acc : PushAcc) (cid : Nat) : PushAcc :=
  match splitById cid acc.nodes with
  | some r =>
    let dctx : DrawCtx :=
      { parent_layout := acc.d.layout
        parent_type := acc.d.ctype
        parent_pixmap_recreated := acc.d.pixmap_recreated
        parent_deco_params := acc.d.deco_params
        parent_frame_buffer := acc.d.frame_buffer
        parent_frame_id := acc.d.frameId
        is_first_nodes := r.1.isEmpty
        is_first_focus := acc.d.focus_ids.head? == some cid
        later_nodes := r.2.2 }
    let pr := rec acc.s (some dctx) r.2.1
    (match pr.upd with
     | some upd =>
       { s := pr.s
         d := { acc.d with
                pixmap_recreated := upd.parent_pixmap_recreated
                deco_params := upd.parent_deco_params }
         nodes := r.1 ++ pr.con :: upd.later_nodes
         floats := acc.floats
         tr := acc.tr ++ pr.tr }
     | none =>
       { acc with s := pr.s, nodes := r.1 ++ pr.con :: r.2.2, tr := acc.tr ++ pr.tr })
  | none =>
    match splitById cid acc.floats with
    | some r =>
      let dctx : DrawCtx :=
        { parent_layout := acc.d.layout
          parent_type := acc.d.ctype
          parent_pixmap_recreated := acc.d.pixmap_recreated
          parent_deco_params := acc.d.deco_params
          parent_frame_buffer := acc.d.frame_buffer
          parent_frame_id := acc.d.frameId
          is_first_nodes := false
          is_first_focus := acc.d.focus_ids.head? == some cid
          later_nodes := [] }
      let pr := rec acc.s (some dctx) r.2.1
      (match pr.upd with
       | some upd =>
         { s := pr.s
           d := { acc.d with
                  pixmap_recreated := upd.parent_pixmap_recreated
                  deco_params := upd.parent_deco_params }
           nodes := acc.nodes
           floats := r.1 ++ pr.con :: r.2.2
           tr := acc.tr ++ pr.tr }
       | none =>
         { acc with s := pr.s, floats := r.1 ++ pr.con :: r.2.2, tr := acc.tr ++ pr.tr })
    | none => acc

/-- The own-container stages of `x_push_node` (x.c lines 982–1218),
before the focus-order child walk: name push, windowless handling,
reparent, geometry, child-window rect, shape, map, the deferred-unmap
flagging, hidden and maximized state.  Returns the registry after the
geometry stage, the updated container, the pre-render's parent update,
the final shadow record (to be written back), and the trace. -/
def x_push_node_own (env : Env) (cfg : Config) (s : XState) (ctx : Option DrawCtx)
    (st0 : con_state) (c : Con) : XState × Con × Option CtxUpd × con_state × Trace :=
  let n1 := x_push_node_name c.data.frameId st0
  -- lines 982 and 994–1012: effective rect and windowless handling
  let rect := x_push_node_rect c
  let c1 := c.setData { c.data with mapped := x_push_node_mapped c }
  let rp := x_push_node_reparent n1.1 c1
  let st2 := rp.1
  let c2 := rp.2.1
  -- lines 1045–1052: reshape on dimension change or floating start
  let need_reshape :=
    rp.2.2.1 ||
    (st2.rect.width != rect.width || st2.rect.height != rect.height ||
     st2.window_rect.width != c2.data.window_rect.width ||
     st2.window_rect.height != c2.data.window_rect.height) ||
    (c2.data.floating && !st2.was_floating)
  let geo := x_push_node_geometry cfg s ctx st2 rect c2
  let wr := x_push_node_window_rect geo.st geo.con
  let fake := geo.fake || wr.2.1
  let trShape := set_shape_state env geo.con wr.1 need_reshape
  let mp := x_push_node_map wr.1 geo.con
  -- lines 1208–1209
  let st6 := { mp.1 with
    unmap_now := mp.1.mapped != geo.con.data.mapped && !geo.con.data.mapped
    was_floating := geo.con.data.floating }
  -- lines 1211–1214: `fake_absolute_configure_notify` returns without
  -- a window (xcb.c, outside this excerpt)
  let trFake : Trace :=
    if fake then
      match geo.con.data.window with
      | some w => [XOp.sendEvent w.id]
      | none => []
    else []
  let hid := set_hidden_state geo.con st6
  let mx := set_maximized_state geo.con hid.1
  (geo.s, geo.con, geo.upd, mx.1,
   n1.2 ++ rp.2.2.2 ++ geo.tr ++ wr.2.2 ++ trShape ++ mp.2 ++ trFake ++
     hid.2 ++ mx.2)

/-- `x_push_node` (x.c lines 979–1225), fueled on tree height.  `ctx` is
the drawing context of this container relative to its parent (`none` for a
parentless pass root), consumed by the pre-render inside the geometry
stage; the update this container's own pre-render makes through the
parent pointer is returned in `PushRes.upd`. -/
def x_push_node_rec : Nat → Env → Config → XState → Option DrawCtx → Con → PushRes
  | 0, _, _, s, ctx, c => { s := s, con := c, upd := ctx.map CtxUpd.ofCtx, tr := [] }
  | fuel + 1, env, cfg, s, ctx, c =>
    match state_for_frame s c.data.frameId with
    | none =>
      -- `state_for_frame` asserts; such a call never happens for an
      -- initialized container
      { s := s, con := c, upd := ctx.map CtxUpd.ofCtx, tr := [] }
    | some st0 =>
      let own := x_push_node_own env cfg s ctx st0 c
      let s4 := set_state own.1 own.2.2.2.1
      -- lines 1219–1224: recurse over the children in focus order
      let acc0 : PushAcc :=
        { s := s4, d := own.2.1.data, nodes := own.2.1.nodes,
          floats := own.2.1.floats, tr := [] }
      let acc :=
        own.2.1.data.focus_ids.foldl
          (x_push_step (x_push_node_rec fuel env cfg)) acc0
      { s := acc.s
        con := Con.mk acc.d acc.nodes acc.floats
        upd := match own.2.2.1 with
          | some u => some u
          | none => ctx.map CtxUpd.ofCtx
        tr := own.2.2.2.2 ++ acc.tr }

/-- The `x_push_node` entry point: runs the fueled recursion with the tree
height, which always suffices. -/
def x_push_node (env : Env) (cfg : Config) (s : XState) (c : Con) : PushRes :=
  x_push_node_rec (conDepth c) env cfg s none c

mutual

/-- `x_push_node_unmaps` (x.c lines 1236–1274): the deferred unmap walk.
For a container whose `unmap_now` is set: set `WM_STATE` to withdrawn if a
window is attached, unmap the frame, count a self-induced unmap if a
window is attached, and record the new map state; recurse into all tiling
and floating children unconditionally. -/
def x_push_node_unmaps : XState → Con → XState × Con × Trace
  | s, .mk d n f =>
    let own : XState × ConData × Trace :=
      match state_for_frame s d.frameId with
      | none => (s, d, [])
      | some st =>
        if st.unmap_now then
          let trProp : Trace :=
            match d.window with
            | some w => [XOp.changeProperty w.id]
            | none => []
          let d1 :=
            match d.window with
            | some _ => { d with ignore_unmap := d.ignore_unmap + 1 }
            | none => d
          (set_state s { st with mapped := d.mapped }, d1,
           trProp ++ [XOp.unmapWindow d.frameId])
        else (s, d, [])
    let rn := x_push_node_unmaps_list own.1 n
    let rf := x_push_node_unmaps_list rn.1 f
    (rf.1, Con.mk own.2.1 rn.2.1 rf.2.1, own.2.2 ++ rn.2.2 ++ rf.2.2)

/-- The child walks of `x_push_node_unmaps`. -/
def x_push_node_unmaps_list (s : XState) : List Con → XState × List Con × Trace
  | [] => (s, [], [])
  | c :: cs =>
    let r := x_push_node_unmaps s c
    let r2 := x_push_node_unmaps_list r.1 cs
    (r2.1, r.2.1 :: r2.2.1, r.2.2 ++ r2.2.2)

end

/-- The record immediately preceding the first occurrence of `id` in an
order list (`CIRCLEQ_PREV` in that list), `none` at the head. -/
def predInListAux (prev : Option Nat) : List Nat → Nat → Option Nat
  | [], _ => none
  | x :: rest, id => if x == id then prev else predInListAux (some x) rest id

/-- `CIRCLEQ_PREV` of the entry with the given id in an order list. -/
def predInList (l : List Nat) (id : Nat) : Option Nat :=
  predInListAux none l id

/-- The pointer comparison `prev != old_prev` of the stacking walk, negated:
the two predecessors are the same record only when both are real records
with the same identity.  (When an entry heads both lists, the source
compares the two distinct list-head sentinels, which are never equal.) -/
def samePred : Option Nat → Option Nat → Bool
  | some a, some b => a == b
  | _, _ => false

/-- Result of the stacking-order walk. -/
structure StackWalkRes where
  states : List con_state
  order_changed : Bool
  stacking_changed : Bool
  client_list : List Nat
  tr : Trace

/-- The bottom-to-top stacking-order walk of `x_push_changes` (x.c lines
1326–1371), processing the current-order list from the tail (bottom)
towards the head (top).  `prev` is the record above the head of the
remaining list (`CIRCLEQ_PREV` in current order).  For each entry it
collects the managed-window id, compares the current predecessor against
the predecessor in the previous-order snapshot, issues a restack of the
predecessor above the entry when the entry is new or an order change was
seen, and clears `initial`. -/
def stack_walk_aux (old_order : List Nat) (prev : Option Nat) :
    List con_state → StackWalkRes
  | [] =>
    { states := [], order_changed := false, stacking_changed := false,
      client_list := [], tr := [] }
  | st :: rest =>
    -- all of `rest` lies below `st` and is processed before it
    let r := stack_walk_aux old_order (some st.id) rest
    let cl := r.client_list ++ (if st.has_managed_window then [st.managed_window_id] else [])
    let old_prev := predInList old_order st.id
    let oc := r.order_changed || !samePred prev old_prev
    let doRestack := (st.initial || oc) && prev.isSome
    let trOp : Trace :=
      if doRestack then
        match prev with
        | some p => [XOp.configureRestack p st.id]
        | none => []
      else []
    { states := { st with initial := false } :: r.states
      order_changed := oc
      stacking_changed := r.stacking_changed || doRestack
      client_list := cl
      tr := r.tr ++ trOp }

/-- The stacking-order walk over the whole current-order list. -/
def stack_walk (old_order : List Nat) (states : List con_state) : StackWalkRes :=
  stack_walk_aux old_order none states

mutual

/-- Resolve a container by frame id in a subtree (used for the global
`focused` pointer, which the tree module owns). -/
def findCon : Con → Nat → Option Con
  | .mk d n f, fid =>
    if d.frameId == fid then some (Con.mk d n f)
    else
      match findConL n fid with
      | some c => some c
      | none => findConL f fid

/-- Resolve a container by frame id in a forest. -/
def findConL : List Con → Nat → Option Con
  | [], _ => none
  | c :: cs, fid =>
    match findCon c fid with
    | some r => some r
    | none => findConL cs fid

end

mutual

/-- `is_con_attached` (x.c lines 1281–1294) relative to a root: the
container is a member of its parent's `nodes_head` (floating children and
the root itself are not attached). -/
def is_con_attached_in : Con → Nat → Bool
  | .mk d n f, fid => attached_in_list n fid true || attached_in_list f fid false

/-- Helper walk of `is_con_attached_in`: `isNodes` records whether the
list is a `nodes_head`. -/
def attached_in_list : List Con → Nat → Bool → Bool
  | [], _, _ => false
  | c :: cs, fid, isNodes =>
    (isNodes && c.data.frameId == fid) || is_con_attached_in c fid ||
      attached_in_list cs fid isNodes

end

/-- `con_has_managed_window` (con.c, outside this excerpt): a window is
attached and has a real X id. -/
def con_has_managed_window (c : Con) : Bool :=
  match c.data.window with
  | some w => !(w.id == 0)
  | none => false

/-- `change_ewmh_focus` (x.c lines 109–123): update `_NET_ACTIVE_WINDOW`
on the root and the `_NET_WM_STATE_FOCUSED` hint on the new and old
windows; a no-op when the focus did not change. -/
def change_ewmh_focus (env : Env) (new_focus old_focus : Nat) : Trace :=
  if new_focus == old_focus then []
  else
    [XOp.changeProperty env.root_window] ++
    (if !(new_focus == 0) then [XOp.changeProperty new_focus] else []) ++
    (if !(old_focus == 0) then [XOp.changeProperty old_focus] else [])

/-- The pointer-warp resolution of `x_push_changes` (x.c lines 1394–1414):
fetch the deferred query reply; on failure log and drop the warp; else
warp only when the output containing the pointer differs from the output
containing the target midpoint, masking substructure-redirect around the
warp; clear the pending warp in every case. -/
def x_push_changes_warp (env : Env) (g : Globals) : Globals × Trace :=
  match g.warp_to with
  | none => (g, [])
  | some r =>
    match env.pointer_reply with
    | none => ({ g with warp_to := none }, [])
    | some reply =>
      let mid_x : Int := (r.x : Int) + ((r.width / 2 : Nat) : Int)
      let mid_y : Int := (r.y : Int) + ((r.height / 2 : Nat) : Int)
      if env.output_at reply.1 reply.2 ≠ env.output_at mid_x mid_y then
        ({ g with warp_to := none },
         [XOp.changeWindowAttributes env.root_window,
          XOp.warpPointer mid_x mid_y,
          XOp.changeWindowAttributes env.root_window])
      else ({ g with warp_to := none }, [])

/-- The main case analysis of the focus-resolution block of
`x_push_changes` (x.c lines 1425–1472), before the EWMH-support-window
fallback. -/
def x_push_changes_focus_step1 (env : Env) (g : Globals) (root : Con) : Globals × Trace :=
  match findCon root g.focused_frame with
  | none => (g, [])
  | some focused =>
    let to_focus :=
      match focused.data.window with
      | some w => w.id
      | none => focused.data.frameId
    if g.focused_id != to_focus then
      if !focused.data.mapped then
        -- invalidate focused_id so a window reusing the id is seen as new
        ({ g with focused_id := 0 }, [])
      else
        let managed_id := if con_has_managed_window focused then
            (match focused.data.window with | some w => w.id | none => 0)
          else 0
        let attached := is_con_attached_in root focused.data.frameId
        let takeFocus :=
          match focused.data.window with
          | some w => w.needs_take_focus && w.doesnt_accept_focus
          | none => false
        let tr : Trace :=
          if takeFocus then
            [XOp.sendEvent to_focus] ++
            change_ewmh_focus env managed_id g.last_focused ++
            (if to_focus != g.last_focused && attached then
              [XOp.ipcWindowEvent focused.data.frameId] else [])
          else
            (match focused.data.window with
             | some w => [XOp.changeWindowAttributes w.id]
             | none => []) ++
            [XOp.setInputFocus to_focus] ++
            (match focused.data.window with
             | some w => [XOp.changeWindowAttributes w.id]
             | none => []) ++
            change_ewmh_focus env managed_id g.last_focused ++
            (if !(to_focus == 0) && to_focus != g.last_focused &&
                focused.data.window.isSome && attached then
              [XOp.ipcWindowEvent focused.data.frameId] else [])
        ({ g with focused_id := to_focus, last_focused := to_focus }, tr)
    else (g, [])

/-- The focus-resolution block of `x_push_changes` (x.c lines 1425–1483),
including the EWMH-support-window fallback.  `root` is the pass root in
which the global `focused` container is resolved. -/
def x_push_changes_focus (env : Env) (g : Globals) (root : Con) : Globals × Trace :=
  let step1 := x_push_changes_focus_step1 env g root
  let g1 := step1.1
  -- fall back to the EWMH support window rather than the root (lines 1474–1483)
  if g1.focused_id == 0 then
    ({ g1 with focused_id := env.ewmh_window, last_focused := 0 },
     step1.2 ++ [XOp.setInputFocus env.ewmh_window] ++
       change_ewmh_focus env 0 g1.last_focused)
  else (g1, step1.2)

/-- The whole system state across passes: registry, globals, container
tree. -/
structure World where
  xs : XState
  g : Globals
  root : Con

/-- `x_push_changes` (x.c lines 1307–1513): one full pass. -/
def x_push_changes (env : Env) (cfg : Config) (w : World) : World × Trace :=
  -- request the pointer position as early as possible (lines 1311–1314)
  let trQ : Trace := if w.g.warp_to.isSome then [XOp.queryPointer] else []
  -- re-assert substructure redirect on mapped frames, bottom to top
  -- (lines 1316–1325)
  let trSub : Trace :=
    w.xs.states.reverse.filterMap
      (fun st => if st.mapped then some (XOp.changeWindowAttributes st.id) else none)
  -- count managed windows (lines 1329–1336) and refresh the static
  -- client-list storage (lines 1338–1346, no peer operation)
  let cnt := (w.xs.states.filter (fun st => st.has_managed_window)).length
  let xs1 := { w.xs with client_list_count := cnt }
  -- the bottom-to-top stacking walk (lines 1348–1371)
  let sw := stack_walk xs1.old_order xs1.states
  let xs2 := { xs1 with states := sw.states }
  -- refresh the client-list hints when the stack changed (lines 1373–1389)
  let trHints : Trace :=
    if sw.stacking_changed then
      [XOp.changeProperty env.root_window, XOp.changeProperty env.root_window]
    else []
  -- push all node changes (line 1392)
  let pr := x_push_node env cfg xs2 w.root
  -- resolve the deferred pointer warp (lines 1394–1414)
  let wp := x_push_changes_warp env w.g
  -- restore the frame event mask on mapped frames (lines 1416–1421)
  let trMask : Trace :=
    pr.s.states.reverse.filterMap
      (fun st => if st.mapped then some (XOp.changeWindowAttributes st.id) else none)
  -- recompute decorations (line 1423)
  let dr := x_deco_recurse_at cfg pr.s none pr.con
  -- resolve focus (lines 1425–1483)
  let fo := x_push_changes_focus env wp.1 dr.1
  -- flush (line 1485)
  let trF1 : Trace := [XOp.flushConn]
  -- mask enter events on frames about to be unmapped (lines 1488–1501)
  let trEnter : Trace :=
    pr.s.states.reverse.filterMap
      (fun st => if st.unmap_now then some (XOp.changeWindowAttributes st.id) else none)
  -- push all pending unmaps (line 1504)
  let um := x_push_node_unmaps pr.s dr.1
  -- snapshot the current order as the old order (lines 1506–1510)
  let xs3 := { um.1 with old_order := um.1.states.map (fun st => st.id) }
  ({ xs := xs3, g := fo.1, root := um.2.1 },
   trQ ++ trSub ++ sw.tr ++ trHints ++ pr.tr ++ wp.2 ++ trMask ++ dr.2.2 ++
     fo.2 ++ trF1 ++ trEnter ++ um.2.2 ++ [XOp.flushConn])

/-- Remove the shadow record with the given frame id from the record list
(`CIRCLEQ_REMOVE`). -/
def remove_state : List con_state → Nat → List con_state
  | [], _ => []
  | st :: rest, id => if st.id == id then rest else st :: remove_state rest id

/-- `_x_con_kill` (x.c lines 257–282): free the colormap and the buffer,
remove the shadow record from all three lists, and invalidate the focus
trackers that refer to the killed frame. -/
def x_con_kill_inner (env : Env) (g : Globals) (s : XState) (c : Con) :
    Globals × XState × Con × Trace :=
  let trCm : Trace :=
    match c.data.colormap with
    | some cm => [XOp.freeColormap cm]
    | none => []
  -- `xcb_free_pixmap(conn, con->frame_buffer.id)` is unconditional
  let trPx : Trace := [XOp.freePixmap (c.data.frame_buffer.getD 0)]
  let c1 := c.setData { c.data with frame_buffer := none }
  let s1 : XState :=
    { s with
      states := remove_state s.states c.data.frameId
      old_order := s.old_order.erase c.data.frameId
      initial_mapping := s.initial_mapping.erase c.data.frameId }
  let g1 : Globals :=
    { g with
      focused_id := if c.data.frameId == g.focused_id then 0 else g.focused_id
      last_focused := if c.data.frameId == g.last_focused then 0 else g.last_focused }
  (g1, s1, c1, trCm ++ trPx)

/-- `x_con_init` (x.c lines 130–192): create the frame window (with a
custom colormap when the depth differs from the root depth), set its
`WM_CLASS`, and insert a fresh shadow record at the head of the current
and previous stacking orders and at the tail of the insertion order. -/
def x_con_init (env : Env) (s : XState) (c : Con) : XState × Con × Trace :=
  let hasCustomCm := !(c.data.depth == env.root_depth)
  let cmId := s.next_id
  let s0 := if hasCustomCm then { s with next_id := s.next_id + 1 } else s
  let trCm : Trace := if hasCustomCm then [XOp.createColormap cmId] else []
  let frameId := s0.next_id
  let s1 := { s0 with next_id := s0.next_id + 1 }
  let newState : con_state :=
    { id := frameId, mapped := false, unmap_now := false, child_mapped := false,
      is_hidden := false, is_maximized_vert := false, is_maximized_horz := false,
      has_managed_window := false, managed_window_id := 0,
      need_reparent := false, old_frame := 0, was_floating := false,
      rect := ⟨0, 0, 0, 0⟩, window_rect := ⟨0, 0, 0, 0⟩,
      initial := true, name := none }
  let s2 : XState :=
    { s1 with
      states := newState :: s1.states
      old_order := frameId :: s1.old_order
      initial_mapping := s1.initial_mapping ++ [frameId] }
  let c1 := c.setData
    { c.data with
      frameId := frameId
      colormap := if hasCustomCm then some cmId else none }
  (s2, c1, trCm ++ [XOp.createWindow frameId, XOp.changeProperty frameId])

/-- `x_con_kill` (x.c lines 288–291): tear down the shadow state and
destroy the frame window. -/
def x_con_kill (env : Env) (g : Globals) (s : XState) (c : Con) :
    Globals × XState × Con × Trace :=
  let r := x_con_kill_inner env g s c
  (r.1, r.2.1, r.2.2.1, r.2.2.2 ++ [XOp.destroyWindow c.data.frameId])

/-- `x_con_reframe` (x.c lines 297–300): tear down and recreate the frame
without destroying the old window. -/
def x_con_reframe (env : Env) (g : Globals) (s : XState) (c : Con) :
    Globals × XState × Con × Trace :=
  let r := x_con_kill_inner env g s c
  let r2 := x_con_init env r.2.1 r.2.2.1
  (r.1, r2.1, r2.2.1, r.2.2.2 ++ r2.2.2)

/-! ## The gradient fill of draw_util.c -/

/-- The 8×8 Bayer matrix for ordered dithering (draw_util.c lines 22–31). -/
def threshold_map : List Rat :=
  [0, 32, 8, 40, 2, 34, 10, 42,
   48, 16, 56, 24, 50, 18, 58, 26,
   12, 44, 4, 36, 14, 46, 6, 38,
   60, 28, 52, 20, 62, 30, 54, 22,
   3, 35, 11, 43, 1, 33, 9, 41,
   51, 19, 59, 27, 49, 17, 57, 25,
   15, 47, 7, 39, 13, 45, 5, 37,
   63, 31, 55, 23, 61, 29, 53, 21]

/-- `clamp_double` (draw_util.c lines 298–302). -/
def clamp_double (n a b : Rat) : Rat :=
  if n < a then a else if n > b then b else n

/-- `lerp_double` (draw_util.c lines 305–308). -/
def lerp_double (a b t : Rat) : Rat :=
  a + (b - a) * t

/-- C `floor` on a double, modelled exactly on rationals. -/
def ratFloor (x : Rat) : Rat :=
  (x.floor : Rat)

/-- One pixel of the dithered gradient (draw_util.c lines 337–371):
interpolate each channel between the two stop colors at `t = i / width`,
quantize to `num_colors` levels — hardcoded to 256 in the source
(`const int num_colors = 256`, flagged `TODO: implement reading these
vars in the config! this is temporary!`) — add the threshold-matrix
noise scaled by the noise gain, clamp to `[0, 1]`, convert each channel
to 8 bits and pack as ARGB32 with full alpha. -/
def dither_pixel (startColor endColor : color_t) (width : Int) (noise_gain : Rat)
    (i j : Int) : Nat :=
  let t : Rat := (i : Rat) / (width : Rat)
  let r := lerp_double startColor.red endColor.red t
  let g := lerp_double startColor.green endColor.green t
  let b := lerp_double startColor.blue endColor.blue t
  let N : Rat := (256 : Rat) - 1
  let r_q := ratFloor (r * N + 1 / 2) / N
  let g_q := ratFloor (g * N + 1 / 2) / N
  let b_q := ratFloor (b * N + 1 / 2) / N
  let s_x := i % 8
  let s_y := j % 8
  let m_s := threshold_map.getD (s_y * 8 + s_x).toNat 0
  let noise := m_s / 64 - 1 / 2
  let r_c := (ratFloor (clamp_double (r_q + noise * noise_gain) 0 1 * 255)).floor.toNat
  let g_c := (ratFloor (clamp_double (g_q + noise * noise_gain) 0 1 * 255)).floor.toNat
  let b_c := (ratFloor (clamp_double (b_q + noise * noise_gain) 0 1 * 255)).floor.toNat
  0xFF000000 ||| (r_c <<< 16) ||| (g_c <<< 8) ||| b_c

/-- What `draw_util_rectangle_gradient` paints: either the dithered image
surface or the plain two-stop linear cairo gradient. -/
inductive GradientRender where
  | dithered (width height : Int) (pixel : Int → Int → Nat)
  | blend (startColor endColor : color_t) (x y w h : Rat)
  | nothing
deriving Inhabited

/-- `draw_util_rectangle_gradient` (draw_util.c lines 310–422).
`alloc_ok` models whether `malloc` of the pixel buffer succeeds and
`surface_status_ok` whether cairo accepts the image surface; on either
failure the source jumps to the `draw_nondithered` fallback. -/
def draw_util_rectangle_gradient (surface_ok : Bool) (startColor endColor : color_t)
    (x y w h : Rat) (use_dithering : Bool) (noise_gain : Rat)
    (alloc_ok surface_status_ok : Bool) : GradientRender :=
  if !surface_ok then .nothing
  else if use_dithering then
    let width : Int := w.floor + 1
    let height : Int := h.floor + 1
    if !alloc_ok then .blend startColor endColor x y w h
    else if !surface_status_ok then .blend startColor endColor x y w h
    else .dithered width height (fun i j => dither_pixel startColor endColor width noise_gain i j)
  else .blend startColor endColor x y w h

/-- One channel of the dithered gradient as the specification words it,
with the quantization level count as a parameter: "linearly interpolating
between the two stop colors, quantizing each channel to a … discrete
level count, then adding noise derived from the fixed 8×8 threshold
matrix entry for the pixel's position scaled by the configured noise
gain, with the result clamped to the valid range [0, 1] before conversion
to an 8-bit channel value". -/
def spec_dither_channel (levels : Nat) (c0 c1 : Rat) (width : Int) (gain : Rat)
    (i j : Int) : Nat :=
  let t : Rat := (i : Rat) / (width : Rat)
  let interpolated := c0 + (c1 - c0) * t
  let n : Rat := (levels : Rat) - 1
  let quantized := ratFloor (interpolated * n + 1 / 2) / n
  let m := threshold_map.getD ((j % 8) * 8 + (i % 8)).toNat 0
  let noise := m / 64 - 1 / 2
  let clamped := clamp_double (quantized + noise * gain) 0 1
  (ratFloor (clamped * 255)).floor.toNat

/-- The whole dithered pixel as the specification words it, parameterized
by the quantization level count. -/
def spec_dither_pixel (levels : Nat) (startColor endColor : color_t) (width : Int)
    (gain : Rat) (i j : Int) : Nat :=
  0xFF000000 |||
    (spec_dither_channel levels startColor.red endColor.red width gain i j <<< 16) |||
    (spec_dither_channel levels startColor.green endColor.green width gain i j <<< 8) |||
    spec_dither_channel levels startColor.blue endColor.blue width gain i j

/-! ## The specification's wording of the decoration-height computation -/

/-- The decoration height as the specification words it: "the maximum of
`(y + height)` over all of its children's decoration rects". -/
def spec_max_deco_height (children : List Con) : Nat :=
  children.foldr (fun c m => max (c.data.deco_rect.y + c.data.deco_rect.height) m) 0

/-! ## Concrete fixtures for witnesses and counterexamples -/

/-- A neutral scalar record for building concrete containers. -/
def baseConData : ConData :=
  { frameId := 0, ctype := .CT_CON, layout := .L_DEFAULT,
    rect := ⟨0, 0, 0, 0⟩, window_rect := ⟨0, 0, 0, 0⟩, deco_rect := ⟨0, 0, 0, 0⟩,
    window := none, mapped := false, urgent := false, floating := false,
    frame_buffer := none, pixmap_recreated := false, ignore_unmap := 0,
    border_style := .BS_NONE, is_hidden := false, maximized_horz := false,
    maximized_vert := false, mark_changed := false, deco_params := none,
    inside_focused := false, descend_focused_is_focused := false,
    draw_deco_into_frame := false, depth := 24, colormap := none, focus_ids := [] }

/-- A freshly initialized shadow record for building concrete registries. -/
def baseState : con_state :=
  { id := 0, mapped := false, unmap_now := false, child_mapped := false,
    is_hidden := false, is_maximized_vert := false, is_maximized_horz := false,
    has_managed_window := false, managed_window_id := 0,
    need_reparent := false, old_frame := 0, was_floating := false,
    rect := ⟨0, 0, 0, 0⟩, window_rect := ⟨0, 0, 0, 0⟩,
    initial := false, name := none }

/-- Opaque black, used to populate concrete configurations. -/
def blackColor : color_t := ⟨0, 0, 0, 1, 0⟩

/-- A monochrome color triple. -/
def baseTriple : Colortriple :=
  ⟨blackColor, blackColor, blackColor, blackColor, blackColor⟩

/-- A concrete configuration with gradients and dithering disabled. -/
def baseConfig : Config :=
  { client :=
    { background := blackColor, gradient_start := blackColor,
      gradient_end := blackColor, gradient_unfocused_start := blackColor,
      gradient_unfocused_end := blackColor, gradients := false,
      dithering := false, dither_noise := 0, gradient_offset_start := 0,
      gradient_offset_end := 0, got_focused_tab_title := false,
      focused := baseTriple, focused_inactive := baseTriple,
      focused_tab_title := baseTriple, unfocused := baseTriple,
      urgent := baseTriple } }

/-- A concrete environment: single unnamed output, no pointer reply, no
shape extension. -/
def baseEnv : Env :=
  { output_at := fun _ _ => none, pointer_reply := none,
    shape_supported := false, root_window := 1, ewmh_window := 2,
    root_depth := 24 }

/-- An empty registry. -/
def emptyXState : XState := ⟨[], [], [], 0, 0⟩

/-- Opaque white. -/
def whiteColor : color_t := ⟨1, 1, 1, 1, 0xFFFFFF⟩

/-- A shadow record with the given id and initial flag. -/
def walkState (i : Nat) (ini : Bool) : con_state :=
  { baseState with id := i, initial := ini }

/-- A leaf child with the given decoration rect. -/
def decoChild (y h : Nat) : Con :=
  Con.mk { baseConData with deco_rect := ⟨0, y, 10, h⟩ } [] []

/-- A windowless stacked container whose children have decoration rects
`(y 5, height 3)` and `(y 0, height 10)`: the conditional fold of
`x_push_node` yields `5 + 3 = 8` while the maximum of `y + height` is
`10`. -/
def conC1 : Con :=
  Con.mk { baseConData with layout := .L_STACKED, rect := ⟨0, 0, 100, 50⟩, mapped := true }
    [decoChild 5 3, decoChild 0 10] []

/-- A concrete drawing context under a default-layout, CT_CON parent. -/
def decoCtx : DrawCtx :=
  { parent_layout := .L_DEFAULT, parent_type := .CT_CON, parent_pixmap_recreated := false,
    parent_deco_params := none, parent_frame_buffer := some 9, parent_frame_id := 3,
    is_first_nodes := true, is_first_focus := false, later_nodes := [] }

/-- A concrete leaf that passes all applicability filters of the
decoration painter. -/
def decoCon : Con :=
  Con.mk { baseConData with frameId := 4, rect := ⟨0, 0, 50, 10⟩, frame_buffer := some 8 }
    [] []

/-- A leaf container with the given frame id and otherwise neutral data. -/
def conWithFrame (id : Nat) : Con :=
  Con.mk { baseConData with frameId := id } [] []

/-- Concrete globals for exercising the focus trackers: focused frame id 5,
last-focused 7. -/
def focusGlobals : Globals := ⟨5, 7, none, 0⟩

/-! ## Operation classifiers -/

/-- An `xcb_unmap_window` operation. -/
def isUnmapOp : XOp → Bool
  | .unmapWindow _ => true
  | _ => false

/-- An `xcb_map_window` operation. -/
def isMapOp : XOp → Bool
  | .mapWindow _ => true
  | _ => false

/-- A focus-assignment operation: direct input focus or a client message
(`WM_TAKE_FOCUS` / synthetic configure). -/
def isFocusAssignOp : XOp → Bool
  | .setInputFocus _ => true
  | .sendEvent _ => true
  | _ => false

/-- The operations the idempotence property counts: geometry pushes, maps,
unmaps and restacks. -/
def isCountedOp : XOp → Bool
  | .setWindowRect _ _ => true
  | .configureRestack _ _ => true
  | .mapWindow _ => true
  | .unmapWindow _ => true
  | _ => false

/-- A pointer warp. -/
def isWarpOp : XOp → Bool
  | .warpPointer _ _ => true
  | _ => false

/-- The operation kinds the decoration walk can emit. -/
def isDecoKind : XOp → Bool
  | .decoPaint _ _ => true
  | .copySurface _ _ => true
  | _ => false

/-- The operation kinds the per-node reconciler can emit. -/
def isPushNodeKind : XOp → Bool
  | .changeProperty _ => true
  | .changeWindowAttributes _ => true
  | .reparentWindow _ _ => true
  | .setWindowRect _ _ => true
  | .mapWindow _ => true
  | .copySurface _ _ => true
  | .sendEvent _ => true
  | .createPixmap _ _ _ _ => true
  | .freePixmap _ => true
  | .changeGC _ => true
  | .clearSurface _ => true
  | .shapeCombine _ => true
  | .shapeMask _ => true
  | .flushConn => true
  | .decoPaint _ _ => true
  | _ => false

/-- The operation kinds the deferred unmap walk can emit. -/
def isUnmapWalkKind : XOp → Bool
  | .changeProperty _ => true
  | .unmapWindow _ => true
  | _ => false

/-- Soundness of one reconciler operation: it is of a kind `x_push_node`
can emit, and if it creates a pixmap then both dimensions are at least
one. -/
def pushOpOK (op : XOp) : Prop :=
  isPushNodeKind op = true ∧
    ∀ p d wd ht, op = XOp.createPixmap p d wd ht → 1 ≤ wd ∧ 1 ≤ ht

/-- A repaint of a decoration (the `decoPaint` marker). -/
def isRepaintOp : XOp → Bool
  | .decoPaint _ _ => true
  | _ => false

/-- A buffer creation whose two dimensions are both at least one;
vacuously true of any other operation. -/
def createDimsOK : XOp → Bool
  | .createPixmap _ _ wd ht => decide (1 ≤ wd) && decide (1 ≤ ht)
  | _ => true

/-- The sticky order-changed flag of the stacking walk as the amended
specification words it: true at an entry iff some entry at or below it
(itself included) has a predecessor mismatch between the current order and
the previous-order snapshot. -/
def walkMismatch (old_order : List Nat) (prev : Option Nat) : List con_state → Bool
  | [] => false
  | st :: rest =>
    walkMismatch old_order (some st.id) rest || !samePred prev (predInList old_order st.id)

/-- The restacks of the stacking walk as the amended specification words
it, bottom to top: an entry gets a restack-above operation iff it has a
predecessor in the current order and it is either brand new (`initial`) or
the sticky order-changed flag holds at it. -/
def walkRestacks (old_order : List Nat) (prev : Option Nat) : List con_state → Trace
  | [] => []
  | st :: rest =>
    walkRestacks old_order (some st.id) rest ++
      (match prev with
       | some p =>
         if st.initial || walkMismatch old_order prev (st :: rest) then
           [XOp.configureRestack p st.id]
         else []
       | none => [])

/-! ## Well-formedness and the settled invariant of the reconciler -/

/-- Executable duplicate-freeness of an id list. -/
def nodupB : List Nat → Bool
  | [] => true
  | x :: xs => !(xs.contains x) && nodupB xs

/-- The frame ids of all containers of a subtree. -/
def treeIds (c : Con) : List Nat :=
  (conList c).map (fun x => x.data.frameId)

/-- The frame ids of all containers of a forest. -/
def treeIdsL (l : List Con) : List Nat :=
  (conListL l).map (fun x => x.data.frameId)

mutual

/-- Well-formedness of a subtree against a registry: every container has a
shadow record, and every child of a container is reachable through the
parent's focus order (`focus_head` holds every child, the tree module's
invariant). -/
def wfCon (s : XState) : Con → Bool
  | .mk d n f =>
    (state_for_frame s d.frameId).isSome &&
    n.all (fun ch => d.focus_ids.contains ch.data.frameId) &&
    f.all (fun ch => d.focus_ids.contains ch.data.frameId) &&
    wfConL s n && wfConL s f

/-- Well-formedness of a forest against a registry. -/
def wfConL (s : XState) : List Con → Bool
  | [] => true
  | c :: cs => wfCon s c && wfConL s cs

end

/-- Well-formedness of a whole system state: the tree is well-formed
against the registry, and frame ids are unique in the tree and in the
registry. -/
def wfWorld (w : World) : Bool :=
  wfCon w.xs w.root && nodupB (treeIds w.root) &&
    nodupB (w.xs.states.map (fun st => st.id))

/-- Normalization of the container fields the decoration walk and the
deferred unmap walk may write (`pixmap_recreated`, `deco_render_params`,
`mark_changed`, `window->name_x_changed`, `ignore_unmap`): two containers
with equal normalizations differ at most in those fields. -/
def dnormD (d : ConData) : ConData :=
  { d with
    pixmap_recreated := false
    deco_params := none
    mark_changed := false
    ignore_unmap := 0
    window := d.window.map (fun w => { w with name_x_changed := false }) }

mutual

/-- `dnormD` applied through a subtree. -/
def cnormD : Con → Con
  | .mk d n f => .mk (dnormD d) (cnormDL n) (cnormDL f)

/-- `dnormD` applied through a forest. -/
def cnormDL : List Con → List Con
  | [] => []
  | c :: cs => cnormD c :: cnormDL cs

end

/-- Normalization of every container field the reconciler itself may
additionally write (`mapped`, `frame_buffer`) on top of `dnormD`. -/
def dnormP (d : ConData) : ConData :=
  { dnormD d with mapped := false, frame_buffer := none }

mutual

/-- `dnormP` applied through a subtree. -/
def cnormP : Con → Con
  | .mk d n f => .mk (dnormP d) (cnormPL n) (cnormPL f)

/-- `dnormP` applied through a forest. -/
def cnormPL : List Con → List Con
  | [] => []
  | c :: cs => cnormP c :: cnormPL cs

end

mutual

/-- The settled invariant of one subtree against a registry: each
container has a shadow record that already reflects the container, so
another reconciler run issues no geometry, map, unmap or restack
operation: the recorded rect matches the effective target rect (or that
rect has zero height), a required backing buffer exists, the recorded
child-window rect matches, the recorded map state matches and the
container's desired map state is a fixed point of the windowless-handling
recomputation, and the child window of a mapped container is mapped. -/
def settled (s : XState) : Con → Prop
  | .mk d n f =>
    (∃ st, state_for_frame s d.frameId = some st ∧
      (st.rect = x_push_node_rect (.mk d n f) ∨
        ¬0 < (x_push_node_rect (.mk d n f)).height) ∧
      (is_pixmap_needed (.mk d n f) = true → d.frame_buffer.isSome = true) ∧
      (∀ w, d.window = some w → st.window_rect = d.window_rect) ∧
      st.mapped = d.mapped ∧
      x_push_node_mapped (.mk d n f) = d.mapped ∧
      (d.window.isSome = true → d.mapped = true → st.child_mapped = true)) ∧
    settledL s n ∧ settledL s f

/-- The settled invariant of a forest. -/
def settledL (s : XState) : List Con → Prop
  | [] => True
  | c :: cs => settled s c ∧ settledL s cs

end

mutual

/-- What one run of the reconciler establishes: `settled` up to the
deferred unmap — a record whose `unmap_now` is set still has the old map
state, to be aligned by the deferred walk (`x_push_node_unmaps`). -/
def presettled (s : XState) : Con → Prop
  | .mk d n f =>
    (∃ st, state_for_frame s d.frameId = some st ∧
      (st.rect = x_push_node_rect (.mk d n f) ∨
        ¬0 < (x_push_node_rect (.mk d n f)).height) ∧
      (is_pixmap_needed (.mk d n f) = true → d.frame_buffer.isSome = true) ∧
      (∀ w, d.window = some w → st.window_rect = d.window_rect) ∧
      x_push_node_mapped (.mk d n f) = d.mapped ∧
      (st.unmap_now = true → st.mapped = true ∧ d.mapped = false) ∧
      (st.unmap_now = false → st.mapped = d.mapped) ∧
      (d.window.isSome = true → d.mapped = true → st.child_mapped = true)) ∧
    presettledL s n ∧ presettledL s f

/-- `presettled` over a forest. -/
def presettledL (s : XState) : List Con → Prop
  | [] => True
  | c :: cs => presettled s c ∧ presettledL s cs

end

mutual

/-- Every container of the subtree whose shadow record exists has
`unmap_now` clear, so the deferred unmap walk is a no-op. -/
def unmapsClear (s : XState) : Con → Prop
  | .mk d n f =>
    (∀ st, state_for_frame s d.frameId = some st → st.unmap_now = false) ∧
    unmapsClearL s n ∧ unmapsClearL s f

/-- `unmapsClear` over a forest. -/
def unmapsClearL (s : XState) : List Con → Prop
  | [] => True
  | c :: cs => unmapsClear s c ∧ unmapsClearL s cs

end

/-- Everything one reconciler run (`x_push_node_rec` with sufficient fuel)
establishes and preserves, proved by `push_main`: registry ids unchanged,
records outside the subtree unchanged, the container preserved up to the
reconciler-written fields, a parent update that keeps the later siblings
normalized, the subtree presettled, cleared `initial` flags preserved, and
silence plus preservation on an already-settled subtree. -/
def PushOut (s : XState) (ctx : Option DrawCtx) (c : Con) (pr : PushRes) : Prop :=
  pr.s.states.map (fun st => st.id) = s.states.map (fun st => st.id) ∧
  (∀ w, w ∉ treeIds c → state_for_frame pr.s w = state_for_frame s w) ∧
  cnormP pr.con = cnormP c ∧
  (∀ dctx, ctx = some dctx → ∃ u, pr.upd = some u ∧
    cnormDL u.later_nodes = cnormDL dctx.later_nodes) ∧
  presettled pr.s pr.con ∧
  ((∀ st ∈ s.states, st.initial = false) → ∀ st ∈ pr.s.states, st.initial = false) ∧
  (settled s c → pr.tr.filter isCountedOp = [] ∧ settled pr.s pr.con)

/-- The invariant of the focus-order child fold of `x_push_node` relative
to the fold's starting registry `s0`, parent data `d0` and child lists
`N0`/`F0`: `ids` is the part of the focus order still to process, `SS` an
abstract settledness assumption under which the fold is silent. -/
def FoldInv (s0 : XState) (d0 : ConData) (N0 F0 : List Con) (SS : Prop)
    (ids : List Nat) (acc : PushAcc) : Prop :=
  acc.s.states.map (fun st => st.id) = s0.states.map (fun st => st.id) ∧
  (∀ w, w ∉ treeIdsL N0 → w ∉ treeIdsL F0 →
    state_for_frame acc.s w = state_for_frame s0 w) ∧
  cnormPL acc.nodes = cnormPL N0 ∧
  cnormPL acc.floats = cnormPL F0 ∧
  dnormD acc.d = dnormD d0 ∧
  (∀ ch ∈ acc.nodes, presettled acc.s ch ∨ ch.data.frameId ∈ ids) ∧
  (∀ ch ∈ acc.floats, presettled acc.s ch ∨ ch.data.frameId ∈ ids) ∧
  ((∀ st ∈ s0.states, st.initial = false) → ∀ st ∈ acc.s.states, st.initial = false) ∧
  (SS → (∀ ch ∈ acc.nodes, settled acc.s ch) ∧ (∀ ch ∈ acc.floats, settled acc.s ch) ∧
    acc.tr.filter isCountedOp = [])

/-! # Theorems -/

theorem rect_equals_eq {a b : Rect} : rect_equals a b = true ↔ a = b := by
  cases a; cases b
  simp [rect_equals, Rect.mk.injEq, and_assoc]

theorem foldl_preserve {α : Type _} {β : Type _} (P : α → Prop) (f : α → β → α)
    (l : List β) (a : α) (h0 : P a) (hstep : ∀ x y, P x → P (f x y)) :
    P (l.foldl f a) := by
  induction l generalizing a with
  | nil => exact h0
  | cons b t ih => exact ih _ (hstep _ _ h0)

theorem copy_pixmaps_ops_kinds (c : Con) :
    ∀ op ∈ copy_pixmaps_ops c, isDecoKind op = true := by
  unfold copy_pixmaps_ops
  cases c.data.frame_buffer <;> simp [isDecoKind]

set_option maxRecDepth 4000 in
theorem x_draw_deco_repaint_tr_kinds (ctx : DrawCtx) (p : deco_render_params) (con0 : Con) :
    ∀ op ∈ (x_draw_deco_repaint ctx p con0).2.2, isDecoKind op = true := by
  intro op hop
  simp only [x_draw_deco_repaint] at hop
  rcases List.mem_append.mp hop with h | h
  · rcases List.mem_singleton.mp h with rfl; rfl
  · exact copy_pixmaps_ops_kinds _ op h

set_option maxRecDepth 4000 in
theorem x_draw_decoration_tr_kinds (cfg : Config) (ctx : DrawCtx) (con : Con) :
    ∀ op ∈ (x_draw_decoration cfg ctx con).2.2, isDecoKind op = true := by
  intro op hop
  simp only [x_draw_decoration] at hop
  repeat' split at hop
  all_goals
    first
    | exact absurd hop (List.not_mem_nil op)
    | exact copy_pixmaps_ops_kinds _ op hop
    | exact x_draw_deco_repaint_tr_kinds _ _ _ op hop

theorem deco_children_tr_kinds_of (fuel : Nat)
    (hN : ∀ cfg s pd ppr ppar fi l,
      ∀ op ∈ (deco_nodes_loop fuel cfg s pd ppr ppar fi l).2.2.2, isDecoKind op = true)
    (hF : ∀ cfg s pd ppr ppar l,
      ∀ op ∈ (deco_floats_loop fuel cfg s pd ppr ppar l).2.2.2, isDecoKind op = true) :
    ∀ cfg s c, ∀ op ∈ (x_deco_children fuel cfg s c).2, isDecoKind op = true := by
  intro cfg s c op hop
  simp only [x_deco_children] at hop
  rcases List.mem_append.mp hop with h | h
  · rcases List.mem_append.mp h with h | h
    · exact hN _ _ _ _ _ _ _ op h
    · exact hF _ _ _ _ _ _ op h
  · revert h
    split
    · split
      · exact fun h => copy_pixmaps_ops_kinds _ op h
      · exact fun h => absurd h (List.not_mem_nil op)
    · exact fun h => absurd h (List.not_mem_nil op)

theorem deco_walk_tr_kinds (fuel : Nat) :
    (∀ cfg s ctx c, ∀ op ∈ (x_deco_recurse fuel cfg s ctx c).2.2, isDecoKind op = true) ∧
    (∀ cfg s c, ∀ op ∈ (x_deco_children fuel cfg s c).2, isDecoKind op = true) ∧
    (∀ cfg s pd ppr ppar fi l,
      ∀ op ∈ (deco_nodes_loop fuel cfg s pd ppr ppar fi l).2.2.2, isDecoKind op = true) ∧
    (∀ cfg s pd ppr ppar l,
      ∀ op ∈ (deco_floats_loop fuel cfg s pd ppr ppar l).2.2.2, isDecoKind op = true) := by
  induction fuel with
  | zero =>
    have hN : ∀ cfg s pd ppr ppar fi l,
        ∀ op ∈ (deco_nodes_loop 0 cfg s pd ppr ppar fi l).2.2.2, isDecoKind op = true := by
      intro cfg s pd ppr ppar fi l op hop
      simp [deco_nodes_loop] at hop
    have hF : ∀ cfg s pd ppr ppar l,
        ∀ op ∈ (deco_floats_loop 0 cfg s pd ppr ppar l).2.2.2, isDecoKind op = true := by
      intro cfg s pd ppr ppar l op hop
      simp [deco_floats_loop] at hop
    refine ⟨?_, deco_children_tr_kinds_of 0 hN hF, hN, hF⟩
    intro cfg s ctx c op hop
    simp [x_deco_recurse] at hop
  | succ n ih =>
    obtain ⟨ihR, ihC, ihN, ihF⟩ := ih
    have hN : ∀ cfg s pd ppr ppar fi l,
        ∀ op ∈ (deco_nodes_loop (n + 1) cfg s pd ppr ppar fi l).2.2.2, isDecoKind op = true := by
      intro cfg s pd ppr ppar fi l op hop
      cases l with
      | nil => simp [deco_nodes_loop] at hop
      | cons cur rest =>
        simp only [deco_nodes_loop] at hop
        rcases List.mem_append.mp hop with h | h
        · exact ihR _ _ _ _ op h
        · exact ihN _ _ _ _ _ _ _ op h
    have hF : ∀ cfg s pd ppr ppar l,
        ∀ op ∈ (deco_floats_loop (n + 1) cfg s pd ppr ppar l).2.2.2, isDecoKind op = true := by
      intro cfg s pd ppr ppar l op hop
      cases l with
      | nil => simp [deco_floats_loop] at hop
      | cons cur rest =>
        simp only [deco_floats_loop] at hop
        rcases List.mem_append.mp hop with h | h
        · exact ihR _ _ _ _ op h
        · exact ihF _ _ _ _ _ _ op h
    refine ⟨?_, deco_children_tr_kinds_of (n + 1) hN hF, hN, hF⟩
    intro cfg s ctx c op hop
    cases ctx <;> simp only [x_deco_recurse] at hop <;> repeat' split at hop
    all_goals
      first
      | exact absurd hop (List.not_mem_nil op)
      | exact ihC _ _ _ op hop
      | (rcases List.mem_append.mp hop with h | h
         · first
           | exact absurd h (List.not_mem_nil op)
           | exact ihC _ _ _ op h
         · exact x_draw_decoration_tr_kinds _ _ _ op h)

theorem forall_mem_append {P : XOp → Prop} {a b : Trace}
    (ha : ∀ op ∈ a, P op) (hb : ∀ op ∈ b, P op) : ∀ op ∈ a ++ b, P op := by
  intro op hop
  rcases List.mem_append.mp hop with h | h
  · exact ha op h
  · exact hb op h

theorem pushOpOK_of_deco {op : XOp} (h : isDecoKind op = true) : pushOpOK op := by
  cases op <;> simp_all [isDecoKind, isPushNodeKind, pushOpOK]

theorem x_deco_recurse_at_tr_kinds (cfg : Config) (s : XState) (ctx : Option DrawCtx)
    (c : Con) : ∀ op ∈ (x_deco_recurse_at cfg s ctx c).2.2, isDecoKind op = true :=
  (deco_walk_tr_kinds _).1 cfg s ctx c

theorem x_push_node_name_tr_ok (frameId : Nat) (st : con_state) :
    ∀ op ∈ (x_push_node_name frameId st).2, pushOpOK op := by
  unfold x_push_node_name
  split
  · intro op hop
    rcases List.mem_singleton.mp hop with rfl
    exact ⟨rfl, nofun⟩
  · intro op hop
    exact absurd hop (List.not_mem_nil op)

theorem x_push_node_reparent_tr_ok (st : con_state) (c : Con) :
    ∀ op ∈ (x_push_node_reparent st c).2.2.2, pushOpOK op := by
  unfold x_push_node_reparent
  repeat' split
  all_goals intro op hop
  all_goals try exact absurd hop (List.not_mem_nil op)
  rcases List.mem_cons.mp hop with rfl | hop
  · exact ⟨rfl, nofun⟩
  rcases List.mem_cons.mp hop with rfl | hop
  · exact ⟨rfl, nofun⟩
  rcases List.mem_cons.mp hop with rfl | hop
  · exact ⟨rfl, nofun⟩
  rcases List.mem_cons.mp hop with rfl | hop
  · exact ⟨rfl, nofun⟩
  rcases List.mem_singleton.mp hop with rfl
  exact ⟨rfl, nofun⟩

theorem x_push_node_alloc_tr_ok (cfg : Config) (s : XState) (ctx : Option DrawCtx)
    (st : con_state) (rect : Rect) (c1 : Con) :
    ∀ op ∈ (x_push_node_alloc cfg s ctx st rect c1).2.2.2, pushOpOK op := by
  intro op hop
  have hcreate : ∀ pid fid : Nat,
      pushOpOK (XOp.createPixmap pid fid (max (toInt32 rect.width) 1)
        (max (toInt32 rect.height) 1)) := by
    intro pid fid
    refine ⟨rfl, ?_⟩
    intro p d wd ht hh
    cases hh
    exact ⟨le_max_right _ _, le_max_right _ _⟩
  have htrNew : ∀ pid fid : Nat, ∀ x ∈ [XOp.createPixmap pid fid
      (max (toInt32 rect.width) 1) (max (toInt32 rect.height) 1),
      XOp.clearSurface pid, XOp.changeGC pid], pushOpOK x := by
    intro pid fid x hx
    rcases List.mem_cons.mp hx with rfl | hx
    · exact hcreate pid fid
    rcases List.mem_cons.mp hx with rfl | hx
    · exact ⟨rfl, nofun⟩
    rcases List.mem_singleton.mp hx with rfl
    exact ⟨rfl, nofun⟩
  simp only [x_push_node_alloc] at hop
  rcases hfb : c1.data.frame_buffer with _ | fb <;> simp only [hfb] at hop <;>
    split at hop
  · rcases List.mem_append.mp hop with h | h
    · rcases List.mem_append.mp h with h | h
      · exact absurd h (List.not_mem_nil op)
      · exact htrNew _ _ op h
    · exact pushOpOK_of_deco (x_deco_recurse_at_tr_kinds _ _ _ _ op h)
  · rcases List.mem_append.mp hop with h | h
    · exact absurd h (List.not_mem_nil op)
    · exact htrNew _ _ op h
  · rcases List.mem_append.mp hop with h | h
    · rcases List.mem_append.mp h with h | h
      · rcases List.mem_singleton.mp h with rfl
        exact ⟨rfl, nofun⟩
      · exact htrNew _ _ op h
    · exact pushOpOK_of_deco (x_deco_recurse_at_tr_kinds _ _ _ _ op h)
  · rcases List.mem_append.mp hop with h | h
    · rcases List.mem_singleton.mp h with rfl
      exact ⟨rfl, nofun⟩
    · exact htrNew _ _ op h

theorem x_push_node_free_tr_ok (pixneed : Bool) (c : Con) :
    ∀ op ∈ (x_push_node_free pixneed c).2, pushOpOK op := by
  intro op hop
  simp only [x_push_node_free] at hop
  split at hop
  · revert hop
    rcases hfb : c.data.frame_buffer with _ | fb <;> simp only [hfb]
    · exact fun h => absurd h (List.not_mem_nil op)
    · intro h
      rcases List.mem_singleton.mp h with rfl
      exact ⟨rfl, nofun⟩
  · exact absurd hop (List.not_mem_nil op)

theorem x_push_node_geo_push_tr_ok (c3 : Con) (rect : Rect) :
    ∀ op ∈ x_push_node_geo_push c3 rect, pushOpOK op := by
  intro op hop
  simp only [x_push_node_geo_push] at hop
  rcases List.mem_append.mp hop with h | h
  · rcases List.mem_append.mp h with h | h
    · rcases List.mem_cons.mp h with rfl | h
      · exact ⟨rfl, nofun⟩
      · rcases List.mem_singleton.mp h with rfl
        exact ⟨rfl, nofun⟩
    · revert h
      rcases hfb : c3.data.frame_buffer with _ | fb <;> simp only [hfb]
      · exact fun h => absurd h (List.not_mem_nil op)
      · intro h
        rcases List.mem_singleton.mp h with rfl
        exact ⟨rfl, nofun⟩
  · rcases List.mem_singleton.mp h with rfl
    exact ⟨rfl, nofun⟩

theorem x_push_node_geometry_tr_ok (cfg : Config) (s : XState) (ctx : Option DrawCtx)
    (st : con_state) (rect : Rect) (c : Con) :
    ∀ op ∈ (x_push_node_geometry cfg s ctx st rect c).tr, pushOpOK op := by
  intro op hop
  simp only [x_push_node_geometry] at hop
  split at hop
  · rcases List.mem_append.mp hop with h | h
    · rcases List.mem_append.mp h with h | h
      · exact x_push_node_free_tr_ok _ _ op h
      · revert h
        split
        · exact fun h => x_push_node_alloc_tr_ok _ _ _ _ _ _ op h
        · exact fun h => absurd h (List.not_mem_nil op)
    · exact x_push_node_geo_push_tr_ok _ _ op h
  · exact absurd hop (List.not_mem_nil op)

theorem x_push_node_window_rect_tr_ok (st : con_state) (c : Con) :
    ∀ op ∈ (x_push_node_window_rect st c).2.2, pushOpOK op := by
  unfold x_push_node_window_rect
  repeat' split
  all_goals intro op hop
  all_goals try exact absurd hop (List.not_mem_nil op)
  rcases List.mem_singleton.mp hop with rfl
  exact ⟨rfl, nofun⟩

theorem set_shape_state_tr_ok (env : Env) (c : Con) (st : con_state) (nr : Bool) :
    ∀ op ∈ set_shape_state env c st nr, pushOpOK op := by
  unfold set_shape_state x_shape_frame_ops x_unshape_frame_ops
  repeat' split
  all_goals intro op hop
  all_goals try exact absurd hop (List.not_mem_nil op)
  all_goals
    rcases List.mem_append.mp hop with h | h
  all_goals
    first
    | exact absurd h (List.not_mem_nil op)
    | (rcases List.mem_append.mp h with h | h
       all_goals
         first
         | exact absurd h (List.not_mem_nil op)
         | (rcases List.mem_singleton.mp h with rfl; exact ⟨rfl, nofun⟩))

theorem x_push_node_map_tr_ok (st : con_state) (c : Con) :
    ∀ op ∈ (x_push_node_map st c).2, pushOpOK op := by
  unfold x_push_node_map
  repeat' split
  all_goals intro op hop
  all_goals try exact absurd hop (List.not_mem_nil op)
  all_goals
    rcases List.mem_append.mp hop with h | h
  all_goals
    try (rcases List.mem_append.mp h with h | h)
  all_goals
    try exact absurd h (List.not_mem_nil op)
  all_goals
    try (rcases List.mem_singleton.mp h with rfl; exact ⟨rfl, nofun⟩)
  all_goals
    repeat'
      first
      | (rcases List.mem_singleton.mp h with rfl; exact ⟨rfl, nofun⟩)
      | (rcases List.mem_cons.mp h with rfl | h; · exact ⟨rfl, nofun⟩)
      | (rcases List.mem_append.mp h with h | h)
  all_goals try exact absurd h (List.not_mem_nil op)

theorem set_hidden_state_tr_ok (c : Con) (st : con_state) :
    ∀ op ∈ (set_hidden_state c st).2, pushOpOK op := by
  unfold set_hidden_state
  repeat' split
  all_goals intro op hop
  all_goals try exact absurd hop (List.not_mem_nil op)
  rcases List.mem_singleton.mp hop with rfl
  exact ⟨rfl, nofun⟩

theorem set_maximized_state_tr_ok (c : Con) (st : con_state) :
    ∀ op ∈ (set_maximized_state c st).2, pushOpOK op := by
  intro op hop
  unfold set_maximized_state at hop
  split at hop
  · exact absurd hop (List.not_mem_nil op)
  · simp only [] at hop
    repeat' split at hop
    all_goals
      rcases List.mem_append.mp hop with h | h <;>
        first
        | exact absurd h (List.not_mem_nil op)
        | (rcases List.mem_singleton.mp h with rfl; exact ⟨rfl, nofun⟩)

theorem x_push_node_rec_tr_ok (fuel : Nat) :
    ∀ env cfg s ctx c, ∀ op ∈ (x_push_node_rec fuel env cfg s ctx c).tr, pushOpOK op := by
  induction fuel with
  | zero =>
    intro env cfg s ctx c op hop
    simp only [x_push_node_rec] at hop
    exact absurd hop (List.not_mem_nil op)
  | succ n ih =>
    intro env cfg s ctx c op hop
    rcases hsf : state_for_frame s c.data.frameId with _ | st0 <;>
      simp only [x_push_node_rec, hsf] at hop
    · exact absurd hop (List.not_mem_nil op)
    · rcases List.mem_append.mp hop with h | h
      · rcases List.mem_append.mp h with h | h
        · rcases List.mem_append.mp h with h | h
          · rcases List.mem_append.mp h with h | h
            · rcases List.mem_append.mp h with h | h
              · rcases List.mem_append.mp h with h | h
                · rcases List.mem_append.mp h with h | h
                  · rcases List.mem_append.mp h with h | h
                    · rcases List.mem_append.mp h with h | h
                      · exact x_push_node_name_tr_ok _ _ op h
                      · exact x_push_node_reparent_tr_ok _ _ op h
                    · exact x_push_node_geometry_tr_ok _ _ _ _ _ _ op h
                  · exact x_push_node_window_rect_tr_ok _ _ op h
                · exact set_shape_state_tr_ok _ _ _ _ op h
              · exact x_push_node_map_tr_ok _ _ op h
            · revert h
              split
              · split
                · intro h
                  rcases List.mem_singleton.mp h with rfl
                  exact ⟨rfl, nofun⟩
                · exact fun h => absurd h (List.not_mem_nil op)
              · exact fun h => absurd h (List.not_mem_nil op)
          · exact set_hidden_state_tr_ok _ _ op h
        · exact set_maximized_state_tr_ok _ _ op h
      · -- the focus-order child fold
        refine foldl_preserve (fun a : PushAcc => ∀ x ∈ a.tr, pushOpOK x) _ _ _ ?_ ?_ op h
        · intro x hx
          exact absurd hx (List.not_mem_nil x)
        · intro a cid hPa x hx
          simp only [x_push_step] at hx
          repeat' split at hx
          all_goals
            first
            | exact hPa x hx
            | (rcases List.mem_append.mp hx with hx | hx
               · exact hPa x hx
               · exact ih _ _ _ _ _ x hx)

theorem pushOpOK_not_unmap {op : XOp} (h : pushOpOK op) : isUnmapOp op = false := by
  obtain ⟨h1, -⟩ := h
  cases op <;> simp_all [isPushNodeKind, isUnmapOp]

theorem decoKind_not_unmap {op : XOp} (h : isDecoKind op = true) : isUnmapOp op = false := by
  cases op <;> simp_all [isDecoKind, isUnmapOp]

theorem unmapWalkKind_not_map_focus {op : XOp} (h : isUnmapWalkKind op = true) :
    isMapOp op = false ∧ isFocusAssignOp op = false := by
  cases op <;> simp_all [isUnmapWalkKind, isMapOp, isFocusAssignOp]

theorem stack_walk_aux_tr_restack (old_order : List Nat) (l : List con_state) :
    ∀ (prev : Option Nat),
      ∀ op ∈ (stack_walk_aux old_order prev l).tr, ∃ p i, op = XOp.configureRestack p i := by
  induction l with
  | nil => intro prev op hop; simp [stack_walk_aux] at hop
  | cons st rest ih =>
    intro prev op hop
    simp only [stack_walk_aux] at hop
    rcases List.mem_append.mp hop with h | h
    · exact ih _ op h
    · revert h
      split
      · split
        · intro h
          rcases List.mem_singleton.mp h with rfl
          exact ⟨_, _, rfl⟩
        · intro h; exact absurd h (List.not_mem_nil op)
      · intro h; exact absurd h (List.not_mem_nil op)

theorem filterMap_cwa_mem (g : con_state → Bool) (l : List con_state) :
    ∀ op ∈ l.filterMap
      (fun st => if g st then some (XOp.changeWindowAttributes st.id) else none),
      ∃ n, op = XOp.changeWindowAttributes n := by
  intro op hop
  rcases List.mem_filterMap.mp hop with ⟨a, -, ha⟩
  revert ha
  split
  · intro ha; cases ha; exact ⟨_, rfl⟩
  · intro ha; cases ha

theorem change_ewmh_focus_tr (env : Env) (a b : Nat) :
    ∀ op ∈ change_ewmh_focus env a b, ∃ n, op = XOp.changeProperty n := by
  intro op hop
  unfold change_ewmh_focus at hop
  repeat' split at hop
  all_goals try exact absurd hop (List.not_mem_nil op)
  all_goals
    rcases List.mem_append.mp hop with h | h
  all_goals
    first
    | exact absurd h (List.not_mem_nil op)
    | (rcases List.mem_singleton.mp h with rfl; exact ⟨_, rfl⟩)
    | (rcases List.mem_append.mp h with h | h
       all_goals
         first
         | exact absurd h (List.not_mem_nil op)
         | (rcases List.mem_singleton.mp h with rfl; exact ⟨_, rfl⟩))

theorem x_push_changes_warp_tr (env : Env) (g : Globals) :
    ∀ op ∈ (x_push_changes_warp env g).2,
      (∃ n, op = XOp.changeWindowAttributes n) ∨ ∃ x y, op = XOp.warpPointer x y := by
  intro op hop
  unfold x_push_changes_warp at hop
  repeat' (first | split at hop | simp only [] at hop)
  all_goals try exact absurd hop (List.not_mem_nil op)
  rcases List.mem_cons.mp hop with rfl | hop
  · exact Or.inl ⟨_, rfl⟩
  rcases List.mem_cons.mp hop with rfl | hop
  · exact Or.inr ⟨_, _, rfl⟩
  rcases List.mem_singleton.mp hop with rfl
  exact Or.inl ⟨_, rfl⟩

theorem counted_false_of_ewmh {env : Env} {a b : Nat} {op : XOp}
    (h : op ∈ change_ewmh_focus env a b) : isCountedOp op = false := by
  obtain ⟨n, rfl⟩ := change_ewmh_focus_tr env a b op h
  rfl

theorem x_push_changes_focus_tr_counted (env : Env) (g : Globals) (root : Con) :
    ∀ op ∈ (x_push_changes_focus env g root).2, isCountedOp op = false := by
  have hstep : ∀ op ∈ (x_push_changes_focus_step1 env g root).2, isCountedOp op = false := by
    intro op hop
    unfold x_push_changes_focus_step1 at hop
    repeat' (first | split at hop | simp only [] at hop)
    all_goals try exact absurd hop (List.not_mem_nil op)
    all_goals
      simp only [List.mem_append, List.mem_singleton, List.not_mem_nil, or_false,
        false_or] at hop
    all_goals
      repeat' (rcases hop with hop | hop)
    all_goals
      first
      | exact counted_false_of_ewmh hop
      | simp_all [isCountedOp]
  intro op hop
  unfold x_push_changes_focus at hop
  simp only [] at hop
  split at hop
  · rcases List.mem_append.mp hop with h | h
    · rcases List.mem_append.mp h with h | h
      · exact hstep op h
      · rcases List.mem_singleton.mp h with rfl; rfl
    · exact counted_false_of_ewmh h
  · exact hstep op hop

mutual

theorem x_push_node_unmaps_tr_kinds :
    ∀ (s : XState) (c : Con), ∀ op ∈ (x_push_node_unmaps s c).2.2, isUnmapWalkKind op = true
  | s, .mk d n f => by
    intro op hop
    simp only [x_push_node_unmaps] at hop
    rcases List.mem_append.mp hop with h | h
    · rcases List.mem_append.mp h with h | h
      · revert h
        repeat' split
        all_goals intro h
        all_goals try exact absurd h (List.not_mem_nil op)
        all_goals rcases List.mem_append.mp h with h | h
        all_goals
          first
          | exact absurd h (List.not_mem_nil op)
          | (rcases List.mem_singleton.mp h with rfl; rfl)
      · exact x_push_node_unmaps_list_tr_kinds _ n op h
    · exact x_push_node_unmaps_list_tr_kinds _ f op h

theorem x_push_node_unmaps_list_tr_kinds :
    ∀ (s : XState) (l : List Con),
      ∀ op ∈ (x_push_node_unmaps_list s l).2.2, isUnmapWalkKind op = true
  | s, [] => by
    intro op hop
    simp [x_push_node_unmaps_list] at hop
  | s, c :: cs => by
    intro op hop
    simp only [x_push_node_unmaps_list] at hop
    rcases List.mem_append.mp hop with h | h
    · exact x_push_node_unmaps_tr_kinds _ c op h
    · exact x_push_node_unmaps_list_tr_kinds _ cs op h

end

theorem x_push_node_tr_ok (env : Env) (cfg : Config) (s : XState) (c : Con) :
    ∀ op ∈ (x_push_node env cfg s c).tr, pushOpOK op :=
  x_push_node_rec_tr_ok (conDepth c) env cfg s none c

theorem stack_walk_tr_restack (old_order : List Nat) (l : List con_state) :
    ∀ op ∈ (stack_walk old_order l).tr, ∃ p i, op = XOp.configureRestack p i :=
  stack_walk_aux_tr_restack old_order l none

theorem counted_false_not_unmap {op : XOp} (h : isCountedOp op = false) :
    isUnmapOp op = false := by
  cases op <;> simp_all [isCountedOp, isUnmapOp]

theorem unmapfree_extend {t1 t2 : Trace}
    (h1 : ∀ op ∈ t1, isUnmapOp op = false)
    (h2 : ∃ pre post, t2 = pre ++ post ∧ (∀ op ∈ pre, isUnmapOp op = false) ∧
      (∀ op ∈ post, isUnmapWalkKind op = true ∨ op = XOp.flushConn) ∧
      (∀ op ∈ post, isMapOp op = false ∧ isFocusAssignOp op = false)) :
    ∃ pre post, t1 ++ t2 = pre ++ post ∧ (∀ op ∈ pre, isUnmapOp op = false) ∧
      (∀ op ∈ post, isUnmapWalkKind op = true ∨ op = XOp.flushConn) ∧
      (∀ op ∈ post, isMapOp op = false ∧ isFocusAssignOp op = false) := by
  obtain ⟨pre, post, heq, hpre, hk, hm⟩ := h2
  exact ⟨t1 ++ pre, post, by rw [heq, List.append_assoc], forall_mem_append h1 hpre, hk, hm⟩

/-- C3: within one full pass, the trace splits into a prefix that contains
no unmap operation and a suffix — the deferred unmap walk
(`x_push_node_unmaps`) followed by the final flush — that contains no map
and no focus-assignment operation; so every operation mapping a container
and every focus assignment is issued to the peer before any unmap of the
pass, which all happen in the deferred walk after the reconciler and after
focus resolution. -/
theorem C3_unmaps_deferred (env : Env) (cfg : Config) (w : World) :
    ∃ pre post, (x_push_changes env cfg w).2 = pre ++ post ∧
      (∀ op ∈ pre, isUnmapOp op = false) ∧
      (∀ op ∈ post, isUnmapWalkKind op = true ∨ op = XOp.flushConn) ∧
      (∀ op ∈ post, isMapOp op = false ∧ isFocusAssignOp op = false) := by
  simp only [x_push_changes]
  refine ⟨_, _, List.append_assoc _ _ _, ?_, ?_, ?_⟩
  · refine forall_mem_append (forall_mem_append (forall_mem_append (forall_mem_append
      (forall_mem_append (forall_mem_append (forall_mem_append (forall_mem_append
        (forall_mem_append (forall_mem_append ?_ ?_) ?_) ?_) ?_) ?_) ?_) ?_) ?_) ?_) ?_
    · intro op hop
      revert hop
      split
      · intro hop; rcases List.mem_singleton.mp hop with rfl; rfl
      · intro hop; exact absurd hop (List.not_mem_nil op)
    · intro op hop
      obtain ⟨n, rfl⟩ := filterMap_cwa_mem _ _ op hop
      rfl
    · intro op hop
      obtain ⟨p, i, rfl⟩ := stack_walk_tr_restack _ _ op hop
      rfl
    · intro op hop
      revert hop
      split
      · intro hop
        rcases List.mem_cons.mp hop with rfl | hop
        · rfl
        rcases List.mem_singleton.mp hop with rfl
        rfl
      · intro hop; exact absurd hop (List.not_mem_nil op)
    · intro op hop
      exact pushOpOK_not_unmap (x_push_node_tr_ok _ _ _ _ op hop)
    · intro op hop
      rcases x_push_changes_warp_tr _ _ op hop with ⟨n, rfl⟩ | ⟨x, y, rfl⟩ <;> rfl
    · intro op hop
      obtain ⟨n, rfl⟩ := filterMap_cwa_mem _ _ op hop
      rfl
    · intro op hop
      exact decoKind_not_unmap (x_deco_recurse_at_tr_kinds _ _ _ _ op hop)
    · intro op hop
      exact counted_false_not_unmap (x_push_changes_focus_tr_counted _ _ _ op hop)
    · intro op hop
      rcases List.mem_singleton.mp hop with rfl
      rfl
    · intro op hop
      obtain ⟨n, rfl⟩ := filterMap_cwa_mem _ _ op hop
      rfl
  · refine forall_mem_append ?_ ?_
    · intro op hop
      exact Or.inl (x_push_node_unmaps_tr_kinds _ _ op hop)
    · intro op hop
      rcases List.mem_singleton.mp hop with rfl
      exact Or.inr rfl
  · refine forall_mem_append ?_ ?_
    · intro op hop
      exact unmapWalkKind_not_map_focus (x_push_node_unmaps_tr_kinds _ _ op hop)
    · intro op hop
      rcases List.mem_singleton.mp hop with rfl
      exact ⟨rfl, rfl⟩

theorem x_push_changes_focus_step1_warp_to (env : Env) (g : Globals) (root : Con) :
    (x_push_changes_focus_step1 env g root).1.warp_to = g.warp_to := by
  unfold x_push_changes_focus_step1
  repeat' (first | split | simp only [])
  all_goals rfl

theorem x_push_changes_focus_warp_to (env : Env) (g : Globals) (root : Con) :
    (x_push_changes_focus env g root).1.warp_to = g.warp_to := by
  unfold x_push_changes_focus
  simp only []
  split
  · exact x_push_changes_focus_step1_warp_to env g root
  · exact x_push_changes_focus_step1_warp_to env g root

theorem x_push_changes_warp_clears (env : Env) (g : Globals) :
    (x_push_changes_warp env g).1.warp_to = none := by
  unfold x_push_changes_warp
  repeat' (first | split | simp only [])
  all_goals first | rfl | assumption

/-- C8: the pending pointer warp is cleared unconditionally by the warp
resolution of a pass — also when the pointer query fails, in which case
the warp is simply dropped — and the pointer is actually warped iff a warp
is pending, the pointer-position reply arrived, and the output containing
the pointer position differs from the output containing the midpoint of
the target rect. -/
theorem C8_pointer_warp (env : Env) (cfg : Config) (w : World) (g : Globals) :
    (x_push_changes env cfg w).1.g.warp_to = none ∧
    (x_push_changes_warp env g).1.warp_to = none ∧
    ((x_push_changes_warp env g).2.any isWarpOp = true ↔
      ∃ r, g.warp_to = some r ∧ ∃ reply, env.pointer_reply = some reply ∧
        env.output_at reply.1 reply.2 ≠
          env.output_at ((r.x : Int) + ((r.width / 2 : Nat) : Int))
            ((r.y : Int) + ((r.height / 2 : Nat) : Int))) := by
  refine ⟨?_, x_push_changes_warp_clears env g, ?_⟩
  · simp only [x_push_changes]
    rw [x_push_changes_focus_warp_to, x_push_changes_warp_clears]
  · unfold x_push_changes_warp
    rcases hw : g.warp_to with _ | r
    · simp
    · rcases hr : env.pointer_reply with _ | reply
      · simp
      · simp only []
        split
        · simp only [List.any_cons, List.any_nil, isWarpOp, Bool.or_false, Bool.false_or,
            Bool.true_or, Bool.or_true, Option.some.injEq]
          constructor
          · intro _
            exact ⟨r, rfl, reply, rfl, by assumption⟩
          · intro _
            trivial
        · simp only [List.any_nil, Option.some.injEq]
          constructor
          · intro h
            exact absurd h (by simp)
          · rintro ⟨r2, hr2, reply2, hrep2, hne⟩
            cases hr2
            cases hrep2
            exact absurd hne (by assumption)

/-- C9: every buffer creation the per-node reconciler issues has both
dimensions clamped to a minimum of one — no `createPixmap` in the trace of
`x_push_node` carries a dimension below one, whatever the container
geometry. -/
theorem C9_buffer_dims (env : Env) (cfg : Config) (s : XState) (c : Con) :
    (x_push_node env cfg s c).tr.all createDimsOK = true := by
  rw [List.all_eq_true]
  intro op hop
  obtain ⟨h1, h2⟩ := x_push_node_tr_ok env cfg s c op hop
  cases op
  case createPixmap p d wd ht =>
    obtain ⟨ha, hb⟩ := h2 p d wd ht rfl
    simp only [createDimsOK, Bool.and_eq_true, decide_eq_true_eq]
    exact ⟨ha, hb⟩
  all_goals rfl

/-- C10: tearing down a container's shadow state through a kill or a
reframe invalidates the focus trackers that referred to the torn-down
frame: if the frame id equals the tracked focused id or the tracked
last-focused id, that tracker is reset to the none value (`0`), and
otherwise it is untouched; so for a frame with a real (nonzero) id the
trackers never keep referring to the destroyed frame. -/
theorem C10_focus_trackers (env : Env) (g : Globals) (s : XState) (c : Con)
    (h : c.data.frameId ≠ 0) :
    ((x_con_kill env g s c).1.focused_id ≠ c.data.frameId ∧
     (x_con_kill env g s c).1.last_focused ≠ c.data.frameId ∧
     (x_con_reframe env g s c).1.focused_id ≠ c.data.frameId ∧
     (x_con_reframe env g s c).1.last_focused ≠ c.data.frameId) ∧
    (c.data.frameId = g.focused_id → (x_con_kill env g s c).1.focused_id = 0) ∧
    (c.data.frameId = g.last_focused → (x_con_kill env g s c).1.last_focused = 0) ∧
    (c.data.frameId ≠ g.focused_id → (x_con_kill env g s c).1.focused_id = g.focused_id) ∧
    (c.data.frameId ≠ g.last_focused →
      (x_con_kill env g s c).1.last_focused = g.last_focused) := by
  have hkill : (x_con_kill env g s c).1 = (x_con_kill_inner env g s c).1 := rfl
  have href : (x_con_reframe env g s c).1 = (x_con_kill_inner env g s c).1 := rfl
  have hfoc : (x_con_kill_inner env g s c).1.focused_id =
      if c.data.frameId == g.focused_id then 0 else g.focused_id := by
    unfold x_con_kill_inner
    simp only []
  have hlast : (x_con_kill_inner env g s c).1.last_focused =
      if c.data.frameId == g.last_focused then 0 else g.last_focused := by
    unfold x_con_kill_inner
    simp only []
  rw [hkill, href, hfoc, hlast]
  refine ⟨⟨?_, ?_, ?_, ?_⟩, ?_, ?_, ?_, ?_⟩
  all_goals split
  all_goals simp_all [beq_iff_eq]
  all_goals omega

theorem C10_focus_trackers_witness :
    ((x_con_kill baseEnv focusGlobals emptyXState (conWithFrame 5)).1.focused_id ≠
        (conWithFrame 5).data.frameId ∧
     (x_con_kill baseEnv focusGlobals emptyXState (conWithFrame 5)).1.last_focused ≠
        (conWithFrame 5).data.frameId ∧
     (x_con_reframe baseEnv focusGlobals emptyXState (conWithFrame 5)).1.focused_id ≠
        (conWithFrame 5).data.frameId ∧
     (x_con_reframe baseEnv focusGlobals emptyXState (conWithFrame 5)).1.last_focused ≠
        (conWithFrame 5).data.frameId) ∧
    ((conWithFrame 5).data.frameId = focusGlobals.focused_id →
      (x_con_kill baseEnv focusGlobals emptyXState (conWithFrame 5)).1.focused_id = 0) ∧
    ((conWithFrame 5).data.frameId = focusGlobals.last_focused →
      (x_con_kill baseEnv focusGlobals emptyXState (conWithFrame 5)).1.last_focused = 0) ∧
    ((conWithFrame 5).data.frameId ≠ focusGlobals.focused_id →
      (x_con_kill baseEnv focusGlobals emptyXState (conWithFrame 5)).1.focused_id =
        focusGlobals.focused_id) ∧
    ((conWithFrame 5).data.frameId ≠ focusGlobals.last_focused →
      (x_con_kill baseEnv focusGlobals emptyXState (conWithFrame 5)).1.last_focused =
        focusGlobals.last_focused) :=
  C10_focus_trackers baseEnv focusGlobals emptyXState (conWithFrame 5) (by decide)

theorem stack_walk_aux_spec (old_order : List Nat) (l : List con_state) :
    ∀ prev,
      (stack_walk_aux old_order prev l).states =
        l.map (fun st => { st with initial := false }) ∧
      (stack_walk_aux old_order prev l).order_changed = walkMismatch old_order prev l ∧
      (stack_walk_aux old_order prev l).tr = walkRestacks old_order prev l := by
  induction l with
  | nil => exact fun prev => ⟨rfl, rfl, rfl⟩
  | cons st rest ih =>
    intro prev
    obtain ⟨h1, h2, h3⟩ := ih (some st.id)
    refine ⟨?_, ?_, ?_⟩
    · simp only [stack_walk_aux, List.map, h1]
    · simp only [stack_walk_aux, walkMismatch, h2]
    · simp only [stack_walk_aux, walkRestacks, h3, walkMismatch, h2]
      cases prev with
      | none => simp
      | some p => simp [Bool.and_true]

/-- C5 (corrected): the bottom-to-top stacking walk clears `initial` on
every entry; the sticky order-changed flag at an entry is set iff some
entry at or below it has a predecessor mismatch between the current order
and the previous-order snapshot (an `initial` entry does not set it); and
a restack-above operation is issued for exactly those entries that have a
predecessor in current order and are either `initial` or have the sticky
flag set at them. -/
theorem C5_stack_walk_diff (old_order : List Nat) (l : List con_state) :
    (stack_walk old_order l).states = l.map (fun st => { st with initial := false }) ∧
    (stack_walk old_order l).order_changed = walkMismatch old_order none l ∧
    (stack_walk old_order l).tr = walkRestacks old_order none l :=
  stack_walk_aux_spec old_order l none

/-- C5 counterexample to the frozen wording: with current order `[1, 2, 3]`
equal to the previous-order snapshot and the bottom entry `3` brand new
(`initial`), the walk issues exactly one restack — for entry `3` itself —
and the sticky order-changed flag is still clear when the subsequent
(higher) entry `2` is processed, so `2` is not restacked, even though the
claim says a brand-new entry marks order changed for itself and every
subsequent entry and causes a restack for each such entry. -/
theorem C5_stack_walk_cex :
    (walkState 3 true).initial = true ∧
    (stack_walk [1, 2, 3] [walkState 1 false, walkState 2 false, walkState 3 true]).tr =
      [XOp.configureRestack 2 3] ∧
    walkMismatch [1, 2, 3] (some 1) [walkState 2 false, walkState 3 true] = false := by
  decide

/-- C1 (corrected): for a windowless container, the effective rect and the
map decision at the top of `x_push_node`: for a stacked/tabbed layout the
height is replaced by `deco_height_fold` — the conditional fold over the
children's decoration rects that updates its `(y, height)` pair only when
both components grow — and the container is unmapped for the pass iff that
fold is zero; a windowless container of any other layout is always
unmapped. -/
theorem C1_effective_height (c : Con) (hw : c.data.window = none) :
    ((c.data.layout = .L_STACKED ∨ c.data.layout = .L_TABBED) →
      x_push_node_rect c = { c.data.rect with height := deco_height_fold c.nodes } ∧
      x_push_node_mapped c =
        (if deco_height_fold c.nodes = 0 then false else c.data.mapped)) ∧
    (¬(c.data.layout = .L_STACKED ∨ c.data.layout = .L_TABBED) →
      x_push_node_rect c = c.data.rect ∧ x_push_node_mapped c = false) := by
  constructor
  · intro hl
    unfold x_push_node_rect x_push_node_mapped
    rw [if_pos ⟨hw, hl⟩, if_pos ⟨hw, hl⟩]
    exact ⟨rfl, rfl⟩
  · intro hl
    unfold x_push_node_rect x_push_node_mapped
    rw [if_neg (fun hc => hl hc.2), if_neg (fun hc => hl hc.2), if_pos hw]
    exact ⟨rfl, rfl⟩

theorem C1_effective_height_witness :
    ((conC1.data.layout = .L_STACKED ∨ conC1.data.layout = .L_TABBED) →
      x_push_node_rect conC1 =
        { conC1.data.rect with height := deco_height_fold conC1.nodes } ∧
      x_push_node_mapped conC1 =
        (if deco_height_fold conC1.nodes = 0 then false else conC1.data.mapped)) ∧
    (¬(conC1.data.layout = .L_STACKED ∨ conC1.data.layout = .L_TABBED) →
      x_push_node_rect conC1 = conC1.data.rect ∧ x_push_node_mapped conC1 = false) :=
  C1_effective_height conC1 (by decide)

/-- C1 counterexample to the frozen wording: a windowless stacked
container with children whose decoration rects are `(y 5, height 3)` and
`(y 0, height 10)` gets effective height `8` from the conditional fold of
`x_push_node` — the second child does not update the fold pair because its
`y` shrank — while the maximum of `y + height` over the children, which
the claim states, is `10`. -/
theorem C1_effective_height_cex :
    deco_height_fold conC1.nodes = 8 ∧
    spec_max_deco_height conC1.nodes = 10 ∧
    (x_push_node_rect conC1).height = 8 ∧
    conC1.data.window = none ∧ conC1.data.layout = .L_STACKED := by
  decide

theorem dither_pixel_eq_spec (c0 c1 : color_t) (width : Int) (gain : Rat) (i j : Int) :
    dither_pixel c0 c1 width gain i j = spec_dither_pixel 256 c0 c1 width gain i j := by
  unfold dither_pixel spec_dither_pixel spec_dither_channel lerp_double
  norm_num

/-- C7 (corrected): with dithering requested and both the pixel-buffer
allocation and the cairo surface check succeeding, the gradient fill
renders the ordered-dither image whose pixels follow the
interpolate-quantize-noise-clamp pipeline of the specification with the
quantization level count fixed at 256 (hardcoded in the source, not
configurable); with dithering disabled, or on allocation or surface
failure, a plain two-stop linear blend is drawn instead. -/
theorem C7_gradient_dither (surface_ok use_dithering alloc_ok sstat : Bool)
    (c0 c1 : color_t) (x y w h gain : Rat) :
    (surface_ok = true → use_dithering = true → alloc_ok = true → sstat = true →
      draw_util_rectangle_gradient surface_ok c0 c1 x y w h use_dithering gain
          alloc_ok sstat =
        .dithered (w.floor + 1) (h.floor + 1)
          (fun i j => spec_dither_pixel 256 c0 c1 (w.floor + 1) gain i j)) ∧
    (surface_ok = true →
      use_dithering = false ∨ alloc_ok = false ∨ sstat = false →
      draw_util_rectangle_gradient surface_ok c0 c1 x y w h use_dithering gain
          alloc_ok sstat = .blend c0 c1 x y w h) := by
  constructor
  · rintro rfl rfl rfl rfl
    have hfun : (fun i j => dither_pixel c0 c1 (w.floor + 1) gain i j) =
        fun i j => spec_dither_pixel 256 c0 c1 (w.floor + 1) gain i j := by
      funext i j
      exact dither_pixel_eq_spec c0 c1 (w.floor + 1) gain i j
    unfold draw_util_rectangle_gradient
    simp [hfun]
  · rintro rfl hfail
    unfold draw_util_rectangle_gradient
    rcases hfail with rfl | rfl | rfl <;> simp

theorem C7_gradient_dither_witness :
    draw_util_rectangle_gradient true blackColor whiteColor 0 0 10 5 true 0 true true =
      .dithered ((10 : Rat).floor + 1) ((5 : Rat).floor + 1)
        (fun i j => spec_dither_pixel 256 blackColor whiteColor ((10 : Rat).floor + 1) 0 i j) :=
  (C7_gradient_dither true true true true blackColor whiteColor 0 0 10 5 0).1
    rfl rfl rfl rfl

theorem ratFloor_cast_floor (x : ℚ) : Rat.floor x = ⌊x⌋ := rfl

/-- C7 counterexample to the frozen wording: the quantization level count
is not configurable — the pixel the source computes matches the
specification pipeline at 256 levels and differs from it at a would-be
configured count of 2 (black-to-white gradient of width 2, pixel `(1, 0)`,
noise gain 0: the source yields channel value 128, a 2-level quantizer
would yield 255). -/
theorem C7_gradient_dither_cex :
    dither_pixel blackColor whiteColor 2 0 1 0 =
      spec_dither_pixel 256 blackColor whiteColor 2 0 1 0 ∧
    dither_pixel blackColor whiteColor 2 0 1 0 ≠
      spec_dither_pixel 2 blackColor whiteColor 2 0 1 0 := by
  have h1 : dither_pixel blackColor whiteColor 2 0 1 0 = 4286611584 := by
    unfold dither_pixel
    simp only [ratFloor, ratFloor_cast_floor, lerp_double, clamp_double, blackColor,
      whiteColor, threshold_map]
    norm_num
    decide
  have h2 : spec_dither_pixel 2 blackColor whiteColor 2 0 1 0 = 4294967295 := by
    unfold spec_dither_pixel spec_dither_channel
    simp only [ratFloor, ratFloor_cast_floor, clamp_double, blackColor, whiteColor,
      threshold_map]
    norm_num
    decide
  refine ⟨dither_pixel_eq_spec _ _ _ _ _ _, ?_⟩
  rw [h1, h2]
  decide

theorem copy_pixmaps_ops_no_repaint (c : Con) :
    (copy_pixmaps_ops c).any isRepaintOp = false := by
  unfold copy_pixmaps_ops
  split <;> rfl

theorem x_draw_deco_repaint_facts (ctx : DrawCtx) (p : deco_render_params) (con0 : Con) :
    (x_draw_deco_repaint ctx p con0).2.1.later_nodes =
      ctx.later_nodes.map (fun n => n.setData { n.data with deco_params := none }) ∧
    (x_draw_deco_repaint ctx p con0).1.data.deco_params = some p := by
  unfold x_draw_deco_repaint
  simp only []
  constructor
  · trivial
  · split
    · split <;> rfl
    · rfl

/-- C6: for a container that reaches the cache test of the decoration
painter (it passes the applicability filters, has a nonzero height, and is
not a leaf whose buffer is still missing), the repaint is skipped iff the
freshly built parameter snapshot equals the cached one, the window's
name-changed flag is clear, neither this container's nor its parent's
buffer was just (re)created, and no mark changed; on a skip only the
buffer-to-surface copy is issued and nothing is mutated, and on a repaint
the cached snapshot of every later sibling is invalidated and the
container's own snapshot is set to the fresh parameters. -/
theorem C6_deco_cache (cfg : Config) (ctx : DrawCtx) (con : Con)
    (hfilter : ¬((¬con_is_leaf con = true ∧ ctx.parent_layout ≠ .L_STACKED ∧
        ctx.parent_layout ≠ .L_TABBED) ∨ ctx.parent_type = .CT_OUTPUT ∨
        ctx.parent_type = .CT_DOCKAREA ∨ con.data.ctype = .CT_FLOATING_CON))
    (hh : ¬con.data.rect.height = 0)
    (hpx : ¬(con_is_leaf con = true ∧ con.data.frame_buffer = none)) :
    ((x_draw_decoration cfg ctx con).2.2.any isRepaintOp = false ↔
      (con.data.deco_params = some (build_deco_params cfg ctx con) ∧
       windowNameChanged con = false ∧ ctx.parent_pixmap_recreated = false ∧
       con.data.pixmap_recreated = false ∧ con.data.mark_changed = false)) ∧
    ((x_draw_decoration cfg ctx con).2.2.any isRepaintOp = false →
      (x_draw_decoration cfg ctx con).2.2 = copy_pixmaps_ops con ∧
      (x_draw_decoration cfg ctx con).1 = con ∧
      (x_draw_decoration cfg ctx con).2.1 = CtxUpd.ofCtx ctx) ∧
    ((x_draw_decoration cfg ctx con).2.2.any isRepaintOp = true →
      (x_draw_decoration cfg ctx con).2.1.later_nodes =
        ctx.later_nodes.map (fun n => n.setData { n.data with deco_params := none }) ∧
      (x_draw_decoration cfg ctx con).1.data.deco_params =
        some (build_deco_params cfg ctx con)) := by
  have hbody : x_draw_decoration cfg ctx con =
      (if con.data.deco_params = some (build_deco_params cfg ctx con) ∧
          windowNameChanged con = false ∧ ctx.parent_pixmap_recreated = false ∧
          con.data.pixmap_recreated = false ∧ con.data.mark_changed = false then
        (con, CtxUpd.ofCtx ctx, copy_pixmaps_ops con)
      else x_draw_deco_repaint ctx (build_deco_params cfg ctx con) con) := by
    unfold x_draw_decoration
    rw [if_neg hfilter, if_neg hh, if_neg hpx]
  rw [hbody]
  split
  · rename_i hc
    refine ⟨?_, fun _ => ⟨rfl, rfl, rfl⟩, ?_⟩
    · rw [copy_pixmaps_ops_no_repaint]
      exact iff_of_true rfl hc
    · intro hrep
      rw [copy_pixmaps_ops_no_repaint] at hrep
      exact Bool.noConfusion hrep
  · rename_i hc
    have hany : (x_draw_deco_repaint ctx (build_deco_params cfg ctx con) con).2.2.any
        isRepaintOp = true := by
      unfold x_draw_deco_repaint
      simp only []
      rfl
    refine ⟨?_, ?_, fun _ => x_draw_deco_repaint_facts ctx _ con⟩
    · rw [hany]
      exact iff_of_false (by decide) hc
    · intro h
      rw [hany] at h
      exact Bool.noConfusion h

/-! ## Registry lemmas -/

theorem replace_state_map_id (l : List con_state) (st2 : con_state) :
    (replace_state l st2).map (fun st => st.id) = l.map (fun st => st.id) := by
  induction l with
  | nil => rfl
  | cons st rest ih =>
    unfold replace_state
    split
    · rename_i h
      simp only [List.map]
      rw [eq_of_beq h]
    · simp only [List.map, ih]

theorem set_state_map_id (s : XState) (st2 : con_state) :
    (set_state s st2).states.map (fun st => st.id) = s.states.map (fun st => st.id) :=
  replace_state_map_id s.states st2

theorem find?_map_id_congr (l1 : List con_state) :
    ∀ (l2 : List con_state),
      l1.map (fun st => st.id) = l2.map (fun st => st.id) →
      ∀ w, (l1.find? (fun st => st.id == w)).isSome =
        (l2.find? (fun st => st.id == w)).isSome := by
  induction l1 with
  | nil =>
    intro l2 h w
    cases l2 with
    | nil => rfl
    | cons b bs => cases h
  | cons a as ih =>
    intro l2 h w
    cases l2 with
    | nil => cases h
    | cons b bs =>
      injection h with h1 h2
      simp only [] at h1
      simp only [List.find?]
      rw [h1]
      rcases hb : (b.id == w) with _ | _
      · simp only [hb]
        exact ih bs h2 w
      · simp only [hb]
        rfl

theorem state_for_frame_isSome_congr {s1 s2 : XState}
    (h : s1.states.map (fun st => st.id) = s2.states.map (fun st => st.id)) (w : Nat) :
    (state_for_frame s1 w).isSome = (state_for_frame s2 w).isSome :=
  find?_map_id_congr _ _ h w

theorem find?_replace_ne (l : List con_state) (st2 : con_state) (w : Nat)
    (h : ¬w = st2.id) :
    (replace_state l st2).find? (fun st => st.id == w) =
      l.find? (fun st => st.id == w) := by
  induction l with
  | nil => rfl
  | cons st rest ih =>
    unfold replace_state
    split
    · rename_i heq
      have hst : st.id = st2.id := eq_of_beq heq
      have h1 : (st2.id == w) = false := by
        refine beq_eq_false_iff_ne.mpr ?_
        intro hcontra
        exact h hcontra.symm
      have h2 : (st.id == w) = false := by rw [hst]; exact h1
      simp only [List.find?, h1, h2]
    · simp only [List.find?]
      rcases hb : (st.id == w) with _ | _
      · simp only [ih]
      · rfl

theorem state_for_frame_set_ne (s : XState) (st2 : con_state) (w : Nat)
    (h : ¬w = st2.id) :
    state_for_frame (set_state s st2) w = state_for_frame s w :=
  find?_replace_ne s.states st2 w h

theorem find?_replace_self (l : List con_state) (st2 : con_state)
    (h : (l.find? (fun st => st.id == st2.id)).isSome = true) :
    (replace_state l st2).find? (fun st => st.id == st2.id) = some st2 := by
  induction l with
  | nil => cases h
  | cons st rest ih =>
    unfold replace_state
    split
    · simp [List.find?]
    · rename_i heq
      have hne : (st.id == st2.id) = false := by
        rcases hb : (st.id == st2.id) with _ | _
        · rfl
        · exact absurd hb heq
      simp only [List.find?, hne]
      apply ih
      simpa [List.find?, hne] using h

theorem state_for_frame_set_self (s : XState) (st2 : con_state)
    (h : (state_for_frame s st2.id).isSome = true) :
    state_for_frame (set_state s st2) st2.id = some st2 :=
  find?_replace_self s.states st2 h

theorem mem_replace_state {l : List con_state} {st2 x : con_state}
    (h : x ∈ replace_state l st2) : x ∈ l ∨ x = st2 := by
  induction l with
  | nil => cases h
  | cons st rest ih =>
    unfold replace_state at h
    revert h
    split
    · intro h
      rcases List.mem_cons.mp h with rfl | h
      · exact Or.inr rfl
      · exact Or.inl (List.mem_cons_of_mem _ h)
    · intro h
      rcases List.mem_cons.mp h with rfl | h
      · exact Or.inl (List.mem_cons_self _ _)
      · rcases ih h with h | h
        · exact Or.inl (List.mem_cons_of_mem _ h)
        · exact Or.inr h

theorem state_for_frame_mem {s : XState} {w : Nat} {st : con_state}
    (h : state_for_frame s w = some st) : st ∈ s.states :=
  List.mem_of_find?_eq_some h

/-! ## Tree decomposition and normalization lemmas -/

theorem splitById_eq (id : Nat) : ∀ (l : List Con) (pre : List Con) (x : Con)
    (post : List Con), splitById id l = some (pre, x, post) →
    l = pre ++ x :: post ∧ x.data.frameId = id := by
  intro l
  induction l with
  | nil => intro pre x post h; cases h
  | cons c cs ih =>
    intro pre x post h
    unfold splitById at h
    revert h
    split
    · rename_i hc
      intro h
      injection h with h2
      injection h2 with hpre hrest
      injection hrest with hx hpost
      subst hpre; subst hx; subst hpost
      exact ⟨rfl, eq_of_beq hc⟩
    · split
      · rename_i hc r0 hr0
        intro h
        injection h with h2
        injection h2 with hpre hrest
        injection hrest with hx hpost
        subst hpre; subst hx; subst hpost
        obtain ⟨he, hid⟩ := ih r0.1 r0.2.1 r0.2.2 (hr0.trans rfl)
        exact ⟨by rw [List.cons_append, ← he], hid⟩
      · intro h; cases h

theorem cnormDL_append (l1 l2 : List Con) :
    cnormDL (l1 ++ l2) = cnormDL l1 ++ cnormDL l2 := by
  induction l1 with
  | nil => rfl
  | cons c cs ih =>
    simp only [List.cons_append, cnormDL]
    exact congrArg (cnormD c :: ·) ih

theorem cnormPL_append (l1 l2 : List Con) :
    cnormPL (l1 ++ l2) = cnormPL l1 ++ cnormPL l2 := by
  induction l1 with
  | nil => rfl
  | cons c cs ih =>
    simp only [List.cons_append, cnormPL]
    exact congrArg (cnormP c :: ·) ih

theorem dnormD_idem (d : ConData) : dnormD (dnormD d) = dnormD d := by
  unfold dnormD
  rcases hw : d.window with _ | w <;> simp [hw, Option.map]

mutual

theorem cnormP_cnormD : ∀ c : Con, cnormP (cnormD c) = cnormP c
  | .mk d n f => by
    simp only [cnormD, cnormP, cnormPL_cnormDL n, cnormPL_cnormDL f]
    congr 1
    unfold dnormP
    rw [dnormD_idem]

theorem cnormPL_cnormDL : ∀ l : List Con, cnormPL (cnormDL l) = cnormPL l
  | [] => rfl
  | c :: cs => by
    simp only [cnormDL, cnormPL, cnormP_cnormD c, cnormPL_cnormDL cs]

end

theorem deco_fold_step_eq :
    (fun (acc : Nat × Nat) (cur : Con) =>
      if acc.1 ≤ cur.data.deco_rect.y ∧ acc.2 ≤ cur.data.deco_rect.height then
        (cur.data.deco_rect.y, cur.data.deco_rect.height)
      else acc) =
    (fun acc cur => if acc.1 ≤ cur.data.deco_rect.y ∧ acc.2 ≤ cur.data.deco_rect.height then
        (cur.data.deco_rect.y, cur.data.deco_rect.height)
      else acc) := rfl

theorem deco_fold_aux_cnormD (l : List Con) : ∀ acc : Nat × Nat,
    (cnormDL l).foldl
      (fun (acc : Nat × Nat) cur =>
        if acc.1 ≤ cur.data.deco_rect.y ∧ acc.2 ≤ cur.data.deco_rect.height then
          (cur.data.deco_rect.y, cur.data.deco_rect.height)
        else acc) acc =
    l.foldl
      (fun (acc : Nat × Nat) cur =>
        if acc.1 ≤ cur.data.deco_rect.y ∧ acc.2 ≤ cur.data.deco_rect.height then
          (cur.data.deco_rect.y, cur.data.deco_rect.height)
        else acc) acc := by
  induction l with
  | nil => intro acc; rfl
  | cons c cs ih =>
    intro acc
    cases c with
    | mk d n f =>
      simp only [cnormDL, cnormD, List.foldl]
      exact ih _

theorem deco_height_fold_cnormD (l : List Con) :
    deco_height_fold (cnormDL l) = deco_height_fold l := by
  unfold deco_height_fold
  rw [deco_fold_aux_cnormD]

theorem deco_fold_aux_cnormP (l : List Con) : ∀ acc : Nat × Nat,
    (cnormPL l).foldl
      (fun (acc : Nat × Nat) cur =>
        if acc.1 ≤ cur.data.deco_rect.y ∧ acc.2 ≤ cur.data.deco_rect.height then
          (cur.data.deco_rect.y, cur.data.deco_rect.height)
        else acc) acc =
    l.foldl
      (fun (acc : Nat × Nat) cur =>
        if acc.1 ≤ cur.data.deco_rect.y ∧ acc.2 ≤ cur.data.deco_rect.height then
          (cur.data.deco_rect.y, cur.data.deco_rect.height)
        else acc) acc := by
  induction l with
  | nil => intro acc; rfl
  | cons c cs ih =>
    intro acc
    cases c with
    | mk d n f =>
      simp only [cnormPL, cnormP, List.foldl]
      exact ih _

theorem deco_height_fold_cnormP (l : List Con) :
    deco_height_fold (cnormPL l) = deco_height_fold l := by
  unfold deco_height_fold
  rw [deco_fold_aux_cnormP]

theorem dnormD_layout (d : ConData) : (dnormD d).layout = d.layout := rfl

theorem dnormD_rect (d : ConData) : (dnormD d).rect = d.rect := rfl

theorem dnormD_frameId (d : ConData) : (dnormD d).frameId = d.frameId := rfl

theorem dnormD_ctype (d : ConData) : (dnormD d).ctype = d.ctype := rfl

theorem dnormD_border_style (d : ConData) : (dnormD d).border_style = d.border_style := rfl

theorem dnormD_mapped (d : ConData) : (dnormD d).mapped = d.mapped := rfl

theorem dnormD_frame_buffer (d : ConData) : (dnormD d).frame_buffer = d.frame_buffer := rfl

theorem dnormD_deco_rect (d : ConData) : (dnormD d).deco_rect = d.deco_rect := rfl

theorem dnormD_window_rect (d : ConData) : (dnormD d).window_rect = d.window_rect := rfl

theorem dnormD_focus_ids (d : ConData) : (dnormD d).focus_ids = d.focus_ids := rfl

theorem dnormD_floating (d : ConData) : (dnormD d).floating = d.floating := rfl

theorem dnormP_layout (d : ConData) : (dnormP d).layout = d.layout := rfl

theorem dnormP_rect (d : ConData) : (dnormP d).rect = d.rect := rfl

theorem dnormP_frameId (d : ConData) : (dnormP d).frameId = d.frameId := rfl

theorem dnormP_ctype (d : ConData) : (dnormP d).ctype = d.ctype := rfl

theorem dnormP_border_style (d : ConData) : (dnormP d).border_style = d.border_style := rfl

theorem dnormP_deco_rect (d : ConData) : (dnormP d).deco_rect = d.deco_rect := rfl

theorem dnormP_window_rect (d : ConData) : (dnormP d).window_rect = d.window_rect := rfl

theorem dnormP_focus_ids (d : ConData) : (dnormP d).focus_ids = d.focus_ids := rfl

theorem dnormP_floating (d : ConData) : (dnormP d).floating = d.floating := rfl

theorem window_none_dnormD (d : ConData) : ((dnormD d).window = none) = (d.window = none) := by
  unfold dnormD
  rcases hw : d.window with _ | w <;> simp [hw, Option.map]

theorem window_none_dnormP (d : ConData) : ((dnormP d).window = none) = (d.window = none) := by
  unfold dnormP
  rw [show ({ dnormD d with mapped := false, frame_buffer := none } : ConData).window =
      (dnormD d).window from rfl]
  exact window_none_dnormD d

theorem x_push_node_rect_cnormD (c : Con) :
    x_push_node_rect (cnormD c) = x_push_node_rect c := by
  cases c with
  | mk d n f =>
    unfold x_push_node_rect
    simp only [cnormD, Con.data, Con.nodes, deco_height_fold_cnormD, dnormD_layout,
      dnormD_rect, window_none_dnormD]

theorem x_push_node_rect_cnormP (c : Con) :
    x_push_node_rect (cnormP c) = x_push_node_rect c := by
  cases c with
  | mk d n f =>
    unfold x_push_node_rect
    simp only [cnormP, Con.data, Con.nodes, deco_height_fold_cnormP, dnormP_layout,
      dnormP_rect, window_none_dnormP]

theorem cnormDL_isEmpty (l : List Con) : (cnormDL l).isEmpty = l.isEmpty := by
  cases l <;> rfl

theorem cnormPL_isEmpty (l : List Con) : (cnormPL l).isEmpty = l.isEmpty := by
  cases l <;> rfl

theorem con_is_leaf_cnormD (c : Con) : con_is_leaf (cnormD c) = con_is_leaf c := by
  cases c with
  | mk d n f => exact cnormDL_isEmpty n

theorem con_is_leaf_cnormP (c : Con) : con_is_leaf (cnormP c) = con_is_leaf c := by
  cases c with
  | mk d n f => exact cnormPL_isEmpty n

theorem is_pixmap_needed_cnormD (c : Con) :
    is_pixmap_needed (cnormD c) = is_pixmap_needed c := by
  cases c with
  | mk d n f =>
    unfold is_pixmap_needed
    rw [show (cnormD (.mk d n f)).data = dnormD d from rfl]
    rw [show (Con.mk d n f).data = d from rfl]
    rw [dnormD_ctype, dnormD_border_style, dnormD_layout,
      con_is_leaf_cnormD (.mk d n f)]

theorem is_pixmap_needed_cnormP (c : Con) :
    is_pixmap_needed (cnormP c) = is_pixmap_needed c := by
  cases c with
  | mk d n f =>
    unfold is_pixmap_needed
    rw [show (cnormP (.mk d n f)).data = dnormP d from rfl]
    rw [show (Con.mk d n f).data = d from rfl]
    rw [dnormP_ctype, dnormP_border_style, dnormP_layout,
      con_is_leaf_cnormP (.mk d n f)]

theorem window_isSome_dnormD (d : ConData) :
    (dnormD d).window.isSome = d.window.isSome := by
  unfold dnormD
  rcases hw : d.window with _ | w <;> simp [hw, Option.map]

theorem x_push_node_mapped_cnormD (c : Con) :
    x_push_node_mapped (cnormD c) = x_push_node_mapped c := by
  cases c with
  | mk d n f =>
    unfold x_push_node_mapped
    rw [show (cnormD (.mk d n f)).data = dnormD d from rfl]
    rw [show (Con.mk d n f).data = d from rfl]
    rw [show (cnormD (.mk d n f)).nodes = cnormDL n from rfl]
    rw [show (Con.mk d n f).nodes = n from rfl]
    rw [dnormD_layout, dnormD_mapped, deco_height_fold_cnormD]
    simp only [window_none_dnormD]

theorem treeIds_mk (d : ConData) (n f : List Con) :
    treeIds (.mk d n f) = d.frameId :: (treeIdsL n ++ treeIdsL f) := by
  simp [treeIds, treeIdsL, conList, List.map_append, Con.data]

theorem treeIdsL_cons (c : Con) (cs : List Con) :
    treeIdsL (c :: cs) = treeIds c ++ treeIdsL cs := by
  simp [treeIdsL, treeIds, conListL, List.map_append]

mutual

theorem treeIds_cnormD : ∀ c : Con, treeIds (cnormD c) = treeIds c
  | .mk d n f => by
    rw [show cnormD (.mk d n f) = .mk (dnormD d) (cnormDL n) (cnormDL f) from rfl]
    rw [treeIds_mk, treeIds_mk, dnormD_frameId, treeIdsL_cnormDL n, treeIdsL_cnormDL f]

theorem treeIdsL_cnormDL : ∀ l : List Con, treeIdsL (cnormDL l) = treeIdsL l
  | [] => rfl
  | c :: cs => by
    rw [show cnormDL (c :: cs) = cnormD c :: cnormDL cs from rfl]
    rw [treeIdsL_cons, treeIdsL_cons, treeIds_cnormD c, treeIdsL_cnormDL cs]

end

mutual

theorem treeIds_cnormP : ∀ c : Con, treeIds (cnormP c) = treeIds c
  | .mk d n f => by
    rw [show cnormP (.mk d n f) = .mk (dnormP d) (cnormPL n) (cnormPL f) from rfl]
    rw [treeIds_mk, treeIds_mk, dnormP_frameId, treeIdsL_cnormPL n, treeIdsL_cnormPL f]

theorem treeIdsL_cnormPL : ∀ l : List Con, treeIdsL (cnormPL l) = treeIdsL l
  | [] => rfl
  | c :: cs => by
    rw [show cnormPL (c :: cs) = cnormP c :: cnormPL cs from rfl]
    rw [treeIdsL_cons, treeIdsL_cons, treeIds_cnormP c, treeIdsL_cnormPL cs]

end

mutual

theorem conDepth_cnormD : ∀ c : Con, conDepth (cnormD c) = conDepth c
  | .mk d n f => by
    rw [show cnormD (.mk d n f) = .mk (dnormD d) (cnormDL n) (cnormDL f) from rfl]
    simp only [conDepth, conDepthL_cnormDL n, conDepthL_cnormDL f]

theorem conDepthL_cnormDL : ∀ l : List Con, conDepthL (cnormDL l) = conDepthL l
  | [] => rfl
  | c :: cs => by
    rw [show cnormDL (c :: cs) = cnormD c :: cnormDL cs from rfl]
    simp only [conDepthL, conDepth_cnormD c, conDepthL_cnormDL cs]

end

mutual

theorem conDepth_cnormP : ∀ c : Con, conDepth (cnormP c) = conDepth c
  | .mk d n f => by
    rw [show cnormP (.mk d n f) = .mk (dnormP d) (cnormPL n) (cnormPL f) from rfl]
    simp only [conDepth, conDepthL_cnormPL n, conDepthL_cnormPL f]

theorem conDepthL_cnormPL : ∀ l : List Con, conDepthL (cnormPL l) = conDepthL l
  | [] => rfl
  | c :: cs => by
    rw [show cnormPL (c :: cs) = cnormP c :: cnormPL cs from rfl]
    simp only [conDepthL, conDepth_cnormP c, conDepthL_cnormPL cs]

end

theorem allContains_cnormDL (l : List Con) (ids : List Nat) :
    (cnormDL l).all (fun ch => ids.contains ch.data.frameId) =
      l.all (fun ch => ids.contains ch.data.frameId) := by
  induction l with
  | nil => rfl
  | cons c cs ih =>
    cases c with
    | mk d n f =>
      simp only [cnormDL, cnormD, List.all_cons, ih]
      rfl

theorem allContains_cnormPL (l : List Con) (ids : List Nat) :
    (cnormPL l).all (fun ch => ids.contains ch.data.frameId) =
      l.all (fun ch => ids.contains ch.data.frameId) := by
  induction l with
  | nil => rfl
  | cons c cs ih =>
    cases c with
    | mk d n f =>
      simp only [cnormPL, cnormP, List.all_cons, ih]
      rfl

mutual

theorem wfCon_cnormD : ∀ (s : XState) (c : Con), wfCon s (cnormD c) = wfCon s c
  | s, .mk d n f => by
    rw [show cnormD (.mk d n f) = .mk (dnormD d) (cnormDL n) (cnormDL f) from rfl]
    simp only [wfCon, dnormD_frameId, dnormD_focus_ids, allContains_cnormDL,
      wfConL_cnormDL s n, wfConL_cnormDL s f]

theorem wfConL_cnormDL : ∀ (s : XState) (l : List Con), wfConL s (cnormDL l) = wfConL s l
  | s, [] => rfl
  | s, c :: cs => by
    rw [show cnormDL (c :: cs) = cnormD c :: cnormDL cs from rfl]
    simp only [wfConL, wfCon_cnormD s c, wfConL_cnormDL s cs]

end

mutual

theorem wfCon_cnormP : ∀ (s : XState) (c : Con), wfCon s (cnormP c) = wfCon s c
  | s, .mk d n f => by
    rw [show cnormP (.mk d n f) = .mk (dnormP d) (cnormPL n) (cnormPL f) from rfl]
    simp only [wfCon, dnormP_frameId, dnormP_focus_ids, allContains_cnormPL,
      wfConL_cnormPL s n, wfConL_cnormPL s f]

theorem wfConL_cnormPL : ∀ (s : XState) (l : List Con), wfConL s (cnormPL l) = wfConL s l
  | s, [] => rfl
  | s, c :: cs => by
    rw [show cnormPL (c :: cs) = cnormP c :: cnormPL cs from rfl]
    simp only [wfConL, wfCon_cnormP s c, wfConL_cnormPL s cs]

end

theorem window_rect_clause_dnormD (d : ConData) (st : con_state) :
    (∀ w, (dnormD d).window = some w → st.window_rect = (dnormD d).window_rect) ↔
      (∀ w, d.window = some w → st.window_rect = d.window_rect) := by
  rw [dnormD_window_rect]
  unfold dnormD
  rcases hw : d.window with _ | w <;> simp [hw, Option.map]

mutual

theorem settled_cnormD : ∀ (s : XState) (c : Con), settled s (cnormD c) ↔ settled s c
  | s, .mk d n f => by
    rw [show cnormD (.mk d n f) = .mk (dnormD d) (cnormDL n) (cnormDL f) from rfl]
    simp only [settled]
    rw [show Con.mk (dnormD d) (cnormDL n) (cnormDL f) = cnormD (.mk d n f) from rfl]
    rw [x_push_node_rect_cnormD (.mk d n f), is_pixmap_needed_cnormD (.mk d n f),
      x_push_node_mapped_cnormD (.mk d n f), dnormD_frameId, dnormD_frame_buffer,
      dnormD_mapped, window_isSome_dnormD]
    constructor
    · rintro ⟨⟨st, h1, h2, h3, h4, h5, h6, h7⟩, hn, hf⟩
      exact ⟨⟨st, h1, h2, h3, (window_rect_clause_dnormD d st).mp h4, h5, h6, h7⟩,
        (settledL_cnormDL s n).mp hn, (settledL_cnormDL s f).mp hf⟩
    · rintro ⟨⟨st, h1, h2, h3, h4, h5, h6, h7⟩, hn, hf⟩
      exact ⟨⟨st, h1, h2, h3, (window_rect_clause_dnormD d st).mpr h4, h5, h6, h7⟩,
        (settledL_cnormDL s n).mpr hn, (settledL_cnormDL s f).mpr hf⟩

theorem settledL_cnormDL : ∀ (s : XState) (l : List Con),
    settledL s (cnormDL l) ↔ settledL s l
  | s, [] => Iff.rfl
  | s, c :: cs => by
    rw [show cnormDL (c :: cs) = cnormD c :: cnormDL cs from rfl]
    simp only [settledL]
    exact and_congr (settled_cnormD s c) (settledL_cnormDL s cs)

end

mutual

theorem presettled_cnormD : ∀ (s : XState) (c : Con),
    presettled s (cnormD c) ↔ presettled s c
  | s, .mk d n f => by
    rw [show cnormD (.mk d n f) = .mk (dnormD d) (cnormDL n) (cnormDL f) from rfl]
    simp only [presettled]
    rw [show Con.mk (dnormD d) (cnormDL n) (cnormDL f) = cnormD (.mk d n f) from rfl]
    rw [x_push_node_rect_cnormD (.mk d n f), is_pixmap_needed_cnormD (.mk d n f),
      x_push_node_mapped_cnormD (.mk d n f), dnormD_frameId, dnormD_frame_buffer,
      dnormD_mapped, window_isSome_dnormD]
    constructor
    · rintro ⟨⟨st, h1, h2, h3, h4, h5, h6, h7, h8⟩, hn, hf⟩
      exact ⟨⟨st, h1, h2, h3, (window_rect_clause_dnormD d st).mp h4, h5, h6, h7, h8⟩,
        (presettledL_cnormDL s n).mp hn, (presettledL_cnormDL s f).mp hf⟩
    · rintro ⟨⟨st, h1, h2, h3, h4, h5, h6, h7, h8⟩, hn, hf⟩
      exact ⟨⟨st, h1, h2, h3, (window_rect_clause_dnormD d st).mpr h4, h5, h6, h7, h8⟩,
        (presettledL_cnormDL s n).mpr hn, (presettledL_cnormDL s f).mpr hf⟩

theorem presettledL_cnormDL : ∀ (s : XState) (l : List Con),
    presettledL s (cnormDL l) ↔ presettledL s l
  | s, [] => Iff.rfl
  | s, c :: cs => by
    rw [show cnormDL (c :: cs) = cnormD c :: cnormDL cs from rfl]
    simp only [presettledL]
    exact and_congr (presettled_cnormD s c) (presettledL_cnormDL s cs)

end

mutual

theorem unmapsClear_cnormD : ∀ (s : XState) (c : Con),
    unmapsClear s (cnormD c) ↔ unmapsClear s c
  | s, .mk d n f => by
    rw [show cnormD (.mk d n f) = .mk (dnormD d) (cnormDL n) (cnormDL f) from rfl]
    simp only [unmapsClear, dnormD_frameId]
    exact and_congr Iff.rfl (and_congr (unmapsClearL_cnormDL s n) (unmapsClearL_cnormDL s f))

theorem unmapsClearL_cnormDL : ∀ (s : XState) (l : List Con),
    unmapsClearL s (cnormDL l) ↔ unmapsClearL s l
  | s, [] => Iff.rfl
  | s, c :: cs => by
    rw [show cnormDL (c :: cs) = cnormD c :: cnormDL cs from rfl]
    simp only [unmapsClearL]
    exact and_congr (unmapsClear_cnormD s c) (unmapsClearL_cnormDL s cs)

end

theorem mem_treeIds_self (d : ConData) (n f : List Con) :
    d.frameId ∈ treeIds (.mk d n f) := by
  rw [treeIds_mk]
  exact List.mem_cons_self _ _

theorem mem_treeIds_of_nodes {w : Nat} (d : ConData) {n : List Con} (f : List Con)
    (h : w ∈ treeIdsL n) : w ∈ treeIds (.mk d n f) := by
  rw [treeIds_mk]
  exact List.mem_cons_of_mem _ (List.mem_append.mpr (Or.inl h))

theorem mem_treeIds_of_floats {w : Nat} (d : ConData) (n : List Con) {f : List Con}
    (h : w ∈ treeIdsL f) : w ∈ treeIds (.mk d n f) := by
  rw [treeIds_mk]
  exact List.mem_cons_of_mem _ (List.mem_append.mpr (Or.inr h))

theorem mem_treeIdsL_of_head {w : Nat} {c : Con} (cs : List Con) (h : w ∈ treeIds c) :
    w ∈ treeIdsL (c :: cs) := by
  rw [treeIdsL_cons]
  exact List.mem_append.mpr (Or.inl h)

theorem mem_treeIdsL_of_tail {w : Nat} (c : Con) {cs : List Con} (h : w ∈ treeIdsL cs) :
    w ∈ treeIdsL (c :: cs) := by
  rw [treeIdsL_cons]
  exact List.mem_append.mpr (Or.inr h)

mutual

theorem settled_stable : ∀ (s1 s2 : XState) (c : Con),
    (∀ w, w ∈ treeIds c → state_for_frame s2 w = state_for_frame s1 w) →
    (settled s1 c ↔ settled s2 c)
  | s1, s2, .mk d n f, h => by
    simp only [settled]
    rw [h d.frameId (mem_treeIds_self d n f)]
    exact and_congr Iff.rfl (and_congr
      (settledL_stable s1 s2 n (fun w hw => h w (mem_treeIds_of_nodes d f hw)))
      (settledL_stable s1 s2 f (fun w hw => h w (mem_treeIds_of_floats d n hw))))

theorem settledL_stable : ∀ (s1 s2 : XState) (l : List Con),
    (∀ w, w ∈ treeIdsL l → state_for_frame s2 w = state_for_frame s1 w) →
    (settledL s1 l ↔ settledL s2 l)
  | s1, s2, [], h => Iff.rfl
  | s1, s2, c :: cs, h => by
    simp only [settledL]
    exact and_congr
      (settled_stable s1 s2 c (fun w hw => h w (mem_treeIdsL_of_head cs hw)))
      (settledL_stable s1 s2 cs (fun w hw => h w (mem_treeIdsL_of_tail c hw)))

end

mutual

theorem presettled_stable : ∀ (s1 s2 : XState) (c : Con),
    (∀ w, w ∈ treeIds c → state_for_frame s2 w = state_for_frame s1 w) →
    (presettled s1 c ↔ presettled s2 c)
  | s1, s2, .mk d n f, h => by
    simp only [presettled]
    rw [h d.frameId (mem_treeIds_self d n f)]
    exact and_congr Iff.rfl (and_congr
      (presettledL_stable s1 s2 n (fun w hw => h w (mem_treeIds_of_nodes d f hw)))
      (presettledL_stable s1 s2 f (fun w hw => h w (mem_treeIds_of_floats d n hw))))

theorem presettledL_stable : ∀ (s1 s2 : XState) (l : List Con),
    (∀ w, w ∈ treeIdsL l → state_for_frame s2 w = state_for_frame s1 w) →
    (presettledL s1 l ↔ presettledL s2 l)
  | s1, s2, [], h => Iff.rfl
  | s1, s2, c :: cs, h => by
    simp only [presettledL]
    exact and_congr
      (presettled_stable s1 s2 c (fun w hw => h w (mem_treeIdsL_of_head cs hw)))
      (presettledL_stable s1 s2 cs (fun w hw => h w (mem_treeIdsL_of_tail c hw)))

end

mutual

theorem unmapsClear_stable : ∀ (s1 s2 : XState) (c : Con),
    (∀ w, w ∈ treeIds c → state_for_frame s2 w = state_for_frame s1 w) →
    (unmapsClear s1 c ↔ unmapsClear s2 c)
  | s1, s2, .mk d n f, h => by
    simp only [unmapsClear]
    rw [h d.frameId (mem_treeIds_self d n f)]
    exact and_congr Iff.rfl (and_congr
      (unmapsClearL_stable s1 s2 n (fun w hw => h w (mem_treeIds_of_nodes d f hw)))
      (unmapsClearL_stable s1 s2 f (fun w hw => h w (mem_treeIds_of_floats d n hw))))

theorem unmapsClearL_stable : ∀ (s1 s2 : XState) (l : List Con),
    (∀ w, w ∈ treeIdsL l → state_for_frame s2 w = state_for_frame s1 w) →
    (unmapsClearL s1 l ↔ unmapsClearL s2 l)
  | s1, s2, [], h => Iff.rfl
  | s1, s2, c :: cs, h => by
    simp only [unmapsClearL]
    exact and_congr
      (unmapsClear_stable s1 s2 c (fun w hw => h w (mem_treeIdsL_of_head cs hw)))
      (unmapsClearL_stable s1 s2 cs (fun w hw => h w (mem_treeIdsL_of_tail c hw)))

end

theorem settled_set_state_out {s : XState} {st2 : con_state} {c : Con}
    (hout : st2.id ∉ treeIds c) : settled (set_state s st2) c ↔ settled s c :=
  (settled_stable s (set_state s st2) c
    (fun w hw => state_for_frame_set_ne s st2 w (fun he => hout (he ▸ hw)))).symm

theorem presettled_set_state_out {s : XState} {st2 : con_state} {c : Con}
    (hout : st2.id ∉ treeIds c) : presettled (set_state s st2) c ↔ presettled s c :=
  (presettled_stable s (set_state s st2) c
    (fun w hw => state_for_frame_set_ne s st2 w (fun he => hout (he ▸ hw)))).symm

theorem unmapsClear_set_state_out {s : XState} {st2 : con_state} {c : Con}
    (hout : st2.id ∉ treeIds c) : unmapsClear (set_state s st2) c ↔ unmapsClear s c :=
  (unmapsClear_stable s (set_state s st2) c
    (fun w hw => state_for_frame_set_ne s st2 w (fun he => hout (he ▸ hw)))).symm

theorem find?_map_initial (l : List con_state) (w : Nat) :
    (l.map (fun st => { st with initial := false })).find? (fun st => st.id == w) =
      (l.find? (fun st => st.id == w)).map (fun st => { st with initial := false }) := by
  induction l with
  | nil => rfl
  | cons st rest ih =>
    simp only [List.map, List.find?]
    rcases hb : (st.id == w) with _ | _
    · simp only [show (({ st with initial := false } : con_state).id == w) = false from hb,
        ih]
    · simp only [show (({ st with initial := false } : con_state).id == w) = true from hb,
        Option.map]

mutual

theorem settled_map_initial : ∀ (s1 s2 : XState) (c : Con),
    (∀ w, state_for_frame s2 w =
      (state_for_frame s1 w).map (fun st => { st with initial := false })) →
    settled s1 c → settled s2 c
  | s1, s2, .mk d n f, h => by
    simp only [settled]
    rintro ⟨⟨st, h1, h2, h3, h4, h5, h6, h7⟩, hn, hf⟩
    refine ⟨⟨{ st with initial := false }, ?_, h2, h3, h4, h5, h6, h7⟩,
      settledL_map_initial s1 s2 n h hn, settledL_map_initial s1 s2 f h hf⟩
    rw [h d.frameId, h1]
    rfl

theorem settledL_map_initial : ∀ (s1 s2 : XState) (l : List Con),
    (∀ w, state_for_frame s2 w =
      (state_for_frame s1 w).map (fun st => { st with initial := false })) →
    settledL s1 l → settledL s2 l
  | s1, s2, [], h => fun _ => trivial
  | s1, s2, c :: cs, h => by
    simp only [settledL]
    rintro ⟨h1, h2⟩
    exact ⟨settled_map_initial s1 s2 c h h1, settledL_map_initial s1 s2 cs h h2⟩

end

/-! ## The decoration walk preserves everything but the cached fields -/

theorem cnormD_setData_params (c : Con) (p : Option deco_render_params) :
    cnormD (c.setData { c.data with deco_params := p }) = cnormD c := by
  cases c with
  | mk d n f => rfl

theorem cnormDL_map_clear_params (l : List Con) :
    cnormDL (l.map (fun n => n.setData { n.data with deco_params := none })) =
      cnormDL l := by
  induction l with
  | nil => rfl
  | cons c cs ih =>
    simp only [List.map, cnormDL]
    rw [cnormD_setData_params, ih]

theorem cnormD_repaint (ctx : DrawCtx) (p : deco_render_params) (con0 : Con) :
    cnormD (x_draw_deco_repaint ctx p con0).1 = cnormD con0 ∧
    cnormDL (x_draw_deco_repaint ctx p con0).2.1.later_nodes =
      cnormDL ctx.later_nodes := by
  cases con0 with
  | mk d n f =>
    unfold x_draw_deco_repaint
    simp only []
    constructor
    · rcases hw : d.window with _ | w
      · simp only [Con.setData, Con.data, Con.nodes, Con.floats, hw]
        simp only [cnormD, dnormD, hw]
      · simp only [Con.setData, Con.data, Con.nodes, Con.floats, hw]
        rcases hn : w.name_x_changed with _ | _
        · simp only [hn, Bool.false_eq_true, if_false]
          simp only [cnormD, dnormD, hw]
        · simp only [hn, if_true]
          simp only [cnormD, dnormD, hw, Option.map]
    · exact cnormDL_map_clear_params _

theorem cnormD_draw_decoration (cfg : Config) (ctx : DrawCtx) (con : Con) :
    cnormD (x_draw_decoration cfg ctx con).1 = cnormD con ∧
    cnormDL (x_draw_decoration cfg ctx con).2.1.later_nodes =
      cnormDL ctx.later_nodes := by
  unfold x_draw_decoration
  repeat' (first | split | simp only [])
  all_goals
    first
    | exact ⟨rfl, rfl⟩
    | exact ⟨trivial, rfl⟩
    | exact cnormD_repaint _ _ _

set_option maxRecDepth 4000 in
theorem deco_walk_cnormD (fuel : Nat) :
    (∀ cfg s ctx c,
      cnormD (x_deco_recurse fuel cfg s ctx c).1 = cnormD c ∧
      ∀ dctx u, ctx = some dctx → (x_deco_recurse fuel cfg s ctx c).2.1 = some u →
        cnormDL u.later_nodes = cnormDL dctx.later_nodes) ∧
    (∀ cfg s c, cnormD (x_deco_children fuel cfg s c).1 = cnormD c) ∧
    (∀ cfg s pd ppr ppar fi l,
      cnormDL (deco_nodes_loop fuel cfg s pd ppr ppar fi l).1 = cnormDL l) ∧
    (∀ cfg s pd ppr ppar l,
      cnormDL (deco_floats_loop fuel cfg s pd ppr ppar l).1 = cnormDL l) := by
  induction fuel with
  | zero =>
    refine ⟨?_, ?_, ?_, ?_⟩
    · intro cfg s ctx c
      constructor
      · simp only [x_deco_recurse]
      · intro dctx u hctx hu
        subst hctx
        simp only [x_deco_recurse, Option.map] at hu
        cases hu
        rfl
    · intro cfg s c
      cases c with
      | mk d n f =>
        simp only [x_deco_children, deco_nodes_loop, deco_floats_loop, cnormD]
        rfl
    · intro cfg s pd ppr ppar fi l
      simp only [deco_nodes_loop]
    · intro cfg s pd ppr ppar l
      simp only [deco_floats_loop]
  | succ m ih =>
    obtain ⟨ihR, ihC, ihN, ihF⟩ := ih
    have hN : ∀ cfg s pd ppr ppar fi l,
        cnormDL (deco_nodes_loop (m + 1) cfg s pd ppr ppar fi l).1 = cnormDL l := by
      intro cfg s pd ppr ppar fi l
      cases l with
      | nil => simp only [deco_nodes_loop]
      | cons cur rest =>
        simp only [deco_nodes_loop]
        simp only [cnormDL]
        obtain ⟨hcon, hupd⟩ := ihR cfg s (some _) cur
        rw [hcon, ihN]
        congr 1
        rcases hu : (x_deco_recurse m cfg s (some _) cur).2.1 with _ | u
        · simp only [hu, Option.getD_none]
          rfl
        · simp only [hu, Option.getD_some]
          exact hupd _ u rfl hu
    have hF : ∀ cfg s pd ppr ppar l,
        cnormDL (deco_floats_loop (m + 1) cfg s pd ppr ppar l).1 = cnormDL l := by
      intro cfg s pd ppr ppar l
      cases l with
      | nil => simp only [deco_floats_loop]
      | cons cur rest =>
        simp only [deco_floats_loop]
        simp only [cnormDL]
        obtain ⟨hcon, hupd⟩ := ihR cfg s (some _) cur
        rw [hcon, ihF]
    have hC : ∀ cfg s c, cnormD (x_deco_children (m + 1) cfg s c).1 = cnormD c := by
      intro cfg s c
      cases c with
      | mk d n f =>
        simp only [x_deco_children]
        simp only [cnormD]
        rw [hN, hF]
        rfl
    refine ⟨?_, hC, hN, hF⟩
    intro cfg s ctx c
    rcases ctx with _ | dctx0
    · constructor
      · simp only [x_deco_recurse]
        repeat' split
        all_goals
          first
          | rfl
          | exact ihC cfg s c
      · intro dctx u hctx' hu
        cases hctx'
    · constructor
      · simp only [x_deco_recurse]
        repeat' split
        all_goals
          first
          | rfl
          | exact ihC cfg s c
          | (rw [(cnormD_draw_decoration cfg dctx0 _).1]
             try first
             | rfl
             | exact ihC cfg s c)
      · intro dctx u hctx' hu
        injection hctx' with hd
        subst hd
        revert hu
        simp only [x_deco_recurse]
        repeat' split
        all_goals intro hu
        all_goals
          first
          | (injection hu with hu2
             subst hu2
             exact (cnormD_draw_decoration cfg dctx0 _).2)
          | (simp only [Option.map] at hu
             injection hu with hu2
             subst hu2
             rfl)

theorem set_state_initial_pred (s : XState) (st2 : con_state)
    (hall : ∀ st ∈ s.states, st.initial = false) (h2 : st2.initial = false) :
    ∀ st ∈ (set_state s st2).states, st.initial = false := by
  intro st hmem
  rcases mem_replace_state hmem with h | rfl
  · exact hall st h
  · exact h2

theorem nodup_treeIds_mk {d : ConData} {n f : List Con}
    (h : (treeIds (.mk d n f)).Nodup) :
    (treeIdsL n).Nodup ∧ (treeIdsL f).Nodup ∧ d.frameId ∉ treeIdsL n ∧
      d.frameId ∉ treeIdsL f ∧ ∀ w ∈ treeIdsL n, w ∉ treeIdsL f := by
  rw [treeIds_mk] at h
  rcases List.nodup_cons.mp h with ⟨hhead, happ⟩
  rcases List.nodup_append.mp happ with ⟨hn, hf, hdisj⟩
  refine ⟨hn, hf, ?_, ?_, ?_⟩
  · intro hc; exact hhead (List.mem_append.mpr (Or.inl hc))
  · intro hc; exact hhead (List.mem_append.mpr (Or.inr hc))
  · intro w hw hwf
    exact hdisj hw hwf

theorem nodup_treeIdsL_cons {c : Con} {cs : List Con}
    (h : (treeIdsL (c :: cs)).Nodup) :
    (treeIds c).Nodup ∧ (treeIdsL cs).Nodup ∧ ∀ w ∈ treeIds c, w ∉ treeIdsL cs := by
  rw [treeIdsL_cons] at h
  rcases List.nodup_append.mp h with ⟨h1, h2, hd⟩
  exact ⟨h1, h2, fun w hw hw2 => hd hw hw2⟩

theorem x_push_node_rect_congrD {a b : Con} (h : cnormD a = cnormD b) :
    x_push_node_rect a = x_push_node_rect b := by
  rw [← x_push_node_rect_cnormD a, h, x_push_node_rect_cnormD b]

theorem x_push_node_rect_congrP {a b : Con} (h : cnormP a = cnormP b) :
    x_push_node_rect a = x_push_node_rect b := by
  rw [← x_push_node_rect_cnormP a, h, x_push_node_rect_cnormP b]

theorem x_push_node_mapped_congrD {a b : Con} (h : cnormD a = cnormD b) :
    x_push_node_mapped a = x_push_node_mapped b := by
  rw [← x_push_node_mapped_cnormD a, h, x_push_node_mapped_cnormD b]

theorem is_pixmap_needed_congrD {a b : Con} (h : cnormD a = cnormD b) :
    is_pixmap_needed a = is_pixmap_needed b := by
  rw [← is_pixmap_needed_cnormD a, h, is_pixmap_needed_cnormD b]

theorem is_pixmap_needed_congrP {a b : Con} (h : cnormP a = cnormP b) :
    is_pixmap_needed a = is_pixmap_needed b := by
  rw [← is_pixmap_needed_cnormP a, h, is_pixmap_needed_cnormP b]

theorem treeIds_congrD {a b : Con} (h : cnormD a = cnormD b) : treeIds a = treeIds b := by
  rw [← treeIds_cnormD a, h, treeIds_cnormD b]

theorem treeIds_congrP {a b : Con} (h : cnormP a = cnormP b) : treeIds a = treeIds b := by
  rw [← treeIds_cnormP a, h, treeIds_cnormP b]

theorem treeIdsL_congrDL {l1 l2 : List Con} (h : cnormDL l1 = cnormDL l2) :
    treeIdsL l1 = treeIdsL l2 := by
  rw [← treeIdsL_cnormDL l1, h, treeIdsL_cnormDL l2]

theorem treeIdsL_congrPL {l1 l2 : List Con} (h : cnormPL l1 = cnormPL l2) :
    treeIdsL l1 = treeIdsL l2 := by
  rw [← treeIdsL_cnormPL l1, h, treeIdsL_cnormPL l2]

theorem conDepth_congrP {a b : Con} (h : cnormP a = cnormP b) : conDepth a = conDepth b := by
  rw [← conDepth_cnormP a, h, conDepth_cnormP b]

theorem conDepth_congrD {a b : Con} (h : cnormD a = cnormD b) : conDepth a = conDepth b := by
  rw [← conDepth_cnormD a, h, conDepth_cnormD b]

theorem conDepthL_congrPL {l1 l2 : List Con} (h : cnormPL l1 = cnormPL l2) :
    conDepthL l1 = conDepthL l2 := by
  rw [← conDepthL_cnormPL l1, h, conDepthL_cnormPL l2]

theorem wfCon_congrD {s : XState} {a b : Con} (h : cnormD a = cnormD b) :
    wfCon s a = wfCon s b := by
  rw [← wfCon_cnormD s a, h, wfCon_cnormD s b]

theorem wfCon_congrP {s : XState} {a b : Con} (h : cnormP a = cnormP b) :
    wfCon s a = wfCon s b := by
  rw [← wfCon_cnormP s a, h, wfCon_cnormP s b]

theorem settled_congrD {s : XState} {a b : Con} (h : cnormD a = cnormD b) :
    settled s a ↔ settled s b :=
  Iff.trans (settled_cnormD s a).symm (by rw [h]; exact settled_cnormD s b)

theorem settledL_congrDL {s : XState} {l1 l2 : List Con} (h : cnormDL l1 = cnormDL l2) :
    settledL s l1 ↔ settledL s l2 :=
  Iff.trans (settledL_cnormDL s l1).symm (by rw [h]; exact settledL_cnormDL s l2)

theorem presettled_congrD {s : XState} {a b : Con} (h : cnormD a = cnormD b) :
    presettled s a ↔ presettled s b :=
  Iff.trans (presettled_cnormD s a).symm (by rw [h]; exact presettled_cnormD s b)

theorem presettledL_congrDL {s : XState} {l1 l2 : List Con} (h : cnormDL l1 = cnormDL l2) :
    presettledL s l1 ↔ presettledL s l2 :=
  Iff.trans (presettledL_cnormDL s l1).symm (by rw [h]; exact presettledL_cnormDL s l2)

theorem unmapsClear_congrD {s : XState} {a b : Con} (h : cnormD a = cnormD b) :
    unmapsClear s a ↔ unmapsClear s b :=
  Iff.trans (unmapsClear_cnormD s a).symm (by rw [h]; exact unmapsClear_cnormD s b)

theorem unmapsClearL_congrDL {s : XState} {l1 l2 : List Con} (h : cnormDL l1 = cnormDL l2) :
    unmapsClearL s l1 ↔ unmapsClearL s l2 :=
  Iff.trans (unmapsClearL_cnormDL s l1).symm (by rw [h]; exact unmapsClearL_cnormDL s l2)

mutual

theorem wfCon_congr : ∀ (s1 s2 : XState) (c : Con),
    s1.states.map (fun st => st.id) = s2.states.map (fun st => st.id) →
    wfCon s1 c = wfCon s2 c
  | s1, s2, .mk d n f, h => by
    simp only [wfCon]
    rw [state_for_frame_isSome_congr h, wfConL_congr s1 s2 n h, wfConL_congr s1 s2 f h]

theorem wfConL_congr : ∀ (s1 s2 : XState) (l : List Con),
    s1.states.map (fun st => st.id) = s2.states.map (fun st => st.id) →
    wfConL s1 l = wfConL s2 l
  | s1, s2, [], h => rfl
  | s1, s2, c :: cs, h => by
    simp only [wfConL]
    rw [wfCon_congr s1 s2 c h, wfConL_congr s1 s2 cs h]

end

theorem state_for_frame_id {s : XState} {w : Nat} {st : con_state}
    (h : state_for_frame s w = some st) : st.id = w := by
  have h2 : s.states.find? (fun x => x.id == w) = some st := h
  have h3 := List.find?_some h2
  exact eq_of_beq h3

mutual

theorem unmaps_main : ∀ (s : XState) (c : Con),
    (x_push_node_unmaps s c).1.states.map (fun st => st.id) =
      s.states.map (fun st => st.id) ∧
    (∀ w, w ∉ treeIds c →
      state_for_frame (x_push_node_unmaps s c).1 w = state_for_frame s w) ∧
    cnormD (x_push_node_unmaps s c).2.1 = cnormD c ∧
    ((treeIds c).Nodup → presettled s c →
      settled (x_push_node_unmaps s c).1 (x_push_node_unmaps s c).2.1) ∧
    ((∀ st ∈ s.states, st.initial = false) →
      ∀ st ∈ (x_push_node_unmaps s c).1.states, st.initial = false) ∧
    (unmapsClear s c → x_push_node_unmaps s c = (s, c, []))
  | s, .mk d n f => by
    rcases hfind : state_for_frame s d.frameId with _ | st
    · -- no shadow record: the own stage is a no-op
      have hres : x_push_node_unmaps s (.mk d n f) =
          ((x_push_node_unmaps_list (x_push_node_unmaps_list s n).1 f).1,
           Con.mk d (x_push_node_unmaps_list s n).2.1
             (x_push_node_unmaps_list (x_push_node_unmaps_list s n).1 f).2.1,
           [] ++ (x_push_node_unmaps_list s n).2.2 ++
             (x_push_node_unmaps_list (x_push_node_unmaps_list s n).1 f).2.2) := by
        simp only [x_push_node_unmaps, hfind]
      obtain ⟨An, Bn, Cn, Dn, En, Fn⟩ := unmaps_mainL s n
      obtain ⟨Af, Bf, Cf, Df, Ef, Ff⟩ :=
        unmaps_mainL (x_push_node_unmaps_list s n).1 f
      rw [hres]
      refine ⟨Af.trans An, ?_, ?_, ?_, fun hall => Ef (En hall), ?_⟩
      · intro w hw
        exact (Bf w (fun hc => hw (mem_treeIds_of_floats d n hc))).trans
          (Bn w (fun hc => hw (mem_treeIds_of_nodes d f hc)))
      · simp only [cnormD]
        rw [Cn, Cf]
      · intro hnd hps
        obtain ⟨st0, hst0, -⟩ := hps.1
        rw [hfind] at hst0
        cases hst0
      · intro hclear
        obtain ⟨ho, hn2, hf2⟩ := hclear
        have Fn2 := Fn hn2
        rw [Fn2]
        simp only []
        have Ff2 := (unmaps_mainL s f).2.2.2.2.2 hf2
        rw [Ff2]
        rfl
    · -- the record exists
      have hid : st.id = d.frameId := state_for_frame_id hfind
      rcases hun : st.unmap_now with _ | _
      · -- no pending unmap: the own stage is again a no-op
        have hres : x_push_node_unmaps s (.mk d n f) =
            ((x_push_node_unmaps_list (x_push_node_unmaps_list s n).1 f).1,
             Con.mk d (x_push_node_unmaps_list s n).2.1
               (x_push_node_unmaps_list (x_push_node_unmaps_list s n).1 f).2.1,
             [] ++ (x_push_node_unmaps_list s n).2.2 ++
               (x_push_node_unmaps_list (x_push_node_unmaps_list s n).1 f).2.2) := by
          simp only [x_push_node_unmaps, hfind, hun, Bool.false_eq_true, if_false]
        obtain ⟨An, Bn, Cn, Dn, En, Fn⟩ := unmaps_mainL s n
        obtain ⟨Af, Bf, Cf, Df, Ef, Ff⟩ :=
          unmaps_mainL (x_push_node_unmaps_list s n).1 f
        have hC : cnormD (Con.mk d (x_push_node_unmaps_list s n).2.1
            (x_push_node_unmaps_list (x_push_node_unmaps_list s n).1 f).2.1) =
            cnormD (.mk d n f) := by
          simp only [cnormD]
          rw [Cn, Cf]
        rw [hres]
        refine ⟨Af.trans An, ?_, hC, ?_, fun hall => Ef (En hall), ?_⟩
        · intro w hw
          exact (Bf w (fun hc => hw (mem_treeIds_of_floats d n hc))).trans
            (Bn w (fun hc => hw (mem_treeIds_of_nodes d f hc)))
        · intro hnd hps
          obtain ⟨hnN, hnF, hidN, hidF, hdisjNF⟩ := nodup_treeIds_mk hnd
          obtain ⟨⟨st0, hst0, hrect, hpix, hwr, hmapfix, hunT, hunF, hchild⟩, psn, psf⟩ :=
            hps
          rw [hfind] at hst0
          injection hst0 with hst0e
          subst hst0e
          have hsn : settledL (x_push_node_unmaps_list s n).1
              (x_push_node_unmaps_list s n).2.1 := Dn hnN psn
          have hsf : settledL (x_push_node_unmaps_list (x_push_node_unmaps_list s n).1 f).1
              (x_push_node_unmaps_list (x_push_node_unmaps_list s n).1 f).2.1 := by
            refine Df hnF ?_
            exact (presettledL_stable s (x_push_node_unmaps_list s n).1 f
              (fun w hw => Bn w (fun hc => hdisjNF w hc hw))).mp psf
          have hsn2 : settledL (x_push_node_unmaps_list (x_push_node_unmaps_list s n).1 f).1
              (x_push_node_unmaps_list s n).2.1 := by
            refine (settledL_stable (x_push_node_unmaps_list s n).1 _
              (x_push_node_unmaps_list s n).2.1 ?_).mp hsn
            intro w hw
            have hw2 : w ∈ treeIdsL n := by
              rw [← treeIdsL_congrDL Cn]
              exact hw
            exact Bf w (fun hc => hdisjNF w hw2 hc)
          have hfd : state_for_frame
              (x_push_node_unmaps_list (x_push_node_unmaps_list s n).1 f).1 d.frameId =
              some st := by
            rw [Bf d.frameId hidF, Bn d.frameId hidN, hfind]
          simp only [settled]
          refine ⟨⟨st, hfd, ?_, ?_, hwr, hunF hun, ?_, ?_⟩, hsn2, hsf⟩
          · rw [x_push_node_rect_congrD hC]
            exact hrect
          · rw [is_pixmap_needed_congrD hC]
            exact hpix
          · rw [x_push_node_mapped_congrD hC]
            exact hmapfix
          · exact hchild
        · intro hclear
          obtain ⟨ho, hn2, hf2⟩ := hclear
          have Fn2 := Fn hn2
          rw [Fn2]
          simp only []
          have Ff2 := (unmaps_mainL s f).2.2.2.2.2 hf2
          rw [Ff2]
          rfl
      · -- pending unmap: write back the new map state and unmap the frame
        have hres : x_push_node_unmaps s (.mk d n f) =
            ((x_push_node_unmaps_list
                (x_push_node_unmaps_list (set_state s { st with mapped := d.mapped }) n).1
                f).1,
             Con.mk
               (match d.window with
                | some _ => { d with ignore_unmap := d.ignore_unmap + 1 }
                | none => d)
               (x_push_node_unmaps_list (set_state s { st with mapped := d.mapped }) n).2.1
               (x_push_node_unmaps_list
                 (x_push_node_unmaps_list (set_state s { st with mapped := d.mapped }) n).1
                 f).2.1,
             ((match d.window with
               | some w => [XOp.changeProperty w.id]
               | none => []) ++ [XOp.unmapWindow d.frameId]) ++
               (x_push_node_unmaps_list (set_state s { st with mapped := d.mapped }) n).2.2 ++
               (x_push_node_unmaps_list
                 (x_push_node_unmaps_list (set_state s { st with mapped := d.mapped }) n).1
                 f).2.2) := by
          simp only [x_push_node_unmaps, hfind, hun, if_true]
        obtain ⟨An, Bn, Cn, Dn, En, Fn⟩ :=
          unmaps_mainL (set_state s { st with mapped := d.mapped }) n
        obtain ⟨Af, Bf, Cf, Df, Ef, Ff⟩ :=
          unmaps_mainL
            (x_push_node_unmaps_list (set_state s { st with mapped := d.mapped }) n).1 f
        have hdn : dnormD (match d.window with
            | some _ => { d with ignore_unmap := d.ignore_unmap + 1 }
            | none => d) = dnormD d := by
          rcases hq : d.window with _ | w
          · simp only [hq]
          · simp only [hq]
            rw [← hq]
            rfl
        have hwdw : (match d.window with
            | some _ => { d with ignore_unmap := d.ignore_unmap + 1 }
            | none => d).window = d.window := by
          rcases hq : d.window with _ | w <;> simp only [hq]
        have hwrct : (match d.window with
            | some _ => { d with ignore_unmap := d.ignore_unmap + 1 }
            | none => d).window_rect = d.window_rect := by
          rcases hq : d.window with _ | w <;> simp only [hq]
        have hmap : (match d.window with
            | some _ => { d with ignore_unmap := d.ignore_unmap + 1 }
            | none => d).mapped = d.mapped := by
          rcases hq : d.window with _ | w <;> simp only [hq]
        have hfb : (match d.window with
            | some _ => { d with ignore_unmap := d.ignore_unmap + 1 }
            | none => d).frame_buffer = d.frame_buffer := by
          rcases hq : d.window with _ | w <;> simp only [hq]
        have hfrm : (match d.window with
            | some _ => { d with ignore_unmap := d.ignore_unmap + 1 }
            | none => d).frameId = d.frameId := by
          rcases hq : d.window with _ | w <;> simp only [hq]
        have hC : cnormD (Con.mk
            (match d.window with
             | some _ => { d with ignore_unmap := d.ignore_unmap + 1 }
             | none => d)
            (x_push_node_unmaps_list (set_state s { st with mapped := d.mapped }) n).2.1
            (x_push_node_unmaps_list
              (x_push_node_unmaps_list (set_state s { st with mapped := d.mapped }) n).1
              f).2.1) = cnormD (.mk d n f) := by
          simp only [cnormD]
          rw [Cn, Cf, hdn]
        rw [hres]
        have hmapid : (set_state s { st with mapped := d.mapped }).states.map
            (fun st => st.id) = s.states.map (fun st => st.id) :=
          set_state_map_id s _
        refine ⟨(Af.trans An).trans hmapid, ?_, hC, ?_, ?_, ?_⟩
        · intro w hw
          have h1 : w ≠ ({ st with mapped := d.mapped } : con_state).id := by
            show w ≠ st.id
            rw [hid]
            intro hcontra
            exact hw (hcontra ▸ mem_treeIds_self d n f)
          exact ((Bf w (fun hc => hw (mem_treeIds_of_floats d n hc))).trans
            (Bn w (fun hc => hw (mem_treeIds_of_nodes d f hc)))).trans
            (state_for_frame_set_ne s _ w h1)
        · intro hnd hps
          obtain ⟨hnN, hnF, hidN, hidF, hdisjNF⟩ := nodup_treeIds_mk hnd
          obtain ⟨⟨st0, hst0, hrect, hpix, hwr, hmapfix, hunT, hunF, hchild⟩, psn, psf⟩ :=
            hps
          rw [hfind] at hst0
          injection hst0 with hst0e
          subst hst0e
          have hstid : ({ st with mapped := d.mapped } : con_state).id = d.frameId := hid
          have psn2 : presettledL (set_state s { st with mapped := d.mapped }) n := by
            refine (presettledL_stable s _ n ?_).mp psn
            intro w hw
            refine state_for_frame_set_ne s _ w ?_
            show w ≠ ({ st with mapped := d.mapped } : con_state).id
            rw [hstid]
            intro hcontra
            exact hidN (hcontra ▸ hw)
          have psf2 : presettledL
              (x_push_node_unmaps_list (set_state s { st with mapped := d.mapped }) n).1
              f := by
            refine (presettledL_stable s _ f ?_).mp psf
            intro w hw
            refine (Bn w (fun hc => hdisjNF w hc hw)).trans ?_
            refine state_for_frame_set_ne s _ w ?_
            show w ≠ ({ st with mapped := d.mapped } : con_state).id
            rw [hstid]
            intro hcontra
            exact hidF (hcontra ▸ hw)
          have hsn : settledL
              (x_push_node_unmaps_list (set_state s { st with mapped := d.mapped }) n).1
              (x_push_node_unmaps_list (set_state s { st with mapped := d.mapped }) n).2.1 :=
            Dn hnN psn2
          have hsf : settledL
              (x_push_node_unmaps_list
                (x_push_node_unmaps_list (set_state s { st with mapped := d.mapped }) n).1
                f).1
              (x_push_node_unmaps_list
                (x_push_node_unmaps_list (set_state s { st with mapped := d.mapped }) n).1
                f).2.1 := Df hnF psf2
          have hsn2 : settledL
              (x_push_node_unmaps_list
                (x_push_node_unmaps_list (set_state s { st with mapped := d.mapped }) n).1
                f).1
              (x_push_node_unmaps_list (set_state s { st with mapped := d.mapped }) n).2.1
              := by
            refine (settledL_stable _ _ _ ?_).mp hsn
            intro w hw
            have hw2 : w ∈ treeIdsL n := by
              rw [← treeIdsL_congrDL Cn]
              exact hw
            exact Bf w (fun hc => hdisjNF w hw2 hc)
          have hfd : state_for_frame
              (x_push_node_unmaps_list
                (x_push_node_unmaps_list (set_state s { st with mapped := d.mapped }) n).1
                f).1 d.frameId = some { st with mapped := d.mapped } := by
            rw [Bf d.frameId hidF, Bn d.frameId hidN]
            rw [show d.frameId = ({ st with mapped := d.mapped } : con_state).id from
              hstid.symm]
            refine state_for_frame_set_self s _ ?_
            rw [hstid, hfind]
            rfl
          simp only [settled]
          refine ⟨⟨{ st with mapped := d.mapped }, ?_, ?_, ?_, ?_, ?_, ?_, ?_⟩,
            hsn2, hsf⟩
          · rw [hfrm]
            exact hfd
          · rw [x_push_node_rect_congrD hC]
            exact hrect
          · rw [is_pixmap_needed_congrD hC, hfb]
            exact hpix
          · rw [hwdw, hwrct]
            exact hwr
          · rw [hmap]
          · rw [x_push_node_mapped_congrD hC, hmap]
            exact hmapfix
          · rw [hwdw, hmap]
            exact hchild
        · intro hall
          refine Ef (En ?_)
          refine set_state_initial_pred s _ hall ?_
          show st.initial = false
          exact hall st (state_for_frame_mem hfind)
        · intro hclear
          obtain ⟨ho, hn2, hf2⟩ := hclear
          have := ho st hfind
          rw [this] at hun
          cases hun

theorem unmaps_mainL : ∀ (s : XState) (l : List Con),
    (x_push_node_unmaps_list s l).1.states.map (fun st => st.id) =
      s.states.map (fun st => st.id) ∧
    (∀ w, w ∉ treeIdsL l →
      state_for_frame (x_push_node_unmaps_list s l).1 w = state_for_frame s w) ∧
    cnormDL (x_push_node_unmaps_list s l).2.1 = cnormDL l ∧
    ((treeIdsL l).Nodup → presettledL s l →
      settledL (x_push_node_unmaps_list s l).1 (x_push_node_unmaps_list s l).2.1) ∧
    ((∀ st ∈ s.states, st.initial = false) →
      ∀ st ∈ (x_push_node_unmaps_list s l).1.states, st.initial = false) ∧
    (unmapsClearL s l → x_push_node_unmaps_list s l = (s, l, []))
  | s, [] => by
    refine ⟨rfl, fun w hw => rfl, rfl, fun _ _ => trivial, fun h => h, fun _ => ?_⟩
    simp only [x_push_node_unmaps_list]
  | s, c :: cs => by
    have hres : x_push_node_unmaps_list s (c :: cs) =
        ((x_push_node_unmaps_list (x_push_node_unmaps s c).1 cs).1,
         (x_push_node_unmaps s c).2.1 ::
           (x_push_node_unmaps_list (x_push_node_unmaps s c).1 cs).2.1,
         (x_push_node_unmaps s c).2.2 ++
           (x_push_node_unmaps_list (x_push_node_unmaps s c).1 cs).2.2) := by
      simp only [x_push_node_unmaps_list]
    obtain ⟨A1, B1, C1, D1, E1, F1⟩ := unmaps_main s c
    obtain ⟨A2, B2, C2, D2, E2, F2⟩ := unmaps_mainL (x_push_node_unmaps s c).1 cs
    rw [hres]
    refine ⟨A2.trans A1, ?_, ?_, ?_, fun hall => E2 (E1 hall), ?_⟩
    · intro w hw
      exact (B2 w (fun hc => hw (mem_treeIdsL_of_tail c hc))).trans
        (B1 w (fun hc => hw (mem_treeIdsL_of_head cs hc)))
    · simp only [cnormDL]
      rw [C1, C2]
    · intro hnd hps
      obtain ⟨ndc, ndcs, hdisj⟩ := nodup_treeIdsL_cons hnd
      obtain ⟨ps1, ps2⟩ := hps
      have hs1 : settled (x_push_node_unmaps s c).1 (x_push_node_unmaps s c).2.1 :=
        D1 ndc ps1
      have ps2b : presettledL (x_push_node_unmaps s c).1 cs := by
        refine (presettledL_stable s _ cs ?_).mp ps2
        intro w hw
        exact B1 w (fun hc => hdisj w hc hw)
      have hs2 : settledL (x_push_node_unmaps_list (x_push_node_unmaps s c).1 cs).1
          (x_push_node_unmaps_list (x_push_node_unmaps s c).1 cs).2.1 := D2 ndcs ps2b
      have hs1b : settled (x_push_node_unmaps_list (x_push_node_unmaps s c).1 cs).1
          (x_push_node_unmaps s c).2.1 := by
        refine (settled_stable _ _ _ ?_).mp hs1
        intro w hw
        have hw2 : w ∈ treeIds c := by
          rw [← treeIds_congrD C1]
          exact hw
        exact B2 w (fun hc => hdisj w hw2 hc)
      exact ⟨hs1b, hs2⟩
    · intro hclear
      obtain ⟨h1, h2⟩ := hclear
      have F1b := F1 h1
      rw [F1b]
      simp only []
      have F2b := (unmaps_mainL s cs).2.2.2.2.2 h2
      rw [F2b]
      rfl

end

theorem conListL_append : ∀ (a b : List Con),
    conListL (a ++ b) = conListL a ++ conListL b
  | [], b => rfl
  | c :: cs, b => by
    show conList c ++ conListL (cs ++ b) = (conList c ++ conListL cs) ++ conListL b
    rw [conListL_append cs b, List.append_assoc]

theorem treeIdsL_append (a b : List Con) :
    treeIdsL (a ++ b) = treeIdsL a ++ treeIdsL b := by
  simp only [treeIdsL, conListL_append, List.map_append]

theorem conDepth_le_of_mem : ∀ {c : Con} {l : List Con}, c ∈ l →
    conDepth c ≤ conDepthL l
  | c, x :: xs, h => by
    rcases List.mem_cons.mp h with rfl | h
    · simp only [conDepthL]
      exact Nat.le_max_left _ _
    · simp only [conDepthL]
      exact le_trans (conDepth_le_of_mem h) (Nat.le_max_right _ _)

theorem treeIds_sub_of_mem : ∀ {c : Con} {l : List Con}, c ∈ l →
    ∀ {w : Nat}, w ∈ treeIds c → w ∈ treeIdsL l
  | c, x :: xs, h, w, hw => by
    rcases List.mem_cons.mp h with rfl | h
    · rw [treeIdsL_cons]
      exact List.mem_append.mpr (Or.inl hw)
    · rw [treeIdsL_cons]
      exact List.mem_append.mpr (Or.inr (treeIds_sub_of_mem h hw))

theorem nodup_treeIds_of_mem : ∀ {c : Con} {l : List Con}, c ∈ l →
    (treeIdsL l).Nodup → (treeIds c).Nodup
  | c, x :: xs, h, hnd => by
    rw [treeIdsL_cons] at hnd
    rcases List.mem_cons.mp h with rfl | h
    · exact hnd.of_append_left
    · exact nodup_treeIds_of_mem h hnd.of_append_right

theorem nodup_append_disjoint {u v : List Nat} (h : (u ++ v).Nodup) :
    ∀ {a : Nat}, a ∈ u → a ∉ v := by
  intro a ha hv
  exact (List.nodup_append.mp h).2.2 ha hv

theorem wfConL_mem : ∀ {s : XState} {l : List Con}, wfConL s l = true →
    ∀ {c : Con}, c ∈ l → wfCon s c = true
  | s, x :: xs, h, c, hm => by
    simp only [wfConL, Bool.and_eq_true] at h
    rcases List.mem_cons.mp hm with rfl | hm
    · exact h.1
    · exact wfConL_mem h.2 hm

theorem frameId_mem_treeIds : ∀ c : Con, c.data.frameId ∈ treeIds c
  | .mk d n f => mem_treeIds_self d n f

theorem cnormPL_mem_ex : ∀ {l1 l2 : List Con}, cnormPL l1 = cnormPL l2 →
    ∀ {x : Con}, x ∈ l1 → ∃ y ∈ l2, cnormP x = cnormP y
  | x1 :: xs1, y1 :: ys1, h, x, hm => by
    rw [show cnormPL (x1 :: xs1) = cnormP x1 :: cnormPL xs1 from rfl,
      show cnormPL (y1 :: ys1) = cnormP y1 :: cnormPL ys1 from rfl] at h
    injection h with h1 h2
    rcases List.mem_cons.mp hm with rfl | hm
    · exact ⟨y1, List.mem_cons_self _ _, h1⟩
    · obtain ⟨y, hy, he⟩ := cnormPL_mem_ex h2 hm
      exact ⟨y, List.mem_cons_of_mem _ hy, he⟩
  | x1 :: xs1, [], h, x, hm => by
    rw [show cnormPL (x1 :: xs1) = cnormP x1 :: cnormPL xs1 from rfl] at h
    cases h

theorem cnormDL_mem_ex : ∀ {l1 l2 : List Con}, cnormDL l1 = cnormDL l2 →
    ∀ {x : Con}, x ∈ l1 → ∃ y ∈ l2, cnormD x = cnormD y
  | x1 :: xs1, y1 :: ys1, h, x, hm => by
    rw [show cnormDL (x1 :: xs1) = cnormD x1 :: cnormDL xs1 from rfl,
      show cnormDL (y1 :: ys1) = cnormD y1 :: cnormDL ys1 from rfl] at h
    injection h with h1 h2
    rcases List.mem_cons.mp hm with rfl | hm
    · exact ⟨y1, List.mem_cons_self _ _, h1⟩
    · obtain ⟨y, hy, he⟩ := cnormDL_mem_ex h2 hm
      exact ⟨y, List.mem_cons_of_mem _ hy, he⟩
  | x1 :: xs1, [], h, x, hm => by
    rw [show cnormDL (x1 :: xs1) = cnormD x1 :: cnormDL xs1 from rfl] at h
    cases h

theorem frameId_congrD {a b : Con} (h : cnormD a = cnormD b) :
    a.data.frameId = b.data.frameId := by
  cases a with
  | mk d n f =>
    cases b with
    | mk d2 n2 f2 =>
      rw [show cnormD (.mk d n f) = .mk (dnormD d) (cnormDL n) (cnormDL f) from rfl,
        show cnormD (.mk d2 n2 f2) = .mk (dnormD d2) (cnormDL n2) (cnormDL f2) from rfl] at h
      injection h with h1 h2 h3
      show d.frameId = d2.frameId
      rw [← dnormD_frameId d, h1, dnormD_frameId]

theorem frameId_congrP {a b : Con} (h : cnormP a = cnormP b) :
    a.data.frameId = b.data.frameId := by
  cases a with
  | mk d n f =>
    cases b with
    | mk d2 n2 f2 =>
      rw [show cnormP (.mk d n f) = .mk (dnormP d) (cnormPL n) (cnormPL f) from rfl,
        show cnormP (.mk d2 n2 f2) = .mk (dnormP d2) (cnormPL n2) (cnormPL f2) from rfl] at h
      injection h with h1 h2 h3
      show d.frameId = d2.frameId
      rw [← dnormP_frameId d, h1, dnormP_frameId]

theorem cnormP_components {a b : Con} (h : cnormP a = cnormP b) :
    dnormP a.data = dnormP b.data ∧ cnormPL a.nodes = cnormPL b.nodes ∧
      cnormPL a.floats = cnormPL b.floats := by
  cases a with
  | mk d n f =>
    cases b with
    | mk d2 n2 f2 =>
      rw [show cnormP (.mk d n f) = .mk (dnormP d) (cnormPL n) (cnormPL f) from rfl,
        show cnormP (.mk d2 n2 f2) = .mk (dnormP d2) (cnormPL n2) (cnormPL f2) from rfl] at h
      injection h with h1 h2 h3
      exact ⟨h1, h2, h3⟩

theorem cnormD_components {a b : Con} (h : cnormD a = cnormD b) :
    dnormD a.data = dnormD b.data ∧ cnormDL a.nodes = cnormDL b.nodes ∧
      cnormDL a.floats = cnormDL b.floats := by
  cases a with
  | mk d n f =>
    cases b with
    | mk d2 n2 f2 =>
      rw [show cnormD (.mk d n f) = .mk (dnormD d) (cnormDL n) (cnormDL f) from rfl,
        show cnormD (.mk d2 n2 f2) = .mk (dnormD d2) (cnormDL n2) (cnormDL f2) from rfl] at h
      injection h with h1 h2 h3
      exact ⟨h1, h2, h3⟩

theorem splitById_none (id : Nat) : ∀ {l : List Con}, splitById id l = none →
    ∀ {ch : Con}, ch ∈ l → ch.data.frameId ≠ id
  | [], _, ch, hm => absurd hm (List.not_mem_nil ch)
  | c :: cs, h, ch, hm => by
    simp only [splitById] at h
    rcases hb : (c.data.frameId == id) with _ | _
    · rw [hb] at h
      simp only [Bool.false_eq_true, if_false] at h
      rcases List.mem_cons.mp hm with rfl | hm2
      · intro hc
        rw [hc] at hb
        simp at hb
      · rcases hsp : splitById id cs with _ | r
        · exact splitById_none id hsp hm2
        · rw [hsp] at h
          cases h
    · rw [hb] at h
      simp only [if_true] at h
      cases h

theorem presettledL_forall : ∀ {s : XState} {l : List Con},
    (∀ c ∈ l, presettled s c) → presettledL s l
  | s, [], _ => trivial
  | s, c :: cs, h =>
    ⟨h c (List.mem_cons_self _ _),
     presettledL_forall (fun x hx => h x (List.mem_cons_of_mem _ hx))⟩

theorem settledL_forall : ∀ {s : XState} {l : List Con},
    (∀ c ∈ l, settled s c) → settledL s l
  | s, [], _ => trivial
  | s, c :: cs, h =>
    ⟨h c (List.mem_cons_self _ _),
     settledL_forall (fun x hx => h x (List.mem_cons_of_mem _ hx))⟩

theorem settledL_mem : ∀ {s : XState} {l : List Con}, settledL s l →
    ∀ {c : Con}, c ∈ l → settled s c
  | s, x :: xs, h, c, hm => by
    rcases List.mem_cons.mp hm with rfl | hm
    · exact h.1
    · exact settledL_mem h.2 hm


theorem x_push_node_name_facts (fid : Nat) (st : con_state) :
    (x_push_node_name fid st).1.id = st.id ∧
    (x_push_node_name fid st).1.initial = st.initial ∧
    (x_push_node_name fid st).1.rect = st.rect ∧
    (x_push_node_name fid st).1.window_rect = st.window_rect ∧
    (x_push_node_name fid st).1.mapped = st.mapped ∧
    (x_push_node_name fid st).1.child_mapped = st.child_mapped ∧
    (x_push_node_name fid st).1.unmap_now = st.unmap_now ∧
    (x_push_node_name fid st).2.filter isCountedOp = [] := by
  unfold x_push_node_name
  split <;> simp [isCountedOp]

theorem x_push_node_reparent_facts (st : con_state) (c : Con) :
    (x_push_node_reparent st c).1.id = st.id ∧
    (x_push_node_reparent st c).1.initial = st.initial ∧
    (x_push_node_reparent st c).1.rect = st.rect ∧
    (x_push_node_reparent st c).1.window_rect = st.window_rect ∧
    (x_push_node_reparent st c).1.mapped = st.mapped ∧
    (x_push_node_reparent st c).1.child_mapped = st.child_mapped ∧
    (x_push_node_reparent st c).1.unmap_now = st.unmap_now ∧
    cnormD (x_push_node_reparent st c).2.1 = cnormD c ∧
    (x_push_node_reparent st c).2.2.2.filter isCountedOp = [] := by
  cases c with
  | mk d n f =>
    unfold x_push_node_reparent
    repeat' split
    all_goals
      simp [isCountedOp, cnormD, dnormD, Con.setData, Con.data, Con.nodes, Con.floats]

theorem x_push_node_free_facts (p : Bool) (c : Con) :
    cnormP (x_push_node_free p c).1 = cnormP c ∧
    (x_push_node_free p c).1.data.mapped = c.data.mapped ∧
    (x_push_node_free p c).1.data.window_rect = c.data.window_rect ∧
    (x_push_node_free p c).1.data.window.isSome = c.data.window.isSome ∧
    (x_push_node_free p c).1.data.frameId = c.data.frameId ∧
    (p = true → (x_push_node_free p c).1.data.frame_buffer = c.data.frame_buffer) := by
  cases c with
  | mk d n f =>
    unfold x_push_node_free
    split
    · rename_i hcond
      simp only [Bool.and_eq_true, Bool.not_eq_eq_eq_not, Bool.not_true] at hcond
      refine ⟨?_, rfl, rfl, rfl, rfl, ?_⟩
      · simp [cnormP, dnormP, dnormD, Con.setData, Con.data, Con.nodes, Con.floats]
      · intro hp
        rw [hp] at hcond
        cases hcond.1
    · exact ⟨rfl, rfl, rfl, rfl, rfl, fun _ => rfl⟩

theorem x_push_node_alloc_char (cfg : Config) (s : XState) (ctx : Option DrawCtx)
    (st : con_state) (rect : Rect) (d : ConData) (n f : List Con) :
    ∃ fb2, (x_push_node_alloc cfg s ctx st rect (Con.mk d n f)).1.states = s.states ∧
      cnormD (x_push_node_alloc cfg s ctx st rect (Con.mk d n f)).2.1 =
        cnormD (Con.mk { d with frame_buffer := some fb2, pixmap_recreated := true } n f) ∧
      (∀ dctx u, ctx = some dctx →
        (x_push_node_alloc cfg s ctx st rect (Con.mk d n f)).2.2.1 = some u →
        cnormDL u.later_nodes = cnormDL dctx.later_nodes) := by
  rcases hfb : d.frame_buffer with _ | fb
  · refine ⟨s.next_id, ?_⟩
    simp only [x_push_node_alloc, Con.data, Con.setData, Con.nodes, Con.floats,
      x_deco_recurse_at, hfb]
    split
    · obtain ⟨hcon, hupd⟩ := (deco_walk_cnormD _).1 cfg _ ctx _
      refine ⟨rfl, hcon, ?_⟩
      intro dctx u hctx hu
      subst hctx
      exact hupd dctx u rfl hu
    · exact ⟨rfl, rfl, fun dctx u _ hu => by cases hu⟩
  · refine ⟨fb, ?_⟩
    simp only [x_push_node_alloc, Con.data, Con.setData, Con.nodes, Con.floats,
      x_deco_recurse_at, hfb]
    split
    · obtain ⟨hcon, hupd⟩ := (deco_walk_cnormD _).1 cfg _ ctx _
      refine ⟨rfl, hcon, ?_⟩
      intro dctx u hctx hu
      subst hctx
      exact hupd dctx u rfl hu
    · exact ⟨rfl, rfl, fun dctx u _ hu => by cases hu⟩

theorem x_push_node_alloc_facts (cfg : Config) (s : XState) (ctx : Option DrawCtx)
    (st : con_state) (rect : Rect) (c1 : Con) :
    (x_push_node_alloc cfg s ctx st rect c1).1.states = s.states ∧
    cnormP (x_push_node_alloc cfg s ctx st rect c1).2.1 = cnormP c1 ∧
    (x_push_node_alloc cfg s ctx st rect c1).2.1.data.mapped = c1.data.mapped ∧
    (x_push_node_alloc cfg s ctx st rect c1).2.1.data.window_rect = c1.data.window_rect ∧
    (x_push_node_alloc cfg s ctx st rect c1).2.1.data.window.isSome =
      c1.data.window.isSome ∧
    (x_push_node_alloc cfg s ctx st rect c1).2.1.data.frameId = c1.data.frameId ∧
    (x_push_node_alloc cfg s ctx st rect c1).2.1.data.frame_buffer.isSome = true ∧
    (∀ dctx u, ctx = some dctx → (x_push_node_alloc cfg s ctx st rect c1).2.2.1 = some u →
      cnormDL u.later_nodes = cnormDL dctx.later_nodes) := by
  cases c1 with
  | mk d n f =>
    obtain ⟨fb2, hstates, hcon, hupd⟩ := x_push_node_alloc_char cfg s ctx st rect d n f
    obtain ⟨hdd, hnn, hff⟩ := cnormD_components hcon
    refine ⟨hstates, ?_, ?_, ?_, ?_, ?_, ?_, hupd⟩
    · have h2 := congrArg cnormP hcon
      rw [cnormP_cnormD, cnormP_cnormD] at h2
      rw [h2]
      simp [cnormP, dnormP, dnormD]
    · rw [← dnormD_mapped, hdd, dnormD_mapped]
      rfl
    · rw [← dnormD_window_rect, hdd, dnormD_window_rect]
      rfl
    · rw [← window_isSome_dnormD, hdd, window_isSome_dnormD]
      rfl
    · rw [← dnormD_frameId, hdd, dnormD_frameId]
      rfl
    · rw [← dnormD_frame_buffer, hdd, dnormD_frame_buffer]
      rfl

theorem isSome_of_isNone_false {α : Type _} {o : Option α} (h : o.isNone = false) :
    o.isSome = true := by
  cases o
  · cases h
  · rfl

theorem geometry_guard_false {st : con_state} {rect : Rect} {c : Con}
    (h1 : st.rect = rect ∨ ¬ 0 < rect.height)
    (h2 : is_pixmap_needed c = true → c.data.frame_buffer.isSome = true) :
    (is_pixmap_needed c && c.data.frame_buffer.isNone ||
      (!rect_equals st.rect rect && decide (0 < rect.height))) = false := by
  have hpix : (is_pixmap_needed c && c.data.frame_buffer.isNone) = false := by
    rcases hpn : is_pixmap_needed c with _ | _
    · rfl
    · have hs := h2 hpn
      rcases ho : c.data.frame_buffer with _ | fb
      · rw [ho] at hs
        cases hs
      · simp [ho]
  have hrect : (!rect_equals st.rect rect && decide (0 < rect.height)) = false := by
    rcases h1 with h1 | h1
    · have : rect_equals st.rect rect = true := rect_equals_eq.mpr h1
      simp [this]
    · simp [h1]
  rw [hpix, hrect]
  rfl

theorem x_push_node_geometry_facts (cfg : Config) (s : XState) (ctx : Option DrawCtx)
    (st : con_state) (rect : Rect) (c : Con) :
    (x_push_node_geometry cfg s ctx st rect c).s.states = s.states ∧
    (x_push_node_geometry cfg s ctx st rect c).st.id = st.id ∧
    (x_push_node_geometry cfg s ctx st rect c).st.initial = st.initial ∧
    (x_push_node_geometry cfg s ctx st rect c).st.window_rect = st.window_rect ∧
    (x_push_node_geometry cfg s ctx st rect c).st.mapped = st.mapped ∧
    (x_push_node_geometry cfg s ctx st rect c).st.child_mapped = st.child_mapped ∧
    (x_push_node_geometry cfg s ctx st rect c).st.unmap_now = st.unmap_now ∧
    ((x_push_node_geometry cfg s ctx st rect c).st.rect = rect ∨
      (¬ 0 < rect.height ∧ (x_push_node_geometry cfg s ctx st rect c).st.rect = st.rect)) ∧
    cnormP (x_push_node_geometry cfg s ctx st rect c).con = cnormP c ∧
    (x_push_node_geometry cfg s ctx st rect c).con.data.mapped = c.data.mapped ∧
    (x_push_node_geometry cfg s ctx st rect c).con.data.window_rect =
      c.data.window_rect ∧
    (x_push_node_geometry cfg s ctx st rect c).con.data.window.isSome =
      c.data.window.isSome ∧
    (x_push_node_geometry cfg s ctx st rect c).con.data.frameId = c.data.frameId ∧
    (is_pixmap_needed c = true →
      (x_push_node_geometry cfg s ctx st rect c).con.data.frame_buffer.isSome = true) ∧
    (∀ dctx u, ctx = some dctx →
      (x_push_node_geometry cfg s ctx st rect c).upd = some u →
      cnormDL u.later_nodes = cnormDL dctx.later_nodes) ∧
    ((st.rect = rect ∨ ¬ 0 < rect.height) →
      (is_pixmap_needed c = true → c.data.frame_buffer.isSome = true) →
      x_push_node_geometry cfg s ctx st rect c =
        { s := s, st := st, con := c, upd := none, fake := false, tr := [] }) := by
  simp only [x_push_node_geometry]
  split
  · rename_i hcond
    have hfr := x_push_node_free_facts (is_pixmap_needed c) c
    split
    · rename_i hal
      have hac := x_push_node_alloc_facts cfg s ctx st rect
        (x_push_node_free (is_pixmap_needed c) c).1
      refine ⟨hac.1, rfl, rfl, rfl, rfl, rfl, rfl, Or.inl rfl, ?_, ?_, ?_, ?_, ?_,
        fun _ => hac.2.2.2.2.2.2.1, hac.2.2.2.2.2.2.2, ?_⟩
      · rw [hac.2.1, hfr.1]
      · rw [hac.2.2.1, hfr.2.1]
      · rw [hac.2.2.2.1, hfr.2.2.1]
      · rw [hac.2.2.2.2.1, hfr.2.2.2.1]
      · rw [hac.2.2.2.2.2.1, hfr.2.2.2.2.1]
      · intro h1 h2
        rw [geometry_guard_false h1 h2] at hcond
        cases hcond
    · rename_i hal
      refine ⟨rfl, rfl, rfl, rfl, rfl, rfl, rfl, Or.inl rfl, hfr.1, hfr.2.1,
        hfr.2.2.1, hfr.2.2.2.1, hfr.2.2.2.2.1, ?_, ?_, ?_⟩
      case refine_2 => intro dctx u hctx h; cases h
      · intro hpn
        have hal2 : (is_pixmap_needed c &&
            ((!(st.rect.x == rect.x && st.rect.y == rect.y &&
               st.rect.width == rect.width && st.rect.height == rect.height)) ||
             (x_push_node_free (is_pixmap_needed c) c).1.data.frame_buffer.isNone)) =
            false := by
          rcases hq : (is_pixmap_needed c &&
            ((!(st.rect.x == rect.x && st.rect.y == rect.y &&
               st.rect.width == rect.width && st.rect.height == rect.height)) ||
             (x_push_node_free (is_pixmap_needed c) c).1.data.frame_buffer.isNone))
            with _ | _
          · rfl
          · exact absurd hq hal
        rcases Bool.and_eq_false_iff.mp hal2 with h | h
        · rw [hpn] at h
          cases h
        · rw [Bool.or_eq_false_iff] at h
          exact isSome_of_isNone_false h.2
      · intro h1 h2
        rw [geometry_guard_false h1 h2] at hcond
        cases hcond
  · rename_i hcond
    have hc2 : (is_pixmap_needed c && c.data.frame_buffer.isNone ||
        (!rect_equals st.rect rect && decide (0 < rect.height))) = false := by
      rcases hq : (is_pixmap_needed c && c.data.frame_buffer.isNone ||
        (!rect_equals st.rect rect && decide (0 < rect.height))) with _ | _
      · rfl
      · exact absurd hq hcond
    rw [Bool.or_eq_false_iff, Bool.and_eq_false_iff, Bool.and_eq_false_iff] at hc2
    refine ⟨rfl, rfl, rfl, rfl, rfl, rfl, rfl, ?_, rfl, rfl, rfl, rfl, rfl, ?_,
      ?_, fun _ _ => rfl⟩
    case refine_3 => intro dctx u hctx h; cases h
    · rcases hc2.2 with h | h
      · left
        have hre : rect_equals st.rect rect = true := by
          rcases hr : rect_equals st.rect rect with _ | _
          · rw [hr] at h
            cases h
          · rfl
        exact rect_equals_eq.mp hre
      · right
        refine ⟨?_, rfl⟩
        intro hlt
        rw [decide_eq_true hlt] at h
        cases h
    · intro hpn
      rcases hc2.1 with h | h
      · rw [hpn] at h
        cases h
      · exact isSome_of_isNone_false h


theorem x_push_node_window_rect_facts (st : con_state) (c : Con) :
    (x_push_node_window_rect st c).1.id = st.id ∧
    (x_push_node_window_rect st c).1.initial = st.initial ∧
    (x_push_node_window_rect st c).1.rect = st.rect ∧
    (x_push_node_window_rect st c).1.mapped = st.mapped ∧
    (x_push_node_window_rect st c).1.child_mapped = st.child_mapped ∧
    (x_push_node_window_rect st c).1.unmap_now = st.unmap_now ∧
    (c.data.window.isSome = true →
      (x_push_node_window_rect st c).1.window_rect = c.data.window_rect) ∧
    (c.data.window.isSome = false →
      (x_push_node_window_rect st c).1.window_rect = st.window_rect) ∧
    ((∀ w, c.data.window = some w → st.window_rect = c.data.window_rect) →
      x_push_node_window_rect st c = (st, false, [])) := by
  rcases hw : c.data.window with _ | w
  · have hres : x_push_node_window_rect st c = (st, false, []) := by
      simp only [x_push_node_window_rect, hw]
    rw [hres]
    exact ⟨rfl, rfl, rfl, rfl, rfl, rfl, fun h => by simp [hw] at h, fun _ => rfl,
      fun _ => rfl⟩
  · rcases hre : rect_equals st.window_rect c.data.window_rect with _ | _
    · have hres : x_push_node_window_rect st c =
          ({ st with window_rect := c.data.window_rect }, true,
           [XOp.setWindowRect w.id c.data.window_rect]) := by
        simp only [x_push_node_window_rect, hw, hre, Bool.not_false, if_true]
      rw [hres]
      refine ⟨rfl, rfl, rfl, rfl, rfl, rfl, fun _ => rfl,
        fun h => by simp [hw] at h, ?_⟩
      intro hall
      have h2 := rect_equals_eq.mpr (hall w rfl)
      rw [h2] at hre
      cases hre
    · have hres : x_push_node_window_rect st c = (st, false, []) := by
        simp only [x_push_node_window_rect, hw, hre, Bool.not_true,
          Bool.false_eq_true, if_false]
      rw [hres]
      exact ⟨rfl, rfl, rfl, rfl, rfl, rfl, fun _ => rect_equals_eq.mp hre,
        fun h => by simp [hw] at h, fun _ => rfl⟩

theorem x_push_node_map_facts (st : con_state) (c : Con) :
    (x_push_node_map st c).1.id = st.id ∧
    (x_push_node_map st c).1.initial = st.initial ∧
    (x_push_node_map st c).1.rect = st.rect ∧
    (x_push_node_map st c).1.window_rect = st.window_rect ∧
    (x_push_node_map st c).1.unmap_now = st.unmap_now ∧
    (c.data.mapped = true → (x_push_node_map st c).1.mapped = true) ∧
    (c.data.mapped = false → (x_push_node_map st c).1.mapped = st.mapped) ∧
    (c.data.window.isSome = true → c.data.mapped = true →
      (x_push_node_map st c).1.child_mapped = true) ∧
    (st.mapped = c.data.mapped →
      (c.data.window.isSome = true → c.data.mapped = true → st.child_mapped = true) →
      x_push_node_map st c = (st, [])) := by
  rcases hw : c.data.window with _ | w <;>
    rcases hm : c.data.mapped with _ | _ <;>
      rcases hsm : st.mapped with _ | _ <;>
        rcases hcm : st.child_mapped with _ | _ <;>
          simp_all [x_push_node_map, hw, hm, hsm, hcm]

theorem set_hidden_state_facts (c : Con) (st : con_state) :
    (set_hidden_state c st).1.id = st.id ∧
    (set_hidden_state c st).1.initial = st.initial ∧
    (set_hidden_state c st).1.rect = st.rect ∧
    (set_hidden_state c st).1.window_rect = st.window_rect ∧
    (set_hidden_state c st).1.mapped = st.mapped ∧
    (set_hidden_state c st).1.child_mapped = st.child_mapped ∧
    (set_hidden_state c st).1.unmap_now = st.unmap_now ∧
    (set_hidden_state c st).2.filter isCountedOp = [] := by
  unfold set_hidden_state
  repeat' split
  all_goals simp [isCountedOp]

theorem set_maximized_state_facts (c : Con) (st : con_state) :
    (set_maximized_state c st).1.id = st.id ∧
    (set_maximized_state c st).1.initial = st.initial ∧
    (set_maximized_state c st).1.rect = st.rect ∧
    (set_maximized_state c st).1.window_rect = st.window_rect ∧
    (set_maximized_state c st).1.mapped = st.mapped ∧
    (set_maximized_state c st).1.child_mapped = st.child_mapped ∧
    (set_maximized_state c st).1.unmap_now = st.unmap_now ∧
    (set_maximized_state c st).2.filter isCountedOp = [] := by
  unfold set_maximized_state
  repeat' (first | split | simp only [])
  all_goals simp [isCountedOp]

theorem set_shape_state_counted (env : Env) (c : Con) (st : con_state) (nr : Bool) :
    (set_shape_state env c st nr).filter isCountedOp = [] := by
  unfold set_shape_state
  repeat' (first | split | simp only [])
  all_goals simp [isCountedOp, x_shape_frame_ops, x_unshape_frame_ops]

theorem x_push_node_mapped_fix {a b : Con} (hP : cnormP a = cnormP b)
    (hm : a.data.mapped = x_push_node_mapped b) :
    x_push_node_mapped a = a.data.mapped := by
  cases a with
  | mk d n f =>
    cases b with
    | mk d2 n2 f2 =>
      obtain ⟨hdd, hnn, hff⟩ := cnormP_components hP
      simp only [Con.data, Con.nodes, Con.floats] at hdd hnn hff
      have hwn : (d.window = none) = (d2.window = none) := by
        rw [← window_none_dnormP d, hdd, window_none_dnormP]
      have hlay : d.layout = d2.layout := by
        rw [← dnormP_layout d, hdd, dnormP_layout]
      have hfold : deco_height_fold n = deco_height_fold n2 := by
        rw [← deco_height_fold_cnormP n, hnn, deco_height_fold_cnormP]
      simp only [x_push_node_mapped, Con.data, Con.nodes] at hm ⊢
      simp only [hwn, hlay, hfold]
      split
      · rename_i hcc
        split
        · rename_i hz
          rw [if_pos hcc, if_pos hz] at hm
          exact hm.symm
        · rfl
      · rename_i hcc2
        split
        · rename_i hwn2
          rw [if_neg hcc2, if_pos hwn2] at hm
          exact hm.symm
        · rfl


theorem setData_data (c : Con) (d : ConData) : (c.setData d).data = d := by
  cases c
  rfl

theorem setData_nodes (c : Con) (d : ConData) : (c.setData d).nodes = c.nodes := by
  cases c
  rfl

theorem setData_floats (c : Con) (d : ConData) : (c.setData d).floats = c.floats := by
  cases c
  rfl

theorem cnormP_setData_mapped (c : Con) (m : Bool) :
    cnormP (c.setData { c.data with mapped := m }) = cnormP c := by
  cases c
  simp [cnormP, dnormP, dnormD, Con.setData, Con.data, Con.nodes, Con.floats]

theorem cnormP_congrD {a b : Con} (h : cnormD a = cnormD b) : cnormP a = cnormP b := by
  have h2 := congrArg cnormP h
  rw [cnormP_cnormD, cnormP_cnormD] at h2
  exact h2

theorem data_eq_of_cnormD {a b : Con} (h : cnormD a = cnormD b) :
    a.data.mapped = b.data.mapped ∧ a.data.window_rect = b.data.window_rect ∧
    a.data.window.isSome = b.data.window.isSome ∧ a.data.frameId = b.data.frameId ∧
    a.data.frame_buffer = b.data.frame_buffer := by
  obtain ⟨hdd, -, -⟩ := cnormD_components h
  refine ⟨?_, ?_, ?_, ?_, ?_⟩
  · rw [← dnormD_mapped, hdd, dnormD_mapped]
  · rw [← dnormD_window_rect, hdd, dnormD_window_rect]
  · rw [← window_isSome_dnormD, hdd, window_isSome_dnormD]
  · rw [← dnormD_frameId, hdd, dnormD_frameId]
  · rw [← dnormD_frame_buffer, hdd, dnormD_frame_buffer]


theorem push_own_facts (env : Env) (cfg : Config) (s : XState) (ctx : Option DrawCtx)
    (st0 : con_state) (c : Con) :
    (x_push_node_own env cfg s ctx st0 c).1.states = s.states ∧
    cnormP (x_push_node_own env cfg s ctx st0 c).2.1 = cnormP c ∧
    (x_push_node_own env cfg s ctx st0 c).2.1.data.mapped = x_push_node_mapped c ∧
    (x_push_node_own env cfg s ctx st0 c).2.1.data.window_rect = c.data.window_rect ∧
    (x_push_node_own env cfg s ctx st0 c).2.1.data.window.isSome =
      c.data.window.isSome ∧
    (x_push_node_own env cfg s ctx st0 c).2.1.data.frameId = c.data.frameId ∧
    (is_pixmap_needed c = true →
      (x_push_node_own env cfg s ctx st0 c).2.1.data.frame_buffer.isSome = true) ∧
    (∀ dctx u, ctx = some dctx → (x_push_node_own env cfg s ctx st0 c).2.2.1 = some u →
      cnormDL u.later_nodes = cnormDL dctx.later_nodes) ∧
    (x_push_node_own env cfg s ctx st0 c).2.2.2.1.id = st0.id ∧
    (x_push_node_own env cfg s ctx st0 c).2.2.2.1.initial = st0.initial ∧
    ((x_push_node_own env cfg s ctx st0 c).2.2.2.1.rect = x_push_node_rect c ∨
      ¬ 0 < (x_push_node_rect c).height) ∧
    (c.data.window.isSome = true →
      (x_push_node_own env cfg s ctx st0 c).2.2.2.1.window_rect = c.data.window_rect) ∧
    ((x_push_node_own env cfg s ctx st0 c).2.2.2.1.unmap_now = true →
      (x_push_node_own env cfg s ctx st0 c).2.2.2.1.mapped = true ∧
        x_push_node_mapped c = false) ∧
    ((x_push_node_own env cfg s ctx st0 c).2.2.2.1.unmap_now = false →
      (x_push_node_own env cfg s ctx st0 c).2.2.2.1.mapped = x_push_node_mapped c) ∧
    (c.data.window.isSome = true → x_push_node_mapped c = true →
      (x_push_node_own env cfg s ctx st0 c).2.2.2.1.child_mapped = true) := by
  simp only [x_push_node_own]
  set st1 := (x_push_node_name c.data.frameId st0).1 with hst1
  set c1 := c.setData { c.data with mapped := x_push_node_mapped c } with hc1
  set rp := x_push_node_reparent st1 c1 with hrpdef
  set geo := x_push_node_geometry cfg s ctx rp.1 (x_push_node_rect c) rp.2.1 with hgeodef
  set wr := x_push_node_window_rect geo.st geo.con with hwrdef
  set mp := x_push_node_map wr.1 geo.con with hmpdef
  set st6 := { mp.1 with
    unmap_now := mp.1.mapped != geo.con.data.mapped && !geo.con.data.mapped
    was_floating := geo.con.data.floating } with hst6def
  set hid := set_hidden_state geo.con st6 with hhiddef
  set mx := set_maximized_state geo.con hid.1 with hmxdef
  obtain ⟨n1, n2, n3, n4, n5, n6, n7, n8⟩ := x_push_node_name_facts c.data.frameId st0
  obtain ⟨r1, r2, r3, r4, r5, r6, r7, rD, r9⟩ := x_push_node_reparent_facts st1 c1
  obtain ⟨g1, gid, gini, gwr, gmap, gchild, gun, grect, gP, gmapd, gwrd, gwin, gfid,
    gpix, gupd, gnoop⟩ :=
    x_push_node_geometry_facts cfg s ctx rp.1 (x_push_node_rect c) rp.2.1
  obtain ⟨w1, w2, w3, w4, w5, w6, w7, w8, w9⟩ := x_push_node_window_rect_facts geo.st geo.con
  obtain ⟨m1, m2, m3, m4, m5, m6, m7, m8, m9⟩ := x_push_node_map_facts wr.1 geo.con
  obtain ⟨h1, h2, h3, h4, h5, h6, h7, h8⟩ := set_hidden_state_facts geo.con st6
  obtain ⟨x1, x2, x3, x4, x5, x6, x7, x8⟩ := set_maximized_state_facts geo.con hid.1
  -- chained facts about the container
  have hc1P : cnormP c1 = cnormP c := cnormP_setData_mapped c _
  have hc1d : c1.data = { c.data with mapped := x_push_node_mapped c } := setData_data c _
  obtain ⟨e1, e2, e3, e4, e5⟩ := data_eq_of_cnormD rD
  have hc2P : cnormP rp.2.1 = cnormP c := (cnormP_congrD rD).trans hc1P
  have hconP : cnormP geo.con = cnormP c := gP.trans hc2P
  have hmapc2 : rp.2.1.data.mapped = x_push_node_mapped c := by
    rw [e1, hc1d]
  have hconmap : geo.con.data.mapped = x_push_node_mapped c := gmapd.trans hmapc2
  have hwrc2 : rp.2.1.data.window_rect = c.data.window_rect := by
    rw [e2, hc1d]
  have hconwr : geo.con.data.window_rect = c.data.window_rect := gwrd.trans hwrc2
  have hwinc2 : rp.2.1.data.window.isSome = c.data.window.isSome := by
    rw [e3, hc1d]
  have hconwin : geo.con.data.window.isSome = c.data.window.isSome := gwin.trans hwinc2
  have hfidc2 : rp.2.1.data.frameId = c.data.frameId := by
    rw [e4, hc1d]
  have hconfid : geo.con.data.frameId = c.data.frameId := gfid.trans hfidc2
  have hpixc2 : is_pixmap_needed rp.2.1 = is_pixmap_needed c := is_pixmap_needed_congrP hc2P
  refine ⟨g1, hconP, hconmap, hconwr, hconwin, hconfid, ?_, gupd, ?_, ?_, ?_, ?_, ?_,
    ?_, ?_⟩
  · intro hpn
    exact gpix (hpixc2.symm ▸ hpn)
  · rw [x1, h1, show st6.id = mp.1.id from rfl, m1, w1, gid, r1, n1]
  · rw [x2, h2, show st6.initial = mp.1.initial from rfl, m2, w2, gini, r2, n2]
  · rcases grect with hg | ⟨hh, hg⟩
    · left
      rw [x3, h3, show st6.rect = mp.1.rect from rfl, m3, w3, hg]
    · right
      exact hh
  · intro hws
    rw [x4, h4, show st6.window_rect = mp.1.window_rect from rfl, m4]
    rw [w7 (by rw [hconwin]; exact hws)]
    exact hconwr
  · intro hun
    rw [x7, h7, show st6.unmap_now = (mp.1.mapped != geo.con.data.mapped &&
      !geo.con.data.mapped) from rfl] at hun
    rcases hb : geo.con.data.mapped with _ | _
    · constructor
      · rw [x5, h5, show st6.mapped = mp.1.mapped from rfl]
        rcases hmb : mp.1.mapped with _ | _
        · rw [hmb, hb] at hun
          simp at hun
        · rfl
      · rw [← hconmap]
        exact hb
    · rw [hb] at hun
      simp at hun
  · intro hun
    rw [x7, h7, show st6.unmap_now = (mp.1.mapped != geo.con.data.mapped &&
      !geo.con.data.mapped) from rfl] at hun
    rw [x5, h5, show st6.mapped = mp.1.mapped from rfl, ← hconmap]
    rcases hb : geo.con.data.mapped with _ | _
    · rcases hmb : mp.1.mapped with _ | _
      · rfl
      · rw [hmb, hb] at hun
        simp at hun
    · exact m6 hb
  · intro hws hmt
    rw [x6, h6, show st6.child_mapped = mp.1.child_mapped from rfl]
    refine m8 ?_ ?_
    · rw [hconwin]
      exact hws
    · rw [hconmap]
      exact hmt

theorem x_push_node_reparent_nodes (st : con_state) (c : Con) :
    (x_push_node_reparent st c).2.1.nodes = c.nodes ∧
    (x_push_node_reparent st c).2.1.floats = c.floats := by
  unfold x_push_node_reparent
  repeat' split
  all_goals simp [setData_nodes, setData_floats]

theorem push_own_settled (env : Env) (cfg : Config) (s : XState) (ctx : Option DrawCtx)
    (st0 : con_state) (c : Con)
    (h1 : st0.rect = x_push_node_rect c ∨ ¬ 0 < (x_push_node_rect c).height)
    (h2 : is_pixmap_needed c = true → c.data.frame_buffer.isSome = true)
    (h3 : ∀ w, c.data.window = some w → st0.window_rect = c.data.window_rect)
    (h4 : st0.mapped = c.data.mapped)
    (h5 : x_push_node_mapped c = c.data.mapped)
    (h6 : c.data.window.isSome = true → c.data.mapped = true → st0.child_mapped = true) :
    (x_push_node_own env cfg s ctx st0 c).2.2.2.2.filter isCountedOp = [] ∧
    (x_push_node_own env cfg s ctx st0 c).1 = s ∧
    (x_push_node_own env cfg s ctx st0 c).2.1.nodes = c.nodes ∧
    (x_push_node_own env cfg s ctx st0 c).2.1.floats = c.floats := by
  simp only [x_push_node_own]
  set st1 := (x_push_node_name c.data.frameId st0).1 with hst1
  set c1 := c.setData { c.data with mapped := x_push_node_mapped c } with hc1
  set rp := x_push_node_reparent st1 c1 with hrpdef
  obtain ⟨n1, n2, n3, n4, n5, n6, n7, n8⟩ := x_push_node_name_facts c.data.frameId st0
  obtain ⟨r1, r2, r3, r4, r5, r6, r7, rD, r9⟩ := x_push_node_reparent_facts st1 c1
  obtain ⟨rn, rf⟩ := x_push_node_reparent_nodes st1 c1
  have hc1P : cnormP c1 = cnormP c := cnormP_setData_mapped c _
  have hc1d : c1.data = { c.data with mapped := x_push_node_mapped c } := setData_data c _
  obtain ⟨e1, e2, e3, e4, e5⟩ := data_eq_of_cnormD rD
  have hc2P : cnormP rp.2.1 = cnormP c := (cnormP_congrD rD).trans hc1P
  have hpixc2 : is_pixmap_needed rp.2.1 = is_pixmap_needed c := is_pixmap_needed_congrP hc2P
  have hfb2 : rp.2.1.data.frame_buffer = c.data.frame_buffer := by
    rw [e5, hc1d]
  have hm2 : rp.2.1.data.mapped = x_push_node_mapped c := by
    rw [e1, hc1d]
  have hwr2 : rp.2.1.data.window_rect = c.data.window_rect := by
    rw [e2, hc1d]
  have hwin2 : rp.2.1.data.window.isSome = c.data.window.isSome := by
    rw [e3, hc1d]
  have ggeo : x_push_node_geometry cfg s ctx rp.1 (x_push_node_rect c) rp.2.1 =
      { s := s, st := rp.1, con := rp.2.1, upd := none, fake := false, tr := [] } := by
    refine (x_push_node_geometry_facts cfg s ctx rp.1 (x_push_node_rect c)
      rp.2.1).2.2.2.2.2.2.2.2.2.2.2.2.2.2.2 ?_ ?_
    · rw [r3, n3]
      exact h1
    · intro hpn
      rw [hfb2]
      exact h2 (hpixc2 ▸ hpn)
  rw [ggeo]
  dsimp only
  have gwr : x_push_node_window_rect rp.1 rp.2.1 = (rp.1, false, []) := by
    refine (x_push_node_window_rect_facts rp.1 rp.2.1).2.2.2.2.2.2.2.2 ?_
    intro w hw
    rw [r4, n4, hwr2]
    have hiss : c.data.window.isSome = true := by
      rw [← hwin2, hw]
      rfl
    obtain ⟨w2, hw2⟩ := Option.isSome_iff_exists.mp hiss
    exact h3 w2 hw2
  rw [gwr]
  dsimp only
  have gmp : x_push_node_map rp.1 rp.2.1 = (rp.1, []) := by
    refine (x_push_node_map_facts rp.1 rp.2.1).2.2.2.2.2.2.2.2 ?_ ?_
    · rw [r5, n5, hm2, h5]
      exact h4
    · intro hws hmt
      rw [r6, n6]
      refine h6 ?_ ?_
      · rw [← hwin2]
        exact hws
      · rw [← h5, ← hm2]
        exact hmt
  rw [gmp]
  dsimp only
  obtain ⟨i1, i2, i3, i4, i5, i6, i7, i8⟩ := set_hidden_state_facts rp.2.1
    { rp.1 with
      unmap_now := rp.1.mapped != rp.2.1.data.mapped && !rp.2.1.data.mapped
      was_floating := rp.2.1.data.floating }
  obtain ⟨y1, y2, y3, y4, y5, y6, y7, y8⟩ := set_maximized_state_facts rp.2.1
    (set_hidden_state rp.2.1
      { rp.1 with
        unmap_now := rp.1.mapped != rp.2.1.data.mapped && !rp.2.1.data.mapped
        was_floating := rp.2.1.data.floating }).1
  refine ⟨?_, rfl, by rw [rn, setData_nodes], by rw [rf, setData_floats]⟩
  simp only [List.filter_append, n8, r9, set_shape_state_counted, i8, y8,
    Bool.or_false, Bool.false_eq_true, if_false, List.filter_nil,
    List.append_nil, List.nil_append]

theorem C6_deco_cache_witness :
    ((x_draw_decoration baseConfig decoCtx decoCon).2.2.any isRepaintOp = false ↔
      (decoCon.data.deco_params = some (build_deco_params baseConfig decoCtx decoCon) ∧
       windowNameChanged decoCon = false ∧ decoCtx.parent_pixmap_recreated = false ∧
       decoCon.data.pixmap_recreated = false ∧ decoCon.data.mark_changed = false)) ∧
    ((x_draw_decoration baseConfig decoCtx decoCon).2.2.any isRepaintOp = false →
      (x_draw_decoration baseConfig decoCtx decoCon).2.2 = copy_pixmaps_ops decoCon ∧
      (x_draw_decoration baseConfig decoCtx decoCon).1 = decoCon ∧
      (x_draw_decoration baseConfig decoCtx decoCon).2.1 = CtxUpd.ofCtx decoCtx) ∧
    ((x_draw_decoration baseConfig decoCtx decoCon).2.2.any isRepaintOp = true →
      (x_draw_decoration baseConfig decoCtx decoCon).2.1.later_nodes =
        decoCtx.later_nodes.map (fun n => n.setData { n.data with deco_params := none }) ∧
      (x_draw_decoration baseConfig decoCtx decoCon).1.data.deco_params =
        some (build_deco_params baseConfig decoCtx decoCon)) :=
  C6_deco_cache baseConfig decoCtx decoCon (by decide) (by decide) (by decide)

end I3X
